import Mathlib

/-!
Shallow embedding of the Repo-Inspector stat-card generator front end
(`src/unnamed/part_002`, with the legacy variants in `src/unnamed/part_000`
and `src/web/app.js` where a claim cites them).

Modelling conventions:
- DOM input values are `String`s, checkboxes are `Bool`s; the generator form
  is the `GenForm` structure below.
- JavaScript numbers are modelled by `JSNum` (NaN, signed infinity, or an
  exact rational).  Float64 rounding is abstracted to exact rationals; the
  claims under verification only exercise values where the two agree.
- Fallible parsing returns `Option`.
-/

namespace RepoInspector

/-! ## Characters, bytes and percent-encoding -/

/-- ASCII hex digit for the high/low nibble of a percent-escaped byte
(uppercase, as produced by `encodeURIComponent` and `URLSearchParams`). -/
def hexDigitChar (n : Nat) : Char :=
  if n < 10 then Char.ofNat (48 + n) else Char.ofNat (55 + n)

/-- Numeric value of an ASCII hex digit, if it is one. -/
def hexVal (c : Char) : Option Nat :=
  if 48 ≤ c.toNat ∧ c.toNat ≤ 57 then some (c.toNat - 48)
  else if 65 ≤ c.toNat ∧ c.toNat ≤ 70 then some (c.toNat - 55)
  else if 97 ≤ c.toNat ∧ c.toNat ≤ 102 then some (c.toNat - 87)
  else none

/-- UTF-8 bytes of one character. -/
def utf8Bytes (c : Char) : List Nat :=
  let n := c.toNat
  if n < 128 then [n]
  else if n < 2048 then [192 + n / 64, 128 + n % 64]
  else if n < 65536 then [224 + n / 4096, 128 + n / 64 % 64, 128 + n % 64]
  else [240 + n / 262144, 128 + n / 4096 % 64, 128 + n / 64 % 64, 128 + n % 64]

/-- Decode a UTF-8 byte list back to characters (malformed sequences decode
byte-by-byte; the claims only exercise well-formed ASCII). -/
def utf8Decode : List Nat → List Char
  | [] => []
  | b :: rest =>
    if b < 128 then Char.ofNat b :: utf8Decode rest
    else if 192 ≤ b ∧ b < 224 then
      if 1 ≤ rest.length then
        Char.ofNat ((b - 192) * 64 + rest.headD 0 % 64) :: utf8Decode (rest.drop 1)
      else [Char.ofNat b]
    else if 224 ≤ b ∧ b < 240 then
      if 2 ≤ rest.length then
        Char.ofNat ((b - 224) * 4096 + rest.headD 0 % 64 * 64 +
          (rest.drop 1).headD 0 % 64) :: utf8Decode (rest.drop 2)
      else [Char.ofNat b]
    else
      if 3 ≤ rest.length then
        Char.ofNat ((b - 240) * 262144 + rest.headD 0 % 64 * 4096 +
          (rest.drop 1).headD 0 % 64 * 64 + (rest.drop 2).headD 0 % 64) ::
          utf8Decode (rest.drop 3)
      else [Char.ofNat b]
  termination_by bs => bs.length
  decreasing_by all_goals simp [List.length_drop] <;> omega

/-- Percent-escape one byte as `%XX`. -/
def pctByte (b : Nat) : List Char :=
  ['%', hexDigitChar (b / 16), hexDigitChar (b % 16)]

/-- Characters left verbatim by the `application/x-www-form-urlencoded`
serializer used by `URLSearchParams.toString()`. -/
def formSafe (c : Char) : Bool :=
  c.isAlphanum || c = '*' || c = '-' || c = '.' || c = '_'

/-- The `application/x-www-form-urlencoded` serializer: safe characters kept,
space becomes `+`, every other byte percent-escaped. -/
def formEncodeChars (s : List Char) : List Char :=
  s.flatMap fun c =>
    if formSafe c then [c]
    else if c = ' ' then ['+']
    else (utf8Bytes c).flatMap pctByte

/-- Characters left verbatim by `encodeURIComponent`. -/
def uriComponentSafe (c : Char) : Bool :=
  c.isAlphanum || c = '-' || c = '_' || c = '.' || c = '!' || c = '~' ||
    c = '*' || c = Char.ofNat 39 || c = '(' || c = ')'

/-- The `encodeURIComponent` escaper (no `+` convention). -/
def encodeURIComponentChars (s : List Char) : List Char :=
  s.flatMap fun c =>
    if uriComponentSafe c then [c] else (utf8Bytes c).flatMap pctByte

/-- Percent-decoding to bytes: `%XX` becomes the byte `XX`, any other
character contributes its UTF-8 bytes (a malformed escape is kept literally;
`decodeURIComponent` would throw there, a case no claim exercises). -/
def percentDecodeBytes : List Char → List Nat
  | [] => []
  | c :: rest =>
    if c = '%' then
      match rest with
      | a :: b :: rest2 =>
        match hexVal a, hexVal b with
        | some x, some y => (16 * x + y) :: percentDecodeBytes rest2
        | _, _ => utf8Bytes '%' ++ percentDecodeBytes (a :: b :: rest2)
      | r => utf8Bytes c ++ percentDecodeBytes r
    else utf8Bytes c ++ percentDecodeBytes rest
  termination_by s => s.length
  decreasing_by all_goals simp_arith [List.length]

/-- The `decodeURIComponent` decoder (no `+` handling). -/
def percentDecode (s : List Char) : List Char :=
  utf8Decode (percentDecodeBytes s)

/-- Query-value decoding as done by `URLSearchParams`: `+` is a space, then
percent-decoding. -/
def formDecode (s : List Char) : List Char :=
  percentDecode (s.map fun c => if c = '+' then ' ' else c)

/-! ## JavaScript numbers -/

/-- Kernel-computable minimum on rationals. -/
def ratMin (a b : ℚ) : ℚ := if a ≤ b then a else b

/-- Kernel-computable maximum on rationals. -/
def ratMax (a b : ℚ) : ℚ := if b ≤ a then a else b

/-- Kernel-computable floor on rationals. -/
def ratFloor (q : ℚ) : ℤ := q.num.fdiv q.den

/-- Kernel-computable absolute value on rationals. -/
def ratAbs (q : ℚ) : ℚ := if q < 0 then -q else q

/-- A JavaScript number as far as this code can observe it: NaN, a signed
infinity, or a finite value (held exactly as a rational). -/
inductive JSNum where
  | nan : JSNum
  | inf (neg : Bool) : JSNum
  | num (q : ℚ) : JSNum
  deriving DecidableEq, Repr

/-- Whitespace accepted by JavaScript's string-to-number conversion
(ASCII portion). -/
def jsSpace (c : Char) : Bool :=
  c = ' ' || c = Char.ofNat 9 || c = Char.ofNat 10 || c = Char.ofNat 11 ||
    c = Char.ofNat 12 || c = Char.ofNat 13 || c = Char.ofNat 160

/-- Trim JavaScript whitespace from both ends. -/
def jsTrimChars (s : List Char) : List Char :=
  ((s.dropWhile jsSpace).reverse.dropWhile jsSpace).reverse

/-- Lowercase a character list (ASCII, as `String.toLowerCase` behaves on
the values this program handles). -/
def lowerChars (s : List Char) : List Char := s.map Char.toLower

/-- JavaScript `String.prototype.trim`. -/
def jsTrim (s : String) : String := String.mk (jsTrimChars s.data)

/-- JavaScript `String.prototype.toLowerCase` (ASCII). -/
def jsLower (s : String) : String := String.mk (lowerChars s.data)

/-- JavaScript `Array.prototype.join(sep)`. -/
def joinWith (sep : String) : List String → String
  | [] => ""
  | [x] => x
  | x :: rest => x ++ sep ++ joinWith sep rest

/-- Value of a digit string (most significant first). -/
def digitsVal (ds : List Char) : Nat :=
  ds.foldl (fun a c => a * 10 + (c.toNat - 48)) 0

/-- Exponent suffix of a JS numeric literal: empty means `10^0`. -/
def parseExpPart : List Char → Option ℚ
  | [] => some 1
  | e :: rest =>
    if e = 'e' ∨ e = 'E' then
      match rest with
      | '+' :: ds =>
          if ds ≠ [] ∧ ds.all Char.isDigit then some ((10 : ℚ) ^ digitsVal ds) else none
      | '-' :: ds =>
          if ds ≠ [] ∧ ds.all Char.isDigit then some (1 / (10 : ℚ) ^ digitsVal ds) else none
      | ds =>
          if ds ≠ [] ∧ ds.all Char.isDigit then some ((10 : ℚ) ^ digitsVal ds) else none
    else none

/-- Unsigned decimal literal `digits [. digits] [exp]` or `. digits [exp]`. -/
def parseUnsignedDec (t : List Char) : Option ℚ :=
  let intPart := t.takeWhile Char.isDigit
  let rest := t.dropWhile Char.isDigit
  match rest with
  | '.' :: rest2 =>
    let frac := rest2.takeWhile Char.isDigit
    let rest3 := rest2.dropWhile Char.isDigit
    if intPart = [] ∧ frac = [] then none
    else
      (parseExpPart rest3).map fun e =>
        ((digitsVal intPart : ℚ) + (digitsVal frac : ℚ) / (10 : ℚ) ^ frac.length) * e
  | _ =>
    if intPart = [] then none
    else (parseExpPart rest).map fun e => (digitsVal intPart : ℚ) * e

/-- Value of a radix-`r` digit string, most significant first. -/
def radixFold (r : Nat) (ds : List Char) : Option Nat :=
  ds.foldl
    (fun acc c =>
      match acc, hexVal c with
      | some a, some d => if d < r then some (a * r + d) else none
      | _, _ => none)
    (some 0)

/-- JavaScript `Number(string)`: trimmed, empty is 0, `Infinity` with an
optional sign, otherwise a decimal literal, or an unsigned `0x`/`0o`/`0b`
radix literal; everything else is NaN. -/
def jsNumber (s : String) : JSNum :=
  let t := jsTrimChars s.data
  if t = [] then .num 0
  else
    let signed : List Char → (ℚ → ℚ) → JSNum := fun body negate =>
      if body = "Infinity".data then .inf (negate 1 < 0)
      else
        match parseUnsignedDec body with
        | some q => .num (negate q)
        | none => .nan
    match t with
    | '+' :: rest => signed rest id
    | '-' :: rest => signed rest Neg.neg
    | '0' :: x :: rest =>
      if x = 'x' ∨ x = 'X' then
        match radixFold 16 rest with
        | some v => if rest = [] then .nan else .num v
        | none => .nan
      else if x = 'o' ∨ x = 'O' then
        match radixFold 8 rest with
        | some v => if rest = [] then .nan else .num v
        | none => .nan
      else if x = 'b' ∨ x = 'B' then
        match radixFold 2 rest with
        | some v => if rest = [] then .nan else .num v
        | none => .nan
      else signed t id
    | _ => signed t id

/-- The string-or-numeric-fallback idiom `Number(node.value || n)`: an empty
string is falsy, so the numeric fallback is used. -/
def jsNumberOr (s : String) (fallback : ℚ) : JSNum :=
  if s = "" then .num fallback else jsNumber s

/-- JavaScript `Number.isFinite`. -/
def JSNum.isFinite : JSNum → Bool
  | .num _ => true
  | _ => false

/-- JavaScript `Math.min` (NaN propagates). -/
def jsMin : JSNum → JSNum → JSNum
  | .nan, _ => .nan
  | _, .nan => .nan
  | .inf true, _ => .inf true
  | _, .inf true => .inf true
  | .inf false, b => b
  | a, .inf false => a
  | .num a, .num b => .num (ratMin a b)

/-- JavaScript `Math.max` (NaN propagates). -/
def jsMax : JSNum → JSNum → JSNum
  | .nan, _ => .nan
  | _, .nan => .nan
  | .inf false, _ => .inf false
  | _, .inf false => .inf false
  | .inf true, b => b
  | a, .inf true => a
  | .num a, .num b => .num (ratMax a b)

/-- JavaScript `Math.round` on a finite value (half rounds toward +∞). -/
def jsRound (q : ℚ) : ℤ := ratFloor (q + 1 / 2)

/-- Decimal digits of the fractional part, with fuel (every value the program
prints has a short terminating expansion). -/
def fracDigits : Nat → ℚ → List Char
  | 0, _ => []
  | fuel + 1, r =>
    if r = 0 then []
    else
      let r10 := r * 10
      Char.ofNat (48 + (ratFloor r10).toNat) :: fracDigits fuel (r10 - ratFloor r10)

/-- Decimal rendering of a nonnegative rational, JS style. -/
def ratToDecimal (q : ℚ) : String :=
  let ip := (ratFloor q).toNat
  let fr := q - ratFloor q
  let ds := fracDigits 40 fr
  if ds = [] then toString ip else toString ip ++ "." ++ String.mk ds

/-- JavaScript number-to-string conversion as observed on the values this
program prints. -/
def JSNum.toJsString : JSNum → String
  | .nan => "NaN"
  | .inf true => "-Infinity"
  | .inf false => "Infinity"
  | .num q => if q < 0 then "-" ++ ratToDecimal (-q) else ratToDecimal q

/-! ## Small shared helpers from the source -/

/-- The `clampNumber` helper (`part_002` lines 545-549): non-finite input
falls back, otherwise clamp into `[lo, hi]`. -/
def clampNumber (value : String) (lo hi fallback : ℚ) : ℚ :=
  match jsNumber value with
  | .num q => ratMax lo (ratMin hi q)
  | _ => fallback

/-- The `parseBooleanValue` helper (`part_002` lines 551-557); `none` models a
null/undefined argument. -/
def parseBooleanValue (value : Option String) (fallback : Bool) : Bool :=
  match value with
  | none => fallback
  | some s =>
    let n := jsLower (jsTrim s)
    if n = "1" ∨ n = "true" ∨ n = "yes" ∨ n = "on" then true
    else if n = "0" ∨ n = "false" ∨ n = "no" ∨ n = "off" then false
    else fallback

/-- ASCII hex digit test used by `HEX_COLOR_RE`. -/
def isHexDigit (c : Char) : Bool :=
  c.isDigit || ('a' ≤ c ∧ c ≤ 'f') || ('A' ≤ c ∧ c ≤ 'F')

/-- The `normalizeHexColor` helper (`part_002` lines 656-663): a `#rgb` or
`#rrggbb` string is expanded and uppercased, anything else is rejected. -/
def normalizeHexColor (value : String) : Option String :=
  let raw := jsTrim value
  match raw.data with
  | '#' :: ds =>
    if (ds.length = 3 ∨ ds.length = 6) ∧ ds.all isHexDigit then
      if ds.length = 3 then
        match ds with
        | [a, b, c] =>
          some (String.mk ['#', a.toUpper, a.toUpper, b.toUpper, b.toUpper,
            c.toUpper, c.toUpper])
        | _ => none
      else some (String.mk ('#' :: ds.map Char.toUpper))
    else none
  | _ => none

/-! ## Constants of the generator page (`part_002` lines 82-244) -/

/-- The 16 palette keys, in source order (`GENERATOR_THEME_KEYS`). -/
def GENERATOR_THEME_KEYS : List String :=
  ["bg_start", "bg_end", "border", "panel", "overlay", "chip_bg", "chip_text",
   "text", "muted", "accent", "accent_2", "accent_soft", "track", "pass",
   "warn", "fail"]

/-- JSON field vocabulary for kind=repo (`GENERATOR_JSON_FIELDS.repo`). -/
def GENERATOR_JSON_FIELDS_repo : List String :=
  ["owner", "name", "full_name", "html_url", "description", "stars", "forks",
   "open_issues", "watchers", "default_branch", "primary_language",
   "license_name", "topics", "archived", "is_fork", "size_kb", "created_at",
   "updated_at", "pushed_at", "homepage", "has_releases", "has_tags",
   "languages", "language_total_bytes"]

/-- JSON field vocabulary for kind=quality (`GENERATOR_JSON_FIELDS.quality`). -/
def GENERATOR_JSON_FIELDS_quality : List String :=
  ["job_id", "commit_sha", "finished_at", "score_total", "report_url",
   "total_code_lines", "total_code_files", "scanned_code_files",
   "status_counts", "category_scores", "detected_stacks", "source", "report"]

/-- The `ocean` preset palette (`GENERATOR_THEME_PRESETS.ocean`). -/
def oceanPreset : List (String × String) :=
  [("bg_start", "#F8FBFF"), ("bg_end", "#EEF5FF"), ("border", "#A8CBFF"),
   ("panel", "#FFFFFF"), ("overlay", "#EDF4FF"), ("chip_bg", "#E7F0FF"),
   ("chip_text", "#2D4E83"), ("text", "#14284B"), ("muted", "#3F6191"),
   ("accent", "#16A4E0"), ("accent_2", "#1AB9A2"), ("accent_soft", "#B8DBFF"),
   ("track", "#D3E3FB"), ("pass", "#0F7F39"), ("warn", "#B55A0C"),
   ("fail", "#BE1D2D")]

/-- The `ember` preset palette (`GENERATOR_THEME_PRESETS.ember`). -/
def emberPreset : List (String × String) :=
  [("bg_start", "#2E120C"), ("bg_end", "#431A12"), ("border", "#8C3E2A"),
   ("panel", "#35160F"), ("overlay", "#2C130D"), ("chip_bg", "#4C2117"),
   ("chip_text", "#FFD6B7"), ("text", "#FFEDE1"), ("muted", "#E5B79A"),
   ("accent", "#FF6A3D"), ("accent_2", "#FFB347"), ("accent_soft", "#6B2A1D"),
   ("track", "#6A2F22"), ("pass", "#58D68D"), ("warn", "#FFC14A"),
   ("fail", "#FF6E6E")]

/-- The `neon` preset palette (`GENERATOR_THEME_PRESETS.neon`). -/
def neonPreset : List (String × String) :=
  [("bg_start", "#090B1B"), ("bg_end", "#140F2B"), ("border", "#3D2E73"),
   ("panel", "#130F28"), ("overlay", "#1B1537"), ("chip_bg", "#231B47"),
   ("chip_text", "#CFFBFF"), ("text", "#F4F6FF"), ("muted", "#B5B9E0"),
   ("accent", "#28F0E2"), ("accent_2", "#FF4FD8"), ("accent_soft", "#2E2A60"),
   ("track", "#37346B"), ("pass", "#55F08A"), ("warn", "#FFD65A"),
   ("fail", "#FF6B9A")]

/-- The `paper` preset palette (`GENERATOR_THEME_PRESETS.paper`). -/
def paperPreset : List (String × String) :=
  [("bg_start", "#FFFDF8"), ("bg_end", "#F4EFE2"), ("border", "#D8CCB1"),
   ("panel", "#FFF9EE"), ("overlay", "#F2EBDC"), ("chip_bg", "#EADFC8"),
   ("chip_text", "#5A4631"), ("text", "#2F2518"), ("muted", "#6F5D49"),
   ("accent", "#8B5E34"), ("accent_2", "#B08952"), ("accent_soft", "#D8C3A3"),
   ("track", "#D9CFBC"), ("pass", "#2E7D32"), ("warn", "#B26A00"),
   ("fail", "#B64033")]

/-- The `forest` preset palette (`GENERATOR_THEME_PRESETS.forest`). -/
def forestPreset : List (String × String) :=
  [("bg_start", "#0F2018"), ("bg_end", "#183129"), ("border", "#2D5E4F"),
   ("panel", "#153027"), ("overlay", "#11251D"), ("chip_bg", "#1E4236"),
   ("chip_text", "#CFEFDF"), ("text", "#EDFDF4"), ("muted", "#A4C7B8"),
   ("accent", "#3ECF8E"), ("accent_2", "#80E3C1"), ("accent_soft", "#255145"),
   ("track", "#2C5044"), ("pass", "#54D98C"), ("warn", "#E3B84F"),
   ("fail", "#F07F7F")]

/-- `GENERATOR_THEME_PRESETS` as a name-indexed table. -/
def GENERATOR_THEME_PRESETS : List (String × List (String × String)) :=
  [("ocean", oceanPreset), ("ember", emberPreset), ("neon", neonPreset),
   ("paper", paperPreset), ("forest", forestPreset)]

/-- Modelled from the spec: the options of the theme select element
(`gen-theme`), which lives in server-rendered markup not present under
`src/`; the spec fixes it as a closed name set including `custom`, and
`selectedGeneratorPresetId` fixes the preset names. -/
def GENERATOR_THEME_OPTIONS : List String :=
  ["ocean", "ember", "neon", "paper", "forest", "custom"]

/-- The user-facing import failure message (`TEXT_I18N.en.invalidGeneratorRepoUrl`). -/
def invalidGeneratorRepoUrlMsg : String :=
  "Enter a valid GitHub URL, stats API URL, or Markdown embed like ![...](https://.../api?...)."

/-! ## The generator form state -/

/-- One checkbox of a multi-select panel (`.gen-hide-option` /
`.gen-field-option`): its `value`, its `data-kinds` annotation (the empty
string models an absent attribute), and its checked/disabled state. -/
structure MultiOpt where
  value : String
  kinds : String
  checked : Bool
  disabled : Bool
  deriving DecidableEq, Repr

/-- The generator form: the values of every `gen-*` control the modelled
functions read or write.  Option checkboxes carry their own state;
`colors` holds the 16 `gen-color-*` input values keyed by palette key. -/
structure GenForm where
  owner : String
  repo : String
  kind : String
  format : String
  theme : String
  locale : String
  title : String
  width : String
  langs : String
  duration : String
  cacheSeconds : String
  animate : Bool
  includeReport : Bool
  animation : String
  themePreset : String
  hide : String
  fieldsHidden : String
  hideOptions : List MultiOpt
  fieldOptions : List MultiOpt
  colors : List (String × String)
  deriving DecidableEq, Repr

/-- JavaScript's `value || default` idiom on strings: the empty string is
falsy. -/
def jsOr (s d : String) : String := if s = "" then d else s

/-- First value bound to a key in an association list (`URLSearchParams.get`
and plain object lookup). -/
def lookupBy {α : Type} (ps : List (String × α)) (k : String) : Option α :=
  (ps.find? fun kv => kv.1 = k).map (·.2)

/-- String-valued association lookup. -/
def lookupStr (ps : List (String × String)) (k : String) : Option String :=
  (ps.find? fun kv => kv.1 = k).map (·.2)

/-- Split a character list on a separator, JavaScript `String.split` style
(an empty input yields one empty piece). -/
def splitOnChar (sep : Char) : List Char → List (List Char)
  | [] => [[]]
  | c :: rest =>
    match splitOnChar sep rest with
    | [] => [[]]
    | piece :: pieces => if c = sep then [] :: piece :: pieces else (c :: piece) :: pieces

/-- The `.split(",").map(trim).filter(Boolean)` idiom. -/
def splitTrimFilter (s : String) : List String :=
  ((splitOnChar ',' s.data).map fun piece => String.mk (jsTrimChars piece)).filter (· ≠ "")

/-- The `.split(",").map(trim().toLowerCase()).filter(Boolean)` idiom used to
build flag token sets. -/
def splitTokensLower (s : String) : List String :=
  ((splitOnChar ',' s.data).map fun piece => String.mk (lowerChars (jsTrimChars piece))).filter (· ≠ "")

/-! ## Palette helpers (`part_002` lines 665-709, 806-823) -/

/-- `generatorCustomThemeParams`: each palette key whose input currently holds
a well-formed color contributes its normalized value. -/
def generatorCustomThemeParams (f : GenForm) : List (String × String) :=
  GENERATOR_THEME_KEYS.filterMap fun key =>
    (normalizeHexColor ((lookupStr f.colors key).getD "")).map fun v => (key, v)

/-- `generatorPaletteFromInputs` (same computation as
`generatorCustomThemeParams`, kept separate as in the source). -/
def generatorPaletteFromInputs (f : GenForm) : List (String × String) :=
  GENERATOR_THEME_KEYS.filterMap fun key =>
    (normalizeHexColor ((lookupStr f.colors key).getD "")).map fun v => (key, v)

/-- Value a color input ends up with under `applyGeneratorPalette`: its key's
normalized incoming value when the key is one of the 16 and the incoming
value is well-formed, else its current value. -/
def paletteEntryValue (palette : List (String × String)) (kv : String × String) : String :=
  if kv.1 ∈ GENERATOR_THEME_KEYS then
    match normalizeHexColor ((lookupStr palette kv.1).getD "") with
    | some v => v
    | none => kv.2
  else kv.2

/-- `applyGeneratorPalette`: for each of the 16 keys, overwrite the color
input when the incoming palette holds a well-formed value for it; malformed
or missing entries leave the input untouched. -/
def applyGeneratorPalette (f : GenForm) (palette : List (String × String)) : GenForm :=
  { f with colors := f.colors.map fun kv => (kv.1, paletteEntryValue palette kv) }

/-- The session-scoped module variable `generatorDefaultPalette`
(initially null). -/
structure PaletteSession where
  generatorDefaultPalette : Option (List (String × String))
  deriving DecidableEq, Repr

/-- `captureGeneratorDefaultPalette`: memoize the palette present at the
first call; later calls are no-ops (the captured object is always truthy). -/
def captureGeneratorDefaultPalette (st : PaletteSession) (f : GenForm) : PaletteSession :=
  match st.generatorDefaultPalette with
  | some _ => st
  | none => ⟨some (generatorPaletteFromInputs f)⟩

/-- `selectedGeneratorPresetId`: the preset select's value when it names a
preset, else `ocean`. -/
def selectedGeneratorPresetId (f : GenForm) : String :=
  let value := jsLower (jsTrim f.themePreset)
  if (GENERATOR_THEME_PRESETS.find? fun kv => kv.1 = value).isSome then value else "ocean"

/-- `applyGeneratorPresetPalette`: overwrite the palette inputs from the
selected preset. -/
def applyGeneratorPresetPalette (f : GenForm) : GenForm :=
  applyGeneratorPalette f ((lookupBy GENERATOR_THEME_PRESETS (selectedGeneratorPresetId f)).getD [])

/-- `resetGeneratorPalette`: capture (a no-op if already captured), then
apply the captured palette, with the `ocean` preset as the spelled-out — but
unreachable, since capture always leaves a truthy object — fallback. -/
def resetGeneratorPalette (st : PaletteSession) (f : GenForm) : PaletteSession × GenForm :=
  let st2 := captureGeneratorDefaultPalette st f
  (st2, applyGeneratorPalette f (st2.generatorDefaultPalette.getD oceanPreset))

/-- `randomizeGeneratorPalette`, with the random draw supplied as an
argument (the source draws 16 uniform 24-bit colors). -/
def randomizeGeneratorPalette (f : GenForm) (drawn : List (String × String)) : GenForm :=
  applyGeneratorPalette f drawn

/-! ## Availability sync (`part_002` lines 711-945)

`syncGeneratorControlVisibility` and `syncGeneratorCustomThemeVisibility`
only toggle CSS classes and the disabled attribute of controls whose values
the modelled logic reads unconditionally, so on this state they are
identities. -/

/-- `syncGeneratorControlVisibility` (presentation-only on this state). -/
def syncGeneratorControlVisibility (f : GenForm) : GenForm := f

/-- `syncGeneratorCustomThemeVisibility` (presentation-only on this state). -/
def syncGeneratorCustomThemeVisibility (f : GenForm) : GenForm := f

/-- `selectedGeneratorHideFlags`: values of the checked, enabled hide
checkboxes, trimmed, empty ones dropped. -/
def selectedGeneratorHideFlags (f : GenForm) : List String :=
  ((f.hideOptions.filter fun o => o.checked ∧ ¬o.disabled).map
    fun o => jsTrim o.value).filter (· ≠ "")

/-- `syncGeneratorHideField`: mirror the selected hide flags into the hidden
`gen-hide` input as a comma-joined list. -/
def syncGeneratorHideField (f : GenForm) : GenForm :=
  { f with hide := joinWith "," (selectedGeneratorHideFlags f) }

/-- Is a multi-select option supported for the given kind, per its
`data-kinds` annotation (`"repo,quality"` when absent)? -/
def optSupported (o : MultiOpt) (kind : String) : Bool :=
  kind ∈ splitTrimFilter (jsOr o.kinds "repo,quality")

/-- `syncGeneratorHideOptionsByKind`: a hide option not supported for the
current (kind, format) is disabled and unchecked; then the hidden field is
re-synced. -/
def syncGeneratorHideOptionsByKind (f : GenForm) : GenForm :=
  let kind := jsOr f.kind "repo"
  let format := jsOr f.format "svg"
  let isSvg := format = "svg"
  let opts := f.hideOptions.map fun o =>
    let isSupported := isSvg ∧ optSupported o kind
    { o with disabled := !isSupported,
             checked := if isSupported then o.checked else false }
  syncGeneratorHideField { f with hideOptions := opts }

/-- `selectedGeneratorFieldFlags`. -/
def selectedGeneratorFieldFlags (f : GenForm) : List String :=
  ((f.fieldOptions.filter fun o => o.checked ∧ ¬o.disabled).map
    fun o => jsTrim o.value).filter (· ≠ "")

/-- The vocabulary size for the current kind
(`kind === "quality" ? GENERATOR_JSON_FIELDS.quality.length : ...repo.length`). -/
def fieldTotal (f : GenForm) : ℕ :=
  if jsOr f.kind "repo" = "quality" then GENERATOR_JSON_FIELDS_quality.length
  else GENERATOR_JSON_FIELDS_repo.length

/-- `syncGeneratorFieldsField`: the hidden `gen-fields` input is the
`__none__` sentinel for an empty selection, the omitted-all empty string
when every vocabulary slot is selected, and the comma-joined list
otherwise. -/
def syncGeneratorFieldsField (f : GenForm) : GenForm :=
  let total := fieldTotal f
  let selected := selectedGeneratorFieldFlags f
  let v := if selected.length = 0 then "__none__"
    else if total ≤ selected.length then ""
    else joinWith "," selected
  { f with fieldsHidden := v }

/-- `syncGeneratorFieldOptionsByKind`: a field option not supported for the
current (kind, format) is disabled (its checked state is left as is); then
the hidden field is re-synced. -/
def syncGeneratorFieldOptionsByKind (f : GenForm) : GenForm :=
  let kind := jsOr f.kind "repo"
  let format := jsOr f.format "svg"
  let isJson := format = "json"
  let opts := f.fieldOptions.map fun o =>
    { o with disabled := !(isJson ∧ optSupported o kind) }
  syncGeneratorFieldsField { f with fieldOptions := opts }

/-- `applyGeneratorHideFlags`: disabled options are unchecked, enabled ones
are checked exactly when their lowercased value is among the tokens. -/
def applyGeneratorHideFlags (f : GenForm) (rawValue : String) : GenForm :=
  let tokens := splitTokensLower rawValue
  let opts := f.hideOptions.map fun o =>
    if o.disabled then { o with checked := false }
    else { o with checked := tokens.contains (jsLower (jsTrim (jsOr o.value ""))) }
  syncGeneratorHideField { f with hideOptions := opts }

/-- `applyGeneratorFieldFlags`: no tokens means select everything enabled;
the `__none__` (or `none`) sentinel unchecks everything enabled; otherwise
enabled options are checked exactly when listed.  Disabled options are left
untouched. -/
def applyGeneratorFieldFlags (f : GenForm) (rawValue : String) : GenForm :=
  let tokens := splitTokensLower rawValue
  let explicitNone := tokens.contains "__none__" ∨ tokens.contains "none"
  let hasExplicitSelection := tokens ≠ []
  let opts := f.fieldOptions.map fun o =>
    if o.disabled then o
    else if ¬hasExplicitSelection then { o with checked := true }
    else { o with checked := ¬explicitNone ∧ tokens.contains (jsLower (jsTrim (jsOr o.value ""))) }
  syncGeneratorFieldsField { f with fieldOptions := opts }

/-! ## The export codec (`buildGeneratorPath`, lines 1018-1072) -/

/-- String wrapper for the form-urlencoded serializer. -/
def formEncode (s : String) : String := String.mk (formEncodeChars s.data)

/-- String wrapper for `encodeURIComponent`. -/
def encodeURIComponent (s : String) : String :=
  String.mk (encodeURIComponentChars s.data)

/-- `URLSearchParams.toString()` over the accumulated (distinct-keyed)
parameter list. -/
def serializeParams (ps : List (String × String)) : String :=
  joinWith "&" (ps.map fun kv => formEncode kv.1 ++ "=" ++ formEncode kv.2)

/-- Render a finite clamp `Math.max(lo, Math.min(hi, n))` of a JS number as
`String(...)` does. -/
def clampedNumString (lo hi : ℚ) (n : JSNum) : String :=
  (jsMax (.num lo) (jsMin (.num hi) n)).toJsString

/-- The query-parameter list `buildGeneratorPath` accumulates (every
`params.set` call uses a fresh key, so insertion order is list order). -/
def buildGeneratorParams (f : GenForm) : List (String × String) :=
  let kind := jsOr f.kind "repo"
  let format := jsOr f.format "svg"
  let theme := jsOr f.theme "ocean"
  let locale := jsOr f.locale "en"
  let title := jsTrim f.title
  let hide := jsTrim f.hide
  let width := jsNumberOr f.width 760
  let langs := jsNumberOr f.langs 4
  let duration := jsNumberOr f.duration 1400
  let cacheSeconds := jsNumberOr f.cacheSeconds 21600
  let fields := jsTrim f.fieldsHidden
  if format = "svg" then
    [("theme", theme), ("locale", locale),
     ("card_width", clampedNumString 640 1400 width)] ++
    (if title ≠ "" then [("title", title)] else []) ++
    (if hide ≠ "" then [("hide", hide)] else []) ++
    [("animate", if f.animate then "true" else "false"),
     ("animation", jsOr f.animation "all"),
     ("duration", clampedNumString 350 7000 duration),
     ("cache_seconds", clampedNumString 0 86400 cacheSeconds)] ++
    (if kind = "repo" then [("langs_count", clampedNumString 1 10 langs)] else []) ++
    (if theme = "custom" then generatorCustomThemeParams f else [])
  else if kind = "repo" then
    [("langs_count", clampedNumString 1 30 langs)] ++
    (if fields ≠ "" then [("fields", fields)] else [])
  else
    [("locale", locale)] ++
    (if f.includeReport then [("include_report", "true")] else []) ++
    (if fields ≠ "" then [("fields", fields)] else [])

/-- `buildGeneratorPath`: empty when owner or repo is blank, otherwise the
path-template export URL with the serialized query string. -/
def buildGeneratorPath (f : GenForm) : String :=
  let owner := jsTrim f.owner
  let repo := jsTrim f.repo
  let kind := jsOr f.kind "repo"
  let format := jsOr f.format "svg"
  if owner = "" ∨ repo = "" then ""
  else
    let path := "/api/stats/" ++ kind ++ "/" ++ encodeURIComponent owner ++ "/" ++
      encodeURIComponent repo ++ "." ++ format
    let qs := serializeParams (buildGeneratorParams f)
    if qs = "" then path else path ++ "?" ++ qs

/-! ## The import codec (`part_002` lines 559-654, 947-1016) -/

/-- Whitespace class of JavaScript regexes (ASCII portion), also used by
`String.trim`. -/
def reSpace (c : Char) : Bool := jsSpace c

/-- Strip one leading `<` and one trailing `>` (the
`replace(/^<|>$/g, "")` step). -/
def stripAngles (s : List Char) : List Char :=
  let s1 := match s with
    | c :: rest => if c = '<' then rest else s
    | [] => s
  match s1.reverse with
  | c :: r => if c = '>' then r.reverse else s1
  | [] => s1

/-- Attempt the Markdown-with-angle-brackets pattern
`!\[[^\]]*]\(\s*<([^>]+)>\s*\)` at the head of the input. -/
def mdAngleAt (s : List Char) : Option (List Char) :=
  match s with
  | c1 :: c2 :: rest =>
    if c1 = '!' ∧ c2 = '[' then
    let rest2 := rest.dropWhile (· ≠ ']')
    match rest2 with
    | ']' :: '(' :: rest3 =>
      let rest4 := rest3.dropWhile reSpace
      match rest4 with
      | '<' :: rest5 =>
        let inner := rest5.takeWhile (· ≠ '>')
        let rest6 := rest5.dropWhile (· ≠ '>')
        if inner = [] then none
        else
          match rest6 with
          | '>' :: rest7 =>
            match rest7.dropWhile reSpace with
            | ')' :: _ => some inner
            | _ => none
          | _ => none
      | _ => none
    | _ => none
    else none
  | _ => none

/-- A quote character of the optional Markdown title. -/
def mdQuote (c : Char) : Bool := c = '"' || c = Char.ofNat 39

/-- Does the remainder match `(?:\s+["'][^"']*["'])?\s*\)`? -/
def mdPlainClose (s : List Char) : Bool :=
  let titled :=
    let ws := s.takeWhile reSpace
    let rest := s.dropWhile reSpace
    if ws = [] then false
    else
      match rest with
      | q :: rest2 =>
        if mdQuote q then
          let rest3 := rest2.dropWhile (fun c => ¬mdQuote c)
          match rest3 with
          | q2 :: rest4 =>
            if mdQuote q2 then
              match rest4.dropWhile reSpace with
              | ')' :: _ => true
              | _ => false
            else false
          | _ => false
        else false
      | _ => false
  if titled then true
  else
    match s.dropWhile reSpace with
    | ')' :: _ => true
    | _ => false

/-- Attempt the plain Markdown pattern
`!\[[^\]]*]\(\s*([^\s)]+)(?:\s+["'][^"']*["'])?\s*\)` at the head of the
input. -/
def mdPlainAt (s : List Char) : Option (List Char) :=
  match s with
  | c1 :: c2 :: rest =>
    if c1 = '!' ∧ c2 = '[' then
      let rest2 := rest.dropWhile (· ≠ ']')
      match rest2 with
      | ']' :: '(' :: rest3 =>
        let rest4 := rest3.dropWhile reSpace
        let url := rest4.takeWhile fun c => ¬reSpace c ∧ c ≠ ')'
        let rest5 := rest4.dropWhile fun c => ¬reSpace c ∧ c ≠ ')'
        if url = [] then none
        else if mdPlainClose rest5 then some url else none
      | _ => none
    else none
  | _ => none

/-- Leftmost unanchored regex search. -/
def searchPositions (f : List Char → Option (List Char)) : List Char → Option (List Char)
  | [] => none
  | c :: rest =>
    match f (c :: rest) with
    | some r => some r
    | none => searchPositions f rest

/-- `extractGeneratorImportUrl`: unwrap a Markdown image reference or an
angle-bracketed reference, else use the trimmed input itself. -/
def extractGeneratorImportUrl (value : String) : String :=
  let input := jsTrimChars value.data
  if input = [] then ""
  else
    match searchPositions mdAngleAt input with
    | some inner => String.mk (jsTrimChars inner)
    | none =>
      match searchPositions mdPlainAt input with
      | some inner => String.mk (jsTrimChars inner)
      | none => String.mk (jsTrimChars (stripAngles input))

/-- What `new URL(input, window.location.origin)` exposes of the parsed
reference: the path and the raw query string.  Dot-segment and host
normalization are not modelled; the claims only exercise references without
them. -/
structure JsUrl where
  pathname : String
  search : String
  deriving DecidableEq, Repr

/-- Parse a reference the way `new URL(input, origin)` does, for http(s)
absolute references and origin-relative ones. -/
def jsUrlParse (input : String) : JsUrl :=
  let noFrag := input.data.takeWhile (· ≠ '#')
  let afterScheme : Option (List Char) :=
    if lowerChars (noFrag.take 8) = "https://".data then some (noFrag.drop 8)
    else if lowerChars (noFrag.take 7) = "http://".data then some (noFrag.drop 7)
    else none
  match afterScheme with
  | some rest =>
    let hostRest := rest.dropWhile fun c => c ≠ '/' ∧ c ≠ '?'
    let pathname := hostRest.takeWhile (· ≠ '?')
    let search := (hostRest.dropWhile (· ≠ '?')).drop 1
    ⟨if pathname = [] then "/" else String.mk pathname, String.mk search⟩
  | none =>
    let pathname := noFrag.takeWhile (· ≠ '?')
    let search := (noFrag.dropWhile (· ≠ '?')).drop 1
    let abs := match pathname with
      | '/' :: _ => pathname
      | _ => '/' :: pathname
    ⟨String.mk abs, String.mk search⟩

/-- `URLSearchParams` over a raw query string: split on `&`, split each
piece at the first `=`, form-decode both halves; empty pieces are skipped. -/
def parseQueryPairs (s : List Char) : List (String × String) :=
  if s = [] then []
  else
    (splitOnChar '&' s).filterMap fun piece =>
      if piece = [] then none
      else
        let k := piece.takeWhile (· ≠ '=')
        let v := (piece.dropWhile (· ≠ '=')).drop 1
        some (String.mk (formDecode k), String.mk (formDecode v))

/-- The `replace(/\.git$/i, "")` step. -/
def stripGitSuffix (s : String) : String :=
  let l := s.data
  let n := l.length
  if 4 ≤ n ∧ lowerChars (l.drop (n - 4)) = ".git".data then String.mk (l.take (n - 4))
  else s

/-- Case-insensitive literal prefix match, returning the remainder. -/
def dropPrefixCI (pre : List Char) (s : List Char) : Option (List Char) :=
  if lowerChars (s.take pre.length) = pre then some (s.drop pre.length) else none

/-- The path-template match
`/^\/api\/stats\/(repo|quality)\/([^\/]+)\/([^\/.]+)\.(svg|json)$/i`,
returning the raw kind, owner, repo and format captures. -/
def statsPathMatch (pathname : String) : Option (String × String × String × String) :=
  match dropPrefixCI "/api/stats/".data pathname.data with
  | none => none
  | some r1 =>
    let kindLen : Option Nat :=
      if lowerChars (r1.take 4) = "repo".data then some 4
      else if lowerChars (r1.take 7) = "quality".data then some 7
      else none
    match kindLen with
    | none => none
    | some kl =>
      let kindRaw := r1.take kl
      match r1.drop kl with
      | c2 :: r3 =>
        if c2 = '/' then
          let ownerSeg := r3.takeWhile (· ≠ '/')
          match r3.dropWhile (· ≠ '/') with
          | c4 :: r5 =>
            if c4 = '/' then
              if ownerSeg = [] then none
              else
                let repoSeg := r5.takeWhile fun c => c ≠ '/' ∧ c ≠ '.'
                let r6 := r5.dropWhile fun c => c ≠ '/' ∧ c ≠ '.'
                if repoSeg = [] then none
                else
                  match r6 with
                  | c6 :: fmtSeg =>
                    if c6 = '.' then
                      if lowerChars fmtSeg = "svg".data ∨ lowerChars fmtSeg = "json".data then
                        some (String.mk kindRaw, String.mk ownerSeg, String.mk repoSeg,
                          String.mk fmtSeg)
                      else none
                    else none
                  | [] => none
            else none
          | [] => none
        else none
      | [] => none

/-- The parse result of `parseGeneratorApiImport` (and, with only owner and
repo populated, of the GitHub-URL and shorthand parses). -/
structure ParsedImport where
  owner : String
  repo : String
  kind : Option String
  format : Option String
  theme : Option String
  locale : Option String
  title : Option String
  hide : Option String
  width : Option String
  langs : Option String
  animate : Option String
  animation : Option String
  duration : Option String
  cacheSeconds : Option String
  includeReport : Option String
  fields : Option String
  colors : Option (List (String × String))
  deriving DecidableEq, Repr

/-- An owner/repo-only parse result (GitHub URL or bare shorthand). -/
def mkOwnerRepoImport (owner repo : String) : ParsedImport :=
  ⟨owner, repo, none, none, none, none, none, none, none, none, none, none,
   none, none, none, none, none⟩

/-- `parseGeneratorApiImport` (`part_002` lines 569-630): request-shaped when
both `owner` and `repo` query parameters are present and nonempty, else
path-shaped against the stats template; unrecognized kind and format coerce
to `repo` and `svg`; the recognized query parameters and any well-formed
palette colors are carried along. -/
def parseGeneratorApiImport (value : String) : Option ParsedImport :=
  let input := extractGeneratorImportUrl value
  if input = "" then none
  else
    let url := jsUrlParse input
    let params := parseQueryPairs url.search.data
    let paramsGet := fun (k : String) => lookupStr params k
    let branch : Option (String × String × String × String) :=
      match paramsGet "owner", paramsGet "repo" with
      | some o, some r =>
        if o ≠ "" ∧ r ≠ "" then
          some (jsLower (jsTrim (jsOr ((paramsGet "kind").getD "") "repo")),
            jsTrim o, stripGitSuffix (jsTrim r),
            jsLower (jsTrim (jsOr ((paramsGet "format").getD "") "svg")))
        else
          (statsPathMatch url.pathname).map fun m =>
            (jsLower m.1, String.mk (percentDecode m.2.1.data),
             stripGitSuffix (String.mk (percentDecode m.2.2.1.data)), jsLower m.2.2.2)
      | _, _ =>
        (statsPathMatch url.pathname).map fun m =>
          (jsLower m.1, String.mk (percentDecode m.2.1.data),
           stripGitSuffix (String.mk (percentDecode m.2.2.1.data)), jsLower m.2.2.2)
    match branch with
    | none => none
    | some (kind, owner, repo, format) =>
      if owner = "" ∨ repo = "" then none
      else
        some
          { owner := owner
            repo := repo
            kind := some (if kind = "quality" then "quality" else "repo")
            format := some (if format = "json" then "json" else "svg")
            theme := paramsGet "theme"
            locale := paramsGet "locale"
            title := paramsGet "title"
            hide := paramsGet "hide"
            width := paramsGet "card_width"
            langs := paramsGet "langs_count"
            animate := paramsGet "animate"
            animation := paramsGet "animation"
            duration := paramsGet "duration"
            cacheSeconds := paramsGet "cache_seconds"
            includeReport := paramsGet "include_report"
            fields := paramsGet "fields"
            colors := some (GENERATOR_THEME_KEYS.filterMap fun key =>
              (normalizeHexColor ((paramsGet key).getD "")).map fun c => (key, c)) }

/-- The GitHub repository URL match
`/^https?:\/\/github\.com\/([^\/\s]+)\/([^\/\s?#]+)(?:[\/?#].*)?$/i`. -/
def githubUrlMatch (input : String) : Option (String × String) :=
  let s := input.data
  let afterHost : Option (List Char) :=
    if lowerChars (s.take 19) = "https://github.com/".data then some (s.drop 19)
    else if lowerChars (s.take 18) = "http://github.com/".data then some (s.drop 18)
    else none
  match afterHost with
  | none => none
  | some r1 =>
    let ownerSeg := r1.takeWhile fun c => c ≠ '/' ∧ ¬reSpace c
    match r1.dropWhile fun c => c ≠ '/' ∧ ¬reSpace c with
    | '/' :: r3 =>
      if ownerSeg = [] then none
      else
        let repoSeg := r3.takeWhile fun c => c ≠ '/' ∧ ¬reSpace c ∧ c ≠ '?' ∧ c ≠ '#'
        let r4 := r3.dropWhile fun c => c ≠ '/' ∧ ¬reSpace c ∧ c ≠ '?' ∧ c ≠ '#'
        if repoSeg = [] then none
        else
          match r4 with
          | [] => some (String.mk ownerSeg, String.mk repoSeg)
          | c :: rest =>
            if (c = '/' ∨ c = '?' ∨ c = '#') ∧
                rest.all (fun x => x ≠ Char.ofNat 10 ∧ x ≠ Char.ofNat 13) then
              some (String.mk ownerSeg, String.mk repoSeg)
            else none
    | _ => none

/-- The bare shorthand match `/^([^\/\s]+)\/([^\/\s]+)$/`. -/
def shortRepoMatch (input : String) : Option (String × String) :=
  let s := input.data
  let ownerSeg := s.takeWhile fun c => c ≠ '/' ∧ ¬reSpace c
  match s.dropWhile fun c => c ≠ '/' ∧ ¬reSpace c with
  | '/' :: rest =>
    if ownerSeg = [] ∨ rest = [] then none
    else if rest.all fun c => c ≠ '/' ∧ ¬reSpace c then
      some (String.mk ownerSeg, String.mk rest)
    else none
  | _ => none

/-- The GitHub-URL arm of `parseGeneratorImport` in isolation (lines
639-644): on a match, strip a `.git` suffix and require both segments
nonempty — a failed requirement returns null without trying later shapes. -/
def githubImportStep (input : String) : Option ParsedImport :=
  match githubUrlMatch input with
  | some (o, r) =>
    let repo := stripGitSuffix r
    if o ≠ "" ∧ repo ≠ "" then some (mkOwnerRepoImport o repo) else none
  | none => none

/-- The bare-shorthand arm of `parseGeneratorImport` in isolation (lines
646-651). -/
def shortImportStep (input : String) : Option ParsedImport :=
  match shortRepoMatch input with
  | some (o, r) =>
    let repo := stripGitSuffix r
    if o ≠ "" ∧ repo ≠ "" then some (mkOwnerRepoImport o repo) else none
  | none => none

/-- `parseGeneratorImport` (`part_002` lines 632-654): the api parse first,
then the GitHub URL shape, then the bare shorthand. -/
def parseGeneratorImport (value : String) : Option ParsedImport :=
  match parseGeneratorApiImport value with
  | some p => some p
  | none =>
    let input := extractGeneratorImportUrl value
    if input = "" then none
    else
      match githubUrlMatch input with
      | some (o, r) =>
        let repo := stripGitSuffix r
        if o ≠ "" ∧ repo ≠ "" then some (mkOwnerRepoImport o repo) else none
      | none =>
        match shortRepoMatch input with
        | some (o, r) =>
          let repo := stripGitSuffix r
          if o ≠ "" ∧ repo ≠ "" then some (mkOwnerRepoImport o repo) else none
        | none => none

/-- `applyGeneratorImportToForm` (`part_002` lines 947-1016), step for step:
set owner/repo/kind/format, re-sync availability, then apply every parsed
field with its documented validation and clamping. -/
def applyGeneratorImportToForm (f0 : GenForm) (p : ParsedImport) : GenForm :=
  let f1 := if p.owner ≠ "" then { f0 with owner := p.owner } else f0
  let f2 := if p.repo ≠ "" then { f1 with repo := p.repo } else f1
  let f3 := match p.kind with
    | some k =>
      if k ≠ "" then { f2 with kind := if k = "quality" then "quality" else "repo" } else f2
    | none => f2
  let f4 := match p.format with
    | some fm =>
      if fm ≠ "" then { f3 with format := if fm = "json" then "json" else "svg" } else f3
    | none => f3
  let f5 := syncGeneratorControlVisibility f4
  let f6 := syncGeneratorHideOptionsByKind f5
  let f7 := syncGeneratorFieldOptionsByKind f6
  let f8 := match p.theme with
    | some th =>
      if th ≠ "" then
        let theme := jsLower (jsTrim th)
        if theme ∈ GENERATOR_THEME_OPTIONS then { f7 with theme := theme } else f7
      else f7
    | none => f7
  let f9 := match p.locale with
    | some lo =>
      if lo ≠ "" then
        let l := jsLower (jsTrim lo)
        if l = "en" ∨ l = "ru" then { f8 with locale := l } else f8
      else f8
    | none => f8
  let f10 := { f9 with title := p.title.getD "" }
  let f11 := match p.width with
    | some w => { f10 with width := (JSNum.num (clampNumber w 640 1400 760)).toJsString }
    | none => f10
  let f12 := match p.langs with
    | some l => { f11 with langs := (JSNum.num (clampNumber l 1 30 4)).toJsString }
    | none => f11
  let f13 := match p.animate with
    | some a => { f12 with animate := parseBooleanValue (some a) true }
    | none => f12
  let f14 := match p.animation with
    | some am =>
      if am ≠ "" then
        let mode := jsLower (jsTrim am)
        if mode = "all" ∨ mode = "soft" ∨ mode = "bars" ∨ mode = "ring" ∨ mode = "none" then
          { f13 with animation := mode }
        else f13
      else f13
    | none => f13
  let f15 := match p.duration with
    | some d => { f14 with duration := (JSNum.num (clampNumber d 350 7000 1400)).toJsString }
    | none => f14
  let f16 := match p.cacheSeconds with
    | some c =>
      { f15 with cacheSeconds := (JSNum.num (clampNumber c 0 86400 21600)).toJsString }
    | none => f15
  let f17 := { f16 with includeReport := parseBooleanValue p.includeReport false }
  let f18 := applyGeneratorHideFlags f17 (p.hide.getD "")
  let f19 := applyGeneratorFieldFlags f18 (p.fields.getD "")
  let f20 := match p.colors with
    | some cs => applyGeneratorPalette f19 cs
    | none => f19
  syncGeneratorCustomThemeVisibility f20

/-- The `applyRepoImport` closure of `initGeneratorPage` (lines 1315-1326):
on parse failure the form is untouched and the user-facing message is set;
on success the parse is applied and owner/repo are backfilled if still
blank. -/
def applyRepoImport (f : GenForm) (inputValue : String) : GenForm × String :=
  match parseGeneratorImport inputValue with
  | none => (f, invalidGeneratorRepoUrlMsg)
  | some parsed =>
    let f2 := applyGeneratorImportToForm f parsed
    let f3 := if f2.owner = "" ∧ parsed.owner ≠ "" then { f2 with owner := parsed.owner } else f2
    let f4 := if f3.repo = "" ∧ parsed.repo ≠ "" then { f3 with repo := parsed.repo } else f3
    (f4, "")

/-! ## Trend chart (`part_002` lines 403-504) -/

/-- One history sample as the chart reads it; `none` models an absent
property (the code extracts `score_total || 0` and `delta || 0` through
`Number`). -/
structure HistorySample where
  score_total : Option ℚ
  commit_short : Option String
  delta : Option ℚ
  deriving DecidableEq, Repr

/-- The `Number(item.score_total || 0)` extraction. -/
def sampleScore (s : HistorySample) : ℚ := s.score_total.getD 0

/-- A chart point. -/
structure Pt where
  x : ℚ
  y : ℚ
  deriving DecidableEq, Repr

/-- The vertical map of `renderTrendChart`:
`height − padY − (score − min)·(height − 2·padY)/(max − min)` with the fixed
canvas 1020×300, padding 42/32 and score range 0-100. -/
def trendY (score : ℚ) : ℚ :=
  300 - 32 - (score - 0) * (300 - 32 * 2) / (100 - 0)

/-- The horizontal map: `padX + i·(width − 2·padX)/max(n−1, 1)`. -/
def trendX (n : ℕ) (i : ℕ) : ℚ :=
  42 + (i * (1020 - 42 * 2) : ℚ) / (Nat.max (n - 1) 1 : ℕ)

/-- The `history.map((item, index) => ...)` point computation. -/
def trendPoints (history : List HistorySample) : List Pt :=
  history.mapIdx fun index item =>
    ⟨trendX history.length index, trendY (sampleScore item)⟩

/-- Render a chart coordinate the way a JS template literal does. -/
def coordStr (q : ℚ) : String := (JSNum.num q).toJsString

/-- One `C` segment of the smoothed path: both control points sit at the
horizontal midpoint of the pair, with each endpoint's own y. -/
def smoothSeg (pr : Pt × Pt) : String :=
  let prev := pr.1
  let current := pr.2
  let cx := (prev.x + current.x) / 2
  " C " ++ coordStr cx ++ " " ++ coordStr prev.y ++ ", " ++
    coordStr cx ++ " " ++ coordStr current.y ++ ", " ++
    coordStr current.x ++ " " ++ coordStr current.y

/-- `buildSmoothPath`: a move-to at the first point, then one cubic segment
per consecutive pair. -/
def buildSmoothPath (points : List Pt) : String :=
  match points with
  | [] => ""
  | p0 :: _ =>
    (points.zip (points.drop 1)).foldl
      (fun path pr => path ++ smoothSeg pr)
      ("M " ++ coordStr p0.x ++ " " ++ coordStr p0.y)

/-- The geometry `renderTrendChart` computes (the surrounding SVG markup,
grid lines, labels and reveal animation are presentation and are not part of
any claim's geometry). -/
structure TrendRender where
  fallback : Bool
  points : List Pt
  linePath : String
  areaPath : String
  step : ℕ
  deriving DecidableEq, Repr

/-- `renderTrendChart`: fewer than two samples renders the fallback state
with the chart cleared; otherwise the smoothed line, the baseline-closed
area path, and the x-label stride `max(1, ceil(n/9))`. -/
def renderTrendChart (history : List HistorySample) : TrendRender :=
  if history.length < 2 then ⟨true, [], "", "", 0⟩
  else
    let points := trendPoints history
    let linePath := buildSmoothPath points
    let baselineY : ℚ := 300 - 32
    let firstX := ((points.head?).map Pt.x).getD 0
    let lastX := ((points.getLast?).map Pt.x).getD 0
    let areaPath := linePath ++ " L " ++ coordStr lastX ++ " " ++ coordStr baselineY ++
      " L " ++ coordStr firstX ++ " " ++ coordStr baselineY ++ " Z"
    let step := Nat.max 1 ((points.length + 8) / 9)
    ⟨false, points, linePath, areaPath, step⟩

/-! ## Score dial (`part_002` lines 1393-1426) -/

/-- The observable dial state: the `--score` CSS property and the rendered
score number. -/
structure DialState where
  score : String
  scoreNumber : String
  deriving DecidableEq, Repr

/-- Clamped animation target: a finite `data-score-target` is clamped into
`[0, 100]`, anything non-finite becomes 0 (an absent attribute reads as the
numeric fallback 0). -/
def dialTarget (scoreTargetAttr : String) : ℚ :=
  match jsNumberOr scoreTargetAttr 0 with
  | .num q => ratMax 0 (ratMin 100 q)
  | _ => 0

/-- The cubic ease-out curve `(value) => 1 - Math.pow(1 - value, 3)`. -/
def dialEasing (value : ℚ) : ℚ := 1 - (1 - value) ^ 3

/-- JavaScript `x.toFixed(2)` on the exact values this animation produces. -/
def toFixed2 (q : ℚ) : String :=
  let sign := if q < 0 then "-" else ""
  let n := (ratFloor (ratAbs q * 100 + 1 / 2)).toNat
  sign ++ toString (n / 100) ++ "." ++
    String.mk [Char.ofNat (48 + n % 100 / 10), Char.ofNat (48 + n % 10)]

/-- Render `${Math.round(q)}`. -/
def roundStr (q : ℚ) : String := (JSNum.num (jsRound q : ℚ)).toJsString

/-- One animation frame: progress is elapsed time over the fixed 1200ms
window capped at 1; below 1 the eased value is shown (two-decimal CSS
property, rounded integer) and another frame is requested; at 1 the state is
pinned to the exact target. -/
def dialFrame (target startT now : ℚ) : DialState × Bool :=
  let progress := ratMin ((now - startT) / 1200) 1
  let value := target * dialEasing progress
  if progress < 1 then (⟨toFixed2 value, roundStr value⟩, false)
  else (⟨(JSNum.num target).toJsString, roundStr target⟩, true)

/-- Run the frame callback over the rendering timestamps, counting the
`requestAnimationFrame` calls made; the loop stops re-arming once progress
reaches 1. -/
def dialLoop (target startT : ℚ) : List ℚ → DialState → ℕ → DialState × ℕ
  | [], st, n => (st, n)
  | now :: rest, _, n =>
    let pr := dialFrame target startT now
    if pr.2 then (pr.1, n)
    else dialLoop target startT rest pr.1 (n + 1)

/-- `animateScoreDial`: under a reduced-motion preference the target is shown
immediately with no frames issued; otherwise the dial starts at zero and the
frame loop runs from the first requested frame. -/
def animateScoreDial (scoreTargetAttr : String) (reducedMotion : Bool) (startT : ℚ)
    (frameTimes : List ℚ) : DialState × ℕ :=
  let target := dialTarget scoreTargetAttr
  if reducedMotion then
    (⟨(JSNum.num target).toJsString, roundStr target⟩, 0)
  else
    dialLoop target startT frameTimes ⟨"0", "0"⟩ 1

/-! ## Concrete instances used by theorems and witnesses

The hide/field checkbox sets and their `data-kinds` annotations live in
server-rendered markup outside `src/`; these instances supply concrete,
spec-consistent values for them (the general theorems quantify over
arbitrary option sets). -/

/-- Field option checkboxes matching the two JSON vocabularies. -/
def demoFieldOpts : List MultiOpt :=
  (GENERATOR_JSON_FIELDS_repo.map fun v => ⟨v, "repo", true, false⟩) ++
  (GENERATOR_JSON_FIELDS_quality.map fun v => ⟨v, "quality", true, true⟩)

/-- A generator form in a plausible page state (kind=repo, format=svg,
theme=ocean, defaults everywhere). -/
def baseForm : GenForm :=
  { owner := "acme", repo := "widgets", kind := "repo", format := "svg",
    theme := "ocean", locale := "en", title := "", width := "760",
    langs := "4", duration := "1400", cacheSeconds := "21600",
    animate := true, includeReport := false, animation := "all",
    themePreset := "ocean", hide := "", fieldsHidden := "__none__",
    hideOptions :=
      [⟨"stars", "repo,quality", false, false⟩, ⟨"forks", "repo", false, false⟩],
    fieldOptions := demoFieldOpts, colors := oceanPreset }

/-! ## C3 — numeric clamping on import and export -/

/-- The form whose width input reads `-5`. -/
def c3NegForm : GenForm := { baseForm with width := "-5" }

/-- The form whose width input reads `99999`. -/
def c3BigForm : GenForm := { baseForm with width := "99999" }

/-- The form whose width input reads `abc`. -/
def c3AbcForm : GenForm := { baseForm with width := "abc" }

/-- C3, counterexample: the claim says the export path maps the non-numeric
width `abc` to the default 760, but `buildGeneratorPath` computes
`Math.max(640, Math.min(1400, Number("abc")))`, and NaN propagates: the
exported `card_width` is the string `NaN`, not `760`. -/
theorem C3_export_nan_counterexample :
    lookupStr (buildGeneratorParams c3AbcForm) "card_width" = some "NaN" ∧
    lookupStr (buildGeneratorParams c3AbcForm) "card_width" ≠ some "760" :=
  ⟨by decide!, by decide!⟩

/-- C3 (amended): `clampNumber` — the import path — maps NaN, negative and
out-of-range inputs to the documented default or bound ("-5" gives 640,
"99999" gives 1400, "abc" gives 760, and every non-finite parse gives the
fallback); the export path clamps out-of-range numeric widths the same way
("-5" gives 640, "99999" gives 1400) but propagates NaN for a non-numeric
width, exporting `card_width=NaN` for "abc" instead of the default. -/
theorem C3_clamp_behavior (s : String) (hs : (jsNumber s).isFinite = false) :
    clampNumber s 640 1400 760 = 760 ∧
    clampNumber "-5" 640 1400 760 = 640 ∧
    clampNumber "99999" 640 1400 760 = 1400 ∧
    clampNumber "abc" 640 1400 760 = 760 ∧
    lookupStr (buildGeneratorParams c3NegForm) "card_width" = some "640" ∧
    lookupStr (buildGeneratorParams c3BigForm) "card_width" = some "1400" ∧
    lookupStr (buildGeneratorParams c3AbcForm) "card_width" = some "NaN" := by
  refine ⟨?_, by decide!, by decide!, by decide!, by decide!, by decide!, by decide!⟩
  unfold clampNumber
  cases h : jsNumber s with
  | num q => rw [h] at hs; simp [JSNum.isFinite] at hs
  | nan => rfl
  | inf neg => rfl

/-- C3 witness: the amended theorem applied at the non-finite input
`Infinity`. -/
theorem C3_clamp_behavior_witness :
    (jsNumber "Infinity").isFinite = false ∧
    clampNumber "Infinity" 640 1400 760 = 760 :=
  ⟨by decide!, (C3_clamp_behavior "Infinity" (by decide!)).1⟩

/-! ## C5 — atomic import -/

/-- C5: `applyRepoImport` is atomic — a failed parse leaves the form exactly
as it was and surfaces the nonempty user-facing message, while a successful
parse applies the whole parsed configuration (with owner/repo backfill)
and clears the message. -/
theorem C5_atomic_import (f : GenForm) (input : String) :
    (parseGeneratorImport input = none →
      applyRepoImport f input = (f, invalidGeneratorRepoUrlMsg) ∧
      invalidGeneratorRepoUrlMsg ≠ "") ∧
    (∀ p, parseGeneratorImport input = some p →
      applyRepoImport f input =
        (let f2 := applyGeneratorImportToForm f p
         let f3 := if f2.owner = "" ∧ p.owner ≠ "" then { f2 with owner := p.owner } else f2
         ((if f3.repo = "" ∧ p.repo ≠ "" then { f3 with repo := p.repo } else f3), ""))) := by
  constructor
  · intro h
    exact ⟨by simp [applyRepoImport, h], by decide⟩
  · intro p hp
    simp [applyRepoImport, hp]

/-- C5 witness: a parse failure on concrete junk input leaves the concrete
form untouched and sets the message. -/
theorem C5_atomic_import_witness :
    parseGeneratorImport "not a url at all" = none ∧
    applyRepoImport baseForm "not a url at all" = (baseForm, invalidGeneratorRepoUrlMsg) := by
  have h : parseGeneratorImport "not a url at all" = none := by decide!
  exact ⟨h, ((C5_atomic_import baseForm "not a url at all").1 h).1⟩

/-! ## C2 — import shape priority -/

/-- C2: the import parser commits to the most specific matching shape — the
api parse (request-shaped, then path-shaped) wins whenever it succeeds, the
GitHub-URL arm is consulted only when the api parse failed, and the bare
shorthand only when the GitHub-URL shape also failed; when every shape
fails the result is a parse failure. -/
theorem C2_parse_priority (value : String) :
    (∀ p, parseGeneratorApiImport value = some p → parseGeneratorImport value = some p) ∧
    (extractGeneratorImportUrl value = "" → parseGeneratorImport value = none) ∧
    (parseGeneratorApiImport value = none → extractGeneratorImportUrl value ≠ "" →
      (githubUrlMatch (extractGeneratorImportUrl value)).isSome = true →
      parseGeneratorImport value = githubImportStep (extractGeneratorImportUrl value)) ∧
    (parseGeneratorApiImport value = none → extractGeneratorImportUrl value ≠ "" →
      githubUrlMatch (extractGeneratorImportUrl value) = none →
      parseGeneratorImport value = shortImportStep (extractGeneratorImportUrl value)) := by
  refine ⟨?_, ?_, ?_, ?_⟩
  · intro p hp
    unfold parseGeneratorImport
    rw [hp]
  · intro h
    unfold parseGeneratorImport
    have hapi : parseGeneratorApiImport value = none := by
      unfold parseGeneratorApiImport
      rw [h]
      rfl
    rw [hapi, h]
    rfl
  · intro hapi hne hgh
    obtain ⟨⟨o, r⟩, hor⟩ := Option.isSome_iff_exists.mp hgh
    simp [parseGeneratorImport, githubImportStep, hapi, hor, hne]
  · intro hapi hne hgh
    simp [parseGeneratorImport, shortImportStep, hapi, hgh, hne]

/-- C2 witness input: a reference that is simultaneously request-shaped
(owner/repo query parameters) and a GitHub repository URL. -/
def c2DemoInput : String := "https://github.com/a/b?owner=x&repo=y"

/-- C2 witness: on an input matching both the request shape and the GitHub
shape, the request shape wins — the parse equals the api parse (owner `x`)
even though the GitHub arm would have produced owner `a`. -/
theorem C2_parse_priority_witness :
    (parseGeneratorApiImport c2DemoInput).isSome = true ∧
    githubUrlMatch (extractGeneratorImportUrl c2DemoInput) = some ("a", "b") ∧
    (parseGeneratorApiImport c2DemoInput).map (fun p => p.owner) = some "x" ∧
    parseGeneratorImport c2DemoInput = parseGeneratorApiImport c2DemoInput := by
  refine ⟨by decide!, by decide!, by decide!, ?_⟩
  obtain ⟨p, hp⟩ := Option.isSome_iff_exists.mp
    (show (parseGeneratorApiImport c2DemoInput).isSome = true by decide!)
  rw [hp]
  exact (C2_parse_priority c2DemoInput).1 p hp

/-! ## C8 — score dial animation -/

/-- C8: the dial clamps its target into `[0, 100]`; under reduced motion the
final value is set immediately with zero frames issued; every frame inside
the 1200ms window shows `target · (1 − (1 − p)³)` for progress
`p = elapsed/1200`; the animation starts from the zero state; and as soon as
a frame time reaches 1200ms of elapsed time the displayed value is pinned
exactly to the clamped target. -/
theorem C8_dial_animation (attr : String) (startT : ℚ) (ts : List ℚ) :
    (0 ≤ dialTarget attr ∧ dialTarget attr ≤ 100) ∧
    (animateScoreDial attr true startT ts =
      ({ score := (JSNum.num (dialTarget attr)).toJsString,
         scoreNumber := roundStr (dialTarget attr) }, 0)) ∧
    (animateScoreDial attr false startT [] = ({ score := "0", scoreNumber := "0" }, 1)) ∧
    (∀ now : ℚ, now - startT < 1200 →
      dialFrame (dialTarget attr) startT now =
        ({ score := toFixed2 (dialTarget attr * (1 - (1 - (now - startT) / 1200) ^ 3)),
           scoreNumber := roundStr (dialTarget attr * (1 - (1 - (now - startT) / 1200) ^ 3)) },
         false)) ∧
    ((∃ t ∈ ts, startT + 1200 ≤ t) →
      (animateScoreDial attr false startT ts).1 =
        { score := (JSNum.num (dialTarget attr)).toJsString,
          scoreNumber := roundStr (dialTarget attr) }) := by
  refine ⟨?_, rfl, rfl, ?_, ?_⟩
  · unfold dialTarget
    cases jsNumberOr attr 0 with
    | num q =>
      simp only [ratMax, ratMin]
      constructor
      · split_ifs <;> linarith
      · split_ifs <;> linarith
    | nan => norm_num
    | inf b => norm_num
  · intro now hnow
    have hp : (now - startT) / 1200 < 1 := by
      rw [div_lt_one (by norm_num : (0:ℚ) < 1200)]
      linarith
    unfold dialFrame dialEasing
    have hmin : ratMin ((now - startT) / 1200) 1 = (now - startT) / 1200 := by
      unfold ratMin
      rw [if_pos (le_of_lt hp)]
    rw [hmin, if_pos hp]
  · intro hex
    have main : ∀ (l : List ℚ) (st : DialState) (n : ℕ),
        (∃ t ∈ l, startT + 1200 ≤ t) →
        (dialLoop (dialTarget attr) startT l st n).1 =
          { score := (JSNum.num (dialTarget attr)).toJsString,
            scoreNumber := roundStr (dialTarget attr) } := by
      intro l
      induction l with
      | nil => intro st n h; simp at h
      | cons now rest ih =>
        intro st n h
        unfold dialLoop dialFrame
        by_cases hlt : ratMin ((now - startT) / 1200) 1 < 1
        · rw [if_pos hlt]
          simp only []
          apply ih
          rcases h with ⟨t, ht, hle⟩
          rcases List.mem_cons.mp ht with h1 | h2
          · exfalso
            subst h1
            have : (1:ℚ) ≤ (t - startT) / 1200 := by
              rw [le_div_iff₀ (by norm_num : (0:ℚ) < 1200)]
              linarith
            unfold ratMin at hlt
            split at hlt <;> linarith
          · exact ⟨t, h2, hle⟩
        · rw [if_neg hlt]
          simp
    exact main ts ⟨"0", "0"⟩ 1 hex

/-- C8 witness: target 73, one frame at 1250ms — the dial pins to exactly
`73`; the reduced-motion run issues zero frames; the mid-window frame at
600ms shows the eased value. -/
theorem C8_dial_animation_witness :
    (0 ≤ dialTarget "73" ∧ dialTarget "73" ≤ 100) ∧
    animateScoreDial "73" true 0 [1250] =
      ({ score := "73", scoreNumber := "73" }, 0) ∧
    (animateScoreDial "73" false 0 [1250]).1 = { score := "73", scoreNumber := "73" } ∧
    dialFrame (dialTarget "73") 0 600 =
      ({ score := toFixed2 (dialTarget "73" * (1 - (1 - (600 - 0) / 1200) ^ 3)),
         scoreNumber := roundStr (dialTarget "73" * (1 - (1 - (600 - 0) / 1200) ^ 3)) },
       false) := by
  have h := C8_dial_animation "73" 0 [1250]
  refine ⟨h.1, ?_, ?_, ?_⟩
  · have h2 := h.2.1
    rw [h2]
    have : (JSNum.num (dialTarget "73")).toJsString = "73" := by decide!
    have hr : roundStr (dialTarget "73") = "73" := by decide!
    rw [this, hr]
  · have h5 := h.2.2.2.2 ⟨1250, by simp, by norm_num⟩
    rw [h5]
    have : (JSNum.num (dialTarget "73")).toJsString = "73" := by decide!
    have hr : roundStr (dialTarget "73") = "73" := by decide!
    rw [this, hr]
  · exact h.2.2.2.1 600 (by norm_num)

/-! ## C7 — trend chart geometry -/

/-- The chart point list is as long as the history. -/
theorem trendPoints_length (history : List HistorySample) :
    (trendPoints history).length = history.length := by
  unfold trendPoints
  simp

/-- Any fold that only appends to its accumulator leaves the initial string
as a prefix. -/
theorem foldl_append_prefix {α : Type} (F : α → String) :
    ∀ (l : List α) (init : String),
      ∃ tail, List.foldl (fun path pr => path ++ F pr) init l = init ++ tail := by
  intro l
  induction l with
  | nil => intro init; exact ⟨"", by simp⟩
  | cons x rest ih =>
    intro init
    obtain ⟨t, ht⟩ := ih (init ++ F x)
    exact ⟨F x ++ t, by simpa [String.append_assoc] using ht⟩

/-- C7: with at least two samples the chart renders (no fallback); every
sample `i` is mapped to the point
`(trendX n i, 300 − 32 − score·(300 − 2·32)/100)` — the inverted linear map,
which satisfies `y 40 = 173.6` and is strictly decreasing in the score — and
the line path string begins with `M x₀ y₀` for the first point's computed
coordinates. -/
theorem C7_trend_geometry (history : List HistorySample) (h : 2 ≤ history.length) :
    (renderTrendChart history).fallback = false ∧
    (renderTrendChart history).points = trendPoints history ∧
    (∀ (i : ℕ) (hi : i < history.length) (hi2 : i < (trendPoints history).length),
      (trendPoints history).get ⟨i, hi2⟩ =
        ⟨trendX history.length i, trendY (sampleScore (history.get ⟨i, hi⟩))⟩) ∧
    (∀ s : ℚ, trendY s = 300 - 32 - s * (300 - 2 * 32) / 100) ∧
    trendY 40 = 173.6 ∧
    (∀ s1 s2 : ℚ, s1 < s2 → trendY s2 < trendY s1) ∧
    (∀ p0 rest, trendPoints history = p0 :: rest →
      ∃ tail, (renderTrendChart history).linePath =
        ("M " ++ coordStr p0.x ++ " " ++ coordStr p0.y) ++ tail) := by
  have hnot : ¬history.length < 2 := not_lt.mpr h
  refine ⟨?_, ?_, ?_, ?_, ?_, ?_, ?_⟩
  · unfold renderTrendChart
    rw [if_neg hnot]
  · unfold renderTrendChart
    rw [if_neg hnot]
  · intro i hi hi2
    unfold trendPoints
    exact List.get_mapIdx history _ i hi
  · intro s
    unfold trendY
    ring
  · unfold trendY
    norm_num
  · intro s1 s2 hs
    unfold trendY
    linarith
  · intro p0 rest hp
    unfold renderTrendChart
    rw [if_neg hnot]
    simp only []
    unfold buildSmoothPath
    rw [hp]
    exact foldl_append_prefix smoothSeg _ _

/-- The spec's trend scenario: scores 40, 70, 55. -/
def demoHistory : List HistorySample :=
  [⟨some 40, none, none⟩, ⟨some 70, none, none⟩, ⟨some 55, none, none⟩]

/-- C7 witness: on the scenario history the chart renders, `y 40 = 173.6`,
and the line path begins with `M 42 173.6`. -/
theorem C7_trend_geometry_witness :
    2 ≤ demoHistory.length ∧
    (renderTrendChart demoHistory).fallback = false ∧
    trendY 40 = 173.6 ∧
    (∃ tail, (renderTrendChart demoHistory).linePath = "M 42 173.6" ++ tail) := by
  have h := C7_trend_geometry demoHistory (by decide)
  have hp : trendPoints demoHistory =
      (⟨42, 868 / 5⟩ : Pt) :: [(⟨510, 514 / 5⟩ : Pt), (⟨978, 691 / 5⟩ : Pt)] := by decide!
  refine ⟨by decide, h.1, h.2.2.2.2.1, ?_⟩
  obtain ⟨tail, ht⟩ := h.2.2.2.2.2.2 _ _ hp
  refine ⟨tail, ?_⟩
  rw [ht]
  have he : ("M " ++ coordStr 42 ++ " " ++ coordStr (868 / 5 : ℚ)) = "M 42 173.6" := by decide!
  rw [he]

/-! ## C9 — palette capture and reset -/

/-- Association lookup through a cons cell. -/
theorem lookupStr_cons (k0 : String) (v0 : String) (l : List (String × String))
    (key : String) :
    lookupStr ((k0, v0) :: l) key = if k0 = key then some v0 else lookupStr l key := by
  unfold lookupStr
  by_cases h : k0 = key
  · rw [List.find?_cons_of_pos _ (by simpa using h), if_pos h]
    simp
  · rw [List.find?_cons_of_neg _ (by simpa using h), if_neg h]

/-- Looking a listed key up in a keyed `filterMap` over totally-defined
options recovers the option. -/
theorem lookupStr_filterMap (ks : List String) (F : String → Option String) (key : String)
    (hall : ∀ k ∈ ks, (F k).isSome = true) (hk : key ∈ ks) :
    lookupStr (ks.filterMap fun k => (F k).map fun v => (k, v)) key = F key := by
  induction ks with
  | nil => cases hk
  | cons k0 rest ih =>
    obtain ⟨v0, hv0⟩ := Option.isSome_iff_exists.mp (hall k0 (by simp))
    rw [List.filterMap_cons, hv0]
    simp only [Option.map_some']
    rw [lookupStr_cons]
    by_cases he : k0 = key
    · rw [if_pos he, ← he, hv0]
    · rw [if_neg he]
      refine ih (fun k hx => hall k (by simp [hx])) ?_
      rcases List.mem_cons.mp hk with h | h
      · exact absurd h.symm he
      · exact h

/-- Association lookup through a key-preserving map of the entries. -/
theorem lookupStr_map_entries (l : List (String × String)) (G : String × String → String)
    (key : String) :
    lookupStr (l.map fun kv => (kv.1, G kv)) key =
      (l.find? fun kv => kv.1 = key).map fun kv => G kv := by
  induction l with
  | nil => rfl
  | cons kv rest ih =>
    rw [List.map_cons, lookupStr_cons]
    by_cases h : kv.1 = key
    · rw [if_pos h, List.find?_cons_of_pos _ (by simpa using h), Option.map_some']
    · rw [if_neg h, List.find?_cons_of_neg _ (by simpa using h), ih]

/-- Well-formedness of a form's palette inputs: every one of the 16 keys is
present and already holds a normalized color. -/
def PaletteInputsValid (f : GenForm) : Prop :=
  ∀ k ∈ GENERATOR_THEME_KEYS,
    (lookupStr f.colors k).isSome = true ∧
    normalizeHexColor ((lookupStr f.colors k).getD "") = lookupStr f.colors k

instance (f : GenForm) : Decidable (PaletteInputsValid f) := by
  unfold PaletteInputsValid
  infer_instance

/-- C9 (amended): `captureDefault` memoizes the palette present at its first
call and every later call in the session is a no-op; after any further
palette mutations (randomize, presets — anything leaving the form with the
keys populated), `resetToDefault` restores exactly the memoized palette on
every populated key; but when nothing was captured, `resetToDefault` first
memoizes the palette present at reset time and re-applies it — it never
falls back to the `ocean` preset, that fallback being unreachable. -/
theorem C9_palette_capture_reset (st : PaletteSession) (f g g2 : GenForm)
    (hf : PaletteInputsValid f) :
    (captureGeneratorDefaultPalette (captureGeneratorDefaultPalette st f) g2 =
      captureGeneratorDefaultPalette st f) ∧
    (∀ k ∈ GENERATOR_THEME_KEYS, (lookupStr g.colors k).isSome = true →
      lookupStr ((resetGeneratorPalette (captureGeneratorDefaultPalette ⟨none⟩ f) g).2.colors) k
        = lookupStr f.colors k) ∧
    (resetGeneratorPalette ⟨none⟩ g).2 = applyGeneratorPalette g (generatorPaletteFromInputs g) := by
  refine ⟨?_, ?_, rfl⟩
  · cases h : st.generatorDefaultPalette with
    | some p => simp [captureGeneratorDefaultPalette, h]
    | none => simp [captureGeneratorDefaultPalette, h]
  · intro k hk hg
    obtain ⟨v, hv⟩ := Option.isSome_iff_exists.mp (hf k hk).1
    have hnorm : normalizeHexColor v = some v := by
      have := (hf k hk).2
      rw [hv] at this
      simpa using this
    have hcap : captureGeneratorDefaultPalette ⟨none⟩ f =
        ⟨some (generatorPaletteFromInputs f)⟩ := rfl
    rw [hcap]
    have hres : (resetGeneratorPalette ⟨some (generatorPaletteFromInputs f)⟩ g).2 =
        applyGeneratorPalette g (generatorPaletteFromInputs f) := rfl
    rw [hres]
    obtain ⟨e, he⟩ := Option.isSome_iff_exists.mp hg
    show lookupStr (g.colors.map fun kv =>
      (kv.1, paletteEntryValue (generatorPaletteFromInputs f) kv)) k = lookupStr f.colors k
    rw [lookupStr_map_entries]
    obtain ⟨entry, hentry⟩ : ∃ e2, g.colors.find? (fun kv => kv.1 = k) = some e2 := by
      unfold lookupStr at he
      cases hfind2 : g.colors.find? (fun kv => kv.1 = k) with
      | some x => exact ⟨x, rfl⟩
      | none => rw [hfind2] at he; simp at he
    rw [hentry, Option.map_some']
    have hkey : entry.1 = k := by
      have := List.find?_some hentry
      simpa using this
    have hlookupP : lookupStr (generatorPaletteFromInputs f) k =
        normalizeHexColor ((lookupStr f.colors k).getD "") := by
      unfold generatorPaletteFromInputs
      exact lookupStr_filterMap GENERATOR_THEME_KEYS _ k
        (fun k2 hk2 => by
          obtain ⟨v2, hv2⟩ := Option.isSome_iff_exists.mp (hf k2 hk2).1
          have h2 := (hf k2 hk2).2
          rw [h2, hv2]
          rfl) hk
    unfold paletteEntryValue
    rw [hkey, if_pos hk, hlookupP, hv]
    simp only [Option.getD_some]
    rw [hnorm]
    simp [hnorm]

/-- A form whose 16 palette inputs were all randomized to `#0A0A0A`. -/
def c9RandomForm : GenForm :=
  { baseForm with colors := GENERATOR_THEME_KEYS.map fun k => (k, "#0A0A0A") }

/-- C9 counterexample: the claim says `resetToDefault()` restores the first
preset (`ocean`) when no default was captured; but with nothing captured and
the palette inputs randomized, reset memoizes and re-applies the randomized
palette — `bg_start` stays `#0A0A0A` and never becomes ocean's `#F8FBFF`. -/
theorem C9_reset_counterexample :
    lookupStr ((resetGeneratorPalette ⟨none⟩ c9RandomForm).2.colors) "bg_start" =
      some "#0A0A0A" ∧
    lookupStr oceanPreset "bg_start" = some "#F8FBFF" ∧
    some ("#0A0A0A" : String) ≠ some "#F8FBFF" :=
  ⟨by decide!, by decide!, by decide!⟩

/-- C9 witness: the amended theorem at the ocean-palette form — capture, a
randomize to all-`#0A0A0A`, then reset restores `bg_start = #F8FBFF`
exactly. -/
theorem C9_palette_capture_reset_witness :
    PaletteInputsValid baseForm ∧
    "bg_start" ∈ GENERATOR_THEME_KEYS ∧
    (lookupStr c9RandomForm.colors "bg_start").isSome = true ∧
    lookupStr
      ((resetGeneratorPalette (captureGeneratorDefaultPalette ⟨none⟩ baseForm)
        c9RandomForm).2.colors) "bg_start" = lookupStr baseForm.colors "bg_start" ∧
    lookupStr baseForm.colors "bg_start" = some "#F8FBFF" := by
  have hvalid : PaletteInputsValid baseForm := by decide!
  refine ⟨hvalid, by decide, by decide!, ?_, by decide!⟩
  exact (C9_palette_capture_reset ⟨none⟩ baseForm c9RandomForm baseForm hvalid).2.1
    "bg_start" (by decide) (by decide!)

/-! ## C4 — hide flags cleared on kind/format change, excluded from export -/

/-- Association lookup distributes over append. -/
theorem lookupStr_append (l1 l2 : List (String × String)) (key : String) :
    lookupStr (l1 ++ l2) key =
      match lookupStr l1 key with
      | some v => some v
      | none => lookupStr l2 key := by
  induction l1 with
  | nil => rfl
  | cons kv rest ih =>
    rcases kv with ⟨k0, v0⟩
    rw [List.cons_append, lookupStr_cons, lookupStr_cons]
    by_cases h : k0 = key
    · rw [if_pos h, if_pos h]
    · rw [if_neg h, if_neg h, ih]

/-- A key outside the key list never appears in a keyed `filterMap`. -/
theorem lookupStr_filterMap_not_mem (ks : List String) (F : String → Option String)
    (key : String) (hk : key ∉ ks) :
    lookupStr (ks.filterMap fun k => (F k).map fun v => (k, v)) key = none := by
  induction ks with
  | nil => rfl
  | cons k0 rest ih =>
    rw [List.filterMap_cons]
    have hne : k0 ≠ key := fun h => hk (by simp [h])
    have hrest : key ∉ rest := fun h => hk (by simp [h])
    cases hF : F k0 with
    | none => exact ih hrest
    | some v0 =>
      rw [Option.map_some', lookupStr_cons, if_neg hne]
      exact ih hrest

/-- Association lookup in the empty list. -/
theorem lookupStr_nil (key : String) : lookupStr [] key = none := rfl

/-- The `hide` query parameter of the export, in every branch: absent, or
exactly the trimmed hidden-input value. -/
theorem export_hide_param (g : GenForm) :
    lookupStr (buildGeneratorParams g) "hide" = none ∨
    lookupStr (buildGeneratorParams g) "hide" = some (jsTrim g.hide) := by
  unfold buildGeneratorParams
  by_cases hsvg : jsOr g.format "svg" = "svg"
  · rw [if_pos hsvg]
    rw [lookupStr_append, lookupStr_append, lookupStr_append, lookupStr_append,
      lookupStr_append]
    by_cases hhide : jsTrim g.hide ≠ ""
    · right
      rw [if_pos hhide]
      by_cases htitle : jsTrim g.title ≠ ""
      · rw [if_pos htitle]
        simp [lookupStr_cons, lookupStr_nil]
      · rw [if_neg htitle]
        simp [lookupStr_cons, lookupStr_nil]
    · left
      rw [if_neg hhide]
      have hcustom : lookupStr (if jsOr g.theme "ocean" = "custom"
          then generatorCustomThemeParams g else []) "hide" = none := by
        split
        · exact lookupStr_filterMap_not_mem GENERATOR_THEME_KEYS _ "hide" (by decide)
        · rfl
      by_cases htitle : jsTrim g.title ≠ ""
      · rw [if_pos htitle]
        by_cases hkind : jsOr g.kind "repo" = "repo"
        · rw [if_pos hkind]
          simp [lookupStr_cons, lookupStr_nil, hcustom]
        · rw [if_neg hkind]
          simp [lookupStr_cons, lookupStr_nil, hcustom]
      · rw [if_neg htitle]
        by_cases hkind : jsOr g.kind "repo" = "repo"
        · rw [if_pos hkind]
          simp [lookupStr_cons, lookupStr_nil, hcustom]
        · rw [if_neg hkind]
          simp [lookupStr_cons, lookupStr_nil, hcustom]
  · rw [if_neg hsvg]
    left
    by_cases hkind : jsOr g.kind "repo" = "repo"
    · rw [if_pos hkind, lookupStr_append]
      by_cases hf : jsTrim g.fieldsHidden ≠ ""
      · rw [if_pos hf]; simp [lookupStr_cons, lookupStr_nil]
      · rw [if_neg hf]; simp [lookupStr_cons, lookupStr_nil]
    · rw [if_neg hkind, lookupStr_append, lookupStr_append]
      by_cases hr : g.includeReport
      · by_cases hf : jsTrim g.fieldsHidden ≠ ""
        · simp [hr, hf, lookupStr_cons, lookupStr_nil]
        · simp [hr, hf, lookupStr_cons, lookupStr_nil]
      · by_cases hf : jsTrim g.fieldsHidden ≠ ""
        · simp [hr, hf, lookupStr_cons, lookupStr_nil]
        · simp [hr, hf, lookupStr_cons, lookupStr_nil]

/-- C4: after `syncGeneratorHideOptionsByKind` runs for a new kind, every
hide option that is not permitted for the (kind, format) pair is disabled
and unchecked; every flag in the synced hidden field comes from a permitted,
checked option; the hidden field is exactly the comma-joined selected flags;
and the canonical export's `hide` parameter carries exactly that hidden
field (or is absent entirely). -/
theorem C4_hide_flag_invariant (f : GenForm) (kind0 : String) :
    (∀ o ∈ (syncGeneratorHideOptionsByKind { f with kind := kind0 }).hideOptions,
      ¬(jsOr f.format "svg" = "svg" ∧ optSupported o (jsOr kind0 "repo") = true) →
      o.checked = false ∧ o.disabled = true) ∧
    (∀ v ∈ selectedGeneratorHideFlags (syncGeneratorHideOptionsByKind { f with kind := kind0 }),
      ∃ o ∈ (syncGeneratorHideOptionsByKind { f with kind := kind0 }).hideOptions,
        jsTrim o.value = v ∧ o.checked = true ∧
        jsOr f.format "svg" = "svg" ∧ optSupported o (jsOr kind0 "repo") = true) ∧
    (syncGeneratorHideOptionsByKind { f with kind := kind0 }).hide =
      joinWith ","
        (selectedGeneratorHideFlags (syncGeneratorHideOptionsByKind { f with kind := kind0 })) ∧
    (∀ g : GenForm, lookupStr (buildGeneratorParams g) "hide" = none ∨
      lookupStr (buildGeneratorParams g) "hide" = some (jsTrim g.hide)) := by
  refine ⟨?_, ?_, rfl, export_hide_param⟩
  · intro o ho hno
    simp only [syncGeneratorHideOptionsByKind, syncGeneratorHideField] at ho
    obtain ⟨orig, horigmem, horig⟩ := List.mem_map.mp ho
    have hkinds : o.kinds = orig.kinds := by rw [← horig]
    have hsup : ¬(jsOr f.format "svg" = "svg" ∧
        optSupported orig (jsOr kind0 "repo") = true) := by
      intro hc
      refine hno ⟨hc.1, ?_⟩
      unfold optSupported at hc ⊢
      rw [hkinds]
      exact hc.2
    rw [← horig]
    refine ⟨?_, ?_⟩
    · show (if jsOr f.format "svg" = "svg" ∧ optSupported orig (jsOr kind0 "repo") = true
        then orig.checked else false) = false
      rw [if_neg hsup]
    · show (!decide (jsOr f.format "svg" = "svg" ∧
        optSupported orig (jsOr kind0 "repo") = true)) = true
      rw [decide_eq_false hsup]
      rfl
  · intro v hv
    rcases List.mem_filter.mp hv with ⟨hmem, hne⟩
    rcases List.mem_map.mp hmem with ⟨o, hofilter, hval⟩
    rcases List.mem_filter.mp hofilter with ⟨ho, hcond⟩
    have hcond2 : o.checked = true ∧ o.disabled = false := by
      have := of_decide_eq_true hcond
      exact ⟨this.1, by simpa using this.2⟩
    simp only [syncGeneratorHideOptionsByKind, syncGeneratorHideField] at ho
    obtain ⟨orig, horigmem, horig⟩ := List.mem_map.mp ho
    have hkinds : o.kinds = orig.kinds := by rw [← horig]
    have hsup : jsOr f.format "svg" = "svg" ∧
        optSupported orig (jsOr kind0 "repo") = true := by
      by_contra hnsup
      have : o.checked = false := by
        rw [← horig]
        show (if jsOr f.format "svg" = "svg" ∧
          optSupported orig (jsOr kind0 "repo") = true then orig.checked else false) = false
        rw [if_neg hnsup]
      rw [hcond2.1] at this
      cases this
    refine ⟨o, ?_, hval, hcond2.1, hsup.1, ?_⟩
    · simp only [syncGeneratorHideOptionsByKind, syncGeneratorHideField]
      exact List.mem_map.mpr ⟨orig, horigmem, horig⟩
    · unfold optSupported
      rw [hkinds]
      exact hsup.2

/-- The spec's C4 scenario: stars and forks both checked under
kind=repo/format=svg, forks annotated as repo-only. -/
def c4Form : GenForm :=
  { baseForm with
    hideOptions :=
      [⟨"stars", "repo,quality", true, false⟩, ⟨"forks", "repo", true, false⟩],
    hide := "stars,forks" }

/-- C4 witness: switching the scenario form to kind=quality clears and
disables `forks`, keeps `stars`, and the export's `hide` parameter is
exactly `stars`. -/
theorem C4_hide_flag_invariant_witness :
    (syncGeneratorHideOptionsByKind { c4Form with kind := "quality" }).hide = "stars" ∧
    (∀ o ∈ (syncGeneratorHideOptionsByKind { c4Form with kind := "quality" }).hideOptions,
      o.value = "forks" → o.checked = false ∧ o.disabled = true) ∧
    lookupStr
      (buildGeneratorParams (syncGeneratorHideOptionsByKind { c4Form with kind := "quality" }))
      "hide" = some "stars" := by
  have h := C4_hide_flag_invariant c4Form "quality"
  refine ⟨by decide!, ?_, by decide!⟩
  intro o ho hval
  have hmem : o ∈ [(⟨"stars", "repo,quality", true, false⟩ : MultiOpt),
      ⟨"forks", "repo", false, true⟩] := by
    rw [show [(⟨"stars", "repo,quality", true, false⟩ : MultiOpt),
      ⟨"forks", "repo", false, true⟩] =
      (syncGeneratorHideOptionsByKind { c4Form with kind := "quality" }).hideOptions
      from by decide!]
    exact ho
  rcases List.mem_cons.mp hmem with h1 | h2
  · subst h1
    exact absurd hval (by decide)
  · have h2b : o = ⟨"forks", "repo", false, true⟩ := by simpa using h2
    subst h2b
    exact h.1 _ ho (by decide!)

/-! ## C6 — fieldFlags three-state serialization -/

/-- `String.split`-style splitting never yields an empty piece list. -/
theorem splitOnChar_ne_nil (sep : Char) (xs : List Char) : splitOnChar sep xs ≠ [] := by
  cases xs with
  | nil => simp [splitOnChar]
  | cons c rest =>
    simp only [splitOnChar]
    cases h : splitOnChar sep rest with
    | nil => simp
    | cons p ps => by_cases hc : c = sep <;> simp [hc]

/-- Splitting a separator-free list is the identity piece. -/
theorem splitOnChar_no_sep (sep : Char) (xs : List Char) (h : ∀ c ∈ xs, c ≠ sep) :
    splitOnChar sep xs = [xs] := by
  induction xs with
  | nil => rfl
  | cons c rest ih =>
    unfold splitOnChar
    rw [ih fun c2 hc2 => h c2 (by simp [hc2])]
    simp [h c (by simp)]

/-- Splitting at the first separator after a separator-free prefix. -/
theorem splitOnChar_append_sep (sep : Char) (xs ys : List Char)
    (h : ∀ c ∈ xs, c ≠ sep) :
    splitOnChar sep (xs ++ sep :: ys) = xs :: splitOnChar sep ys := by
  induction xs with
  | nil =>
    show splitOnChar sep (sep :: ys) = [] :: splitOnChar sep ys
    simp only [splitOnChar]
    cases hys : splitOnChar sep ys with
    | nil => exact absurd hys (splitOnChar_ne_nil sep ys)
    | cons p ps => simp
  | cons c rest ih =>
    show splitOnChar sep (c :: (rest ++ sep :: ys)) = (c :: rest) :: splitOnChar sep ys
    simp only [splitOnChar]
    rw [ih fun c2 hc2 => h c2 (by simp [hc2])]
    simp [h c (by simp)]

/-- Canonicality of a multi-select option value: trimmed, lowercase,
nonempty, comma-free, and distinct from the sentinels. -/
def ValueCanonical (v : String) : Prop :=
  jsTrim v = v ∧ jsLower v = v ∧ v ≠ "" ∧ v ≠ "__none__" ∧ v ≠ "none" ∧
    ',' ∉ v.data

instance (v : String) : Decidable (ValueCanonical v) := by
  unfold ValueCanonical
  infer_instance

/-- Tokenizing a comma-join of canonical values recovers them exactly. -/
theorem splitTokensLower_joinWith (sel : List String) (hne : sel ≠ [])
    (hcanon : ∀ s ∈ sel, ValueCanonical s) :
    splitTokensLower (joinWith "," sel) = sel := by
  induction sel with
  | nil => cases hne rfl
  | cons x rest ih =>
    obtain ⟨hxt, hxl, hxe, -, -, hxc⟩ := hcanon x (by simp)
    cases rest with
    | nil =>
      show splitTokensLower x = [x]
      unfold splitTokensLower
      rw [splitOnChar_no_sep ',' x.data fun c hc hcc => hxc (hcc ▸ hc)]
      show ([String.mk (lowerChars (jsTrimChars x.data))].filter (· ≠ "")) = [x]
      have hx : String.mk (lowerChars (jsTrimChars x.data)) = x := by
        show jsLower (jsTrim x) = x
        rw [hxt, hxl]
      rw [hx]
      simp [hxe]
    | cons y rest2 =>
      have hjoin : joinWith "," (x :: y :: rest2) = x ++ "," ++ joinWith "," (y :: rest2) := rfl
      rw [hjoin]
      unfold splitTokensLower
      have hdata : (x ++ "," ++ joinWith "," (y :: rest2)).data =
          x.data ++ ',' :: (joinWith "," (y :: rest2)).data := by
        simp [String.data_append]
      rw [hdata, splitOnChar_append_sep ',' _ _ fun c hc hcc => hxc (hcc ▸ hc)]
      rw [List.map_cons, List.filter_cons]
      have hx : String.mk (lowerChars (jsTrimChars x.data)) = x := by
        show jsLower (jsTrim x) = x
        rw [hxt, hxl]
      rw [hx]
      have hrest := ih (by simp) fun s hs => hcanon s (by simp [hs])
      unfold splitTokensLower at hrest
      rw [hrest]
      simp [hxe]

/-- Filtering with a weaker predicate keeps at least as many elements. -/
theorem length_filter_mono {α : Type} (p q : α → Bool) (l : List α)
    (h : ∀ a, p a = true → q a = true) :
    (l.filter p).length ≤ (l.filter q).length := by
  induction l with
  | nil => exact le_refl 0
  | cons a rest ih =>
    rw [List.filter_cons, List.filter_cons]
    by_cases hp : p a = true
    · rw [if_pos hp, if_pos (h a hp)]
      simpa using ih
    · rw [if_neg hp]
      split
      · exact le_trans ih (by simp)
      · exact ih

/-- Under canonical values, the selected-flag list is exactly the values of
the checked, enabled options. -/
theorem selectedFields_eq (f : GenForm)
    (hcanon : ∀ o ∈ f.fieldOptions, ValueCanonical o.value) :
    selectedGeneratorFieldFlags f =
      (f.fieldOptions.filter fun o => o.checked ∧ ¬o.disabled).map
        (fun o => o.value) := by
  unfold selectedGeneratorFieldFlags
  rw [List.map_congr_left (g := fun o => o.value) fun o ho =>
    (hcanon o (List.mem_filter.mp ho).1).1]
  apply List.filter_eq_self.mpr
  intro v hv
  obtain ⟨o, ho, hval⟩ := List.mem_map.mp hv
  have := (hcanon o (List.mem_filter.mp ho).1).2.2.1
  rw [← hval]
  simpa using this

/-- When the weaker filter is no longer than the stronger one, the two
predicates agree on the list. -/
theorem filter_length_eq_all {α : Type} (p q : α → Bool) (l : List α)
    (himp : ∀ a, p a = true → q a = true)
    (hlen : (l.filter q).length ≤ (l.filter p).length) :
    ∀ a ∈ l, q a = true → p a = true := by
  induction l with
  | nil => intro a ha; cases ha
  | cons x rest ih =>
    intro a ha hq
    rw [List.filter_cons, List.filter_cons] at hlen
    by_cases hp : p x = true
    · rw [if_pos hp, if_pos (himp x hp)] at hlen
      simp only [List.length_cons, Nat.add_le_add_iff_right] at hlen
      rcases List.mem_cons.mp ha with h1 | h2
      · rw [h1]; exact hp
      · exact ih (Nat.le_of_succ_le_succ (by simpa using hlen)) a h2 hq
    · rw [if_neg hp] at hlen
      by_cases hqx : q x = true
      · rw [if_pos hqx] at hlen
        exfalso
        have hmono := length_filter_mono p q rest himp
        simp only [List.length_cons] at hlen
        omega
      · rw [if_neg hqx] at hlen
        rcases List.mem_cons.mp ha with h1 | h2
        · rw [h1] at hq; exact absurd hq hqx
        · exact ih hlen a h2 hq

/-- Canonical field-option sets: every value canonical, values distinct. -/
def FieldOptsCanonical (f : GenForm) : Prop :=
  (∀ o ∈ f.fieldOptions, ValueCanonical o.value) ∧
  (f.fieldOptions.map MultiOpt.value).Nodup

instance (f : GenForm) : Decidable (FieldOptsCanonical f) := by
  unfold FieldOptsCanonical
  have : ∀ o ∈ f.fieldOptions, Decidable (ValueCanonical o.value) := fun o _ => by
    infer_instance
  infer_instance

/-- A comma-join of canonical values is neither the empty string nor the
`__none__` sentinel. -/
theorem joinWith_ne_sentinel (sel : List String) (hne : sel ≠ [])
    (hcanon : ∀ s ∈ sel, ValueCanonical s) :
    joinWith "," sel ≠ "" ∧ joinWith "," sel ≠ "__none__" := by
  cases sel with
  | nil => cases hne rfl
  | cons x rest =>
    obtain ⟨-, -, hxe, hxn, -, hxc⟩ := hcanon x (by simp)
    cases rest with
    | nil => exact ⟨hxe, hxn⟩
    | cons y rest2 =>
      have hmem : ',' ∈ (joinWith "," (x :: y :: rest2)).data := by
        show ',' ∈ (x ++ "," ++ joinWith "," (y :: rest2)).data
        simp [String.data_append]
      constructor
      · intro h
        rw [h] at hmem
        cases hmem
      · intro h
        rw [h] at hmem
        revert hmem
        decide

/-- The zeta-expanded shape of `applyGeneratorFieldFlags`. -/
theorem applyGeneratorFieldFlags_eq (f : GenForm) (v : String) :
    applyGeneratorFieldFlags f v =
      syncGeneratorFieldsField
        { f with fieldOptions := f.fieldOptions.map fun o =>
            if o.disabled then o
            else if ¬(splitTokensLower v ≠ []) then { o with checked := true }
            else { o with checked :=
              ¬((splitTokensLower v).contains "__none__" ∨
                  (splitTokensLower v).contains "none") ∧
                (splitTokensLower v).contains (jsLower (jsTrim (jsOr o.value ""))) } } :=
  rfl

/-- Re-applying the serialized fields value to a canonically synced form is
the identity on the form. -/
theorem applyGeneratorFieldFlags_id (f : GenForm)
    (hsync : syncGeneratorFieldsField f = f)
    (hcanon : FieldOptsCanonical f)
    (hcount : (f.fieldOptions.filter fun o => !o.disabled).length = fieldTotal f) :
    applyGeneratorFieldFlags f f.fieldsHidden = f := by
  have hserial : f.fieldsHidden =
      (if (selectedGeneratorFieldFlags f).length = 0 then "__none__"
       else if fieldTotal f ≤ (selectedGeneratorFieldFlags f).length then ""
       else joinWith "," (selectedGeneratorFieldFlags f)) :=
    congrArg GenForm.fieldsHidden hsync.symm
  have hselcanon : ∀ s ∈ selectedGeneratorFieldFlags f, ValueCanonical s := by
    intro s hs
    rw [selectedFields_eq f hcanon.1] at hs
    obtain ⟨o, ho, hval⟩ := List.mem_map.mp hs
    rw [← hval]
    exact hcanon.1 o (List.mem_filter.mp ho).1
  by_cases h0 : (selectedGeneratorFieldFlags f).length = 0
  · have hvh : f.fieldsHidden = "__none__" := by rw [hserial, if_pos h0]
    have hselnil : selectedGeneratorFieldFlags f = [] := List.length_eq_zero.mp h0
    have hunchecked : ∀ o ∈ f.fieldOptions, o.disabled = false → o.checked = false := by
      intro o ho hd
      by_contra hc
      have hc2 : o.checked = true := by simpa using hc
      have : o.value ∈ selectedGeneratorFieldFlags f := by
        rw [selectedFields_eq f hcanon.1]
        exact List.mem_map.mpr ⟨o, List.mem_filter.mpr ⟨ho, by simp [hc2, hd]⟩, rfl⟩
      rw [hselnil] at this
      cases this
    rw [hvh, applyGeneratorFieldFlags_eq]
    have ht : splitTokensLower "__none__" = ["__none__"] := by decide!
    rw [ht]
    have hopts : (f.fieldOptions.map fun o =>
        if o.disabled then o
        else if ¬((["__none__"] : List String) ≠ []) then { o with checked := true }
        else { o with checked :=
          ¬((["__none__"] : List String).contains "__none__" ∨
              (["__none__"] : List String).contains "none") ∧
            (["__none__"] : List String).contains (jsLower (jsTrim (jsOr o.value ""))) }) =
        f.fieldOptions := by
      refine (List.map_congr_left fun o ho => ?_).trans (List.map_id _)
      by_cases hd : o.disabled = true
      · rw [if_pos hd]
        rfl
      · have hd2 : o.disabled = false := by simpa using hd
        rw [if_neg (by simp [hd2]), if_neg (by simp)]
        have hck : o.checked = false := hunchecked o ho hd2
        have hdec : decide (¬((["__none__"] : List String).contains "__none__" ∨
            (["__none__"] : List String).contains "none") ∧
            (["__none__"] : List String).contains (jsLower (jsTrim (jsOr o.value "")))) =
            false := decide_eq_false fun h => h.1 (Or.inl (by decide))
        show ({ o with checked := _ } : MultiOpt) = id o
        rw [hdec, ← hck]
        rfl
    rw [hopts]
    exact hsync
  · by_cases hge : fieldTotal f ≤ (selectedGeneratorFieldFlags f).length
    · have hvh : f.fieldsHidden = "" := by rw [hserial, if_neg h0, if_pos hge]
      have hallchecked : ∀ o ∈ f.fieldOptions, o.disabled = false → o.checked = true := by
        have hlensel : (selectedGeneratorFieldFlags f).length =
            ((f.fieldOptions.filter fun o => o.checked ∧ ¬o.disabled).length) := by
          rw [selectedFields_eq f hcanon.1, List.length_map]
        have hlen : ((f.fieldOptions.filter fun o => !o.disabled).length ≤
            (f.fieldOptions.filter fun o => o.checked ∧ ¬o.disabled).length) := by
          rw [hcount]
          rw [hlensel] at hge
          exact hge
        intro o ho hd
        have := filter_length_eq_all _ _ f.fieldOptions
          (fun a ha => by
            simp only [decide_eq_true_eq] at ha
            simp [ha.2]) hlen o ho (by simp [hd])
        simpa using (of_decide_eq_true this).1
      rw [hvh, applyGeneratorFieldFlags_eq]
      have ht : splitTokensLower "" = [] := by decide!
      rw [ht]
      have hopts : (f.fieldOptions.map fun o =>
          if o.disabled then o
          else if ¬(([] : List String) ≠ []) then { o with checked := true }
          else { o with checked :=
            ¬(([] : List String).contains "__none__" ∨
                ([] : List String).contains "none") ∧
              ([] : List String).contains (jsLower (jsTrim (jsOr o.value ""))) }) =
          f.fieldOptions := by
        refine (List.map_congr_left fun o ho => ?_).trans (List.map_id _)
        by_cases hd : o.disabled = true
        · rw [if_pos hd]
          rfl
        · have hd2 : o.disabled = false := by simpa using hd
          rw [if_neg (by simp [hd2]), if_pos (by simp)]
          have hck : o.checked = true := hallchecked o ho hd2
          show ({ o with checked := true } : MultiOpt) = id o
          rw [← hck]
          rfl
      rw [hopts]
      exact hsync
    · have hvh : f.fieldsHidden = joinWith "," (selectedGeneratorFieldFlags f) := by
        rw [hserial, if_neg h0, if_neg hge]
      have hne : selectedGeneratorFieldFlags f ≠ [] := by
        intro h
        exact h0 (by rw [h]; rfl)
      have ht : splitTokensLower (joinWith "," (selectedGeneratorFieldFlags f)) =
          selectedGeneratorFieldFlags f :=
        splitTokensLower_joinWith _ hne hselcanon
      rw [hvh, applyGeneratorFieldFlags_eq, ht]
      have hnm1 : ("__none__" : String) ∉ selectedGeneratorFieldFlags f :=
        fun h => (hselcanon _ h).2.2.2.1 rfl
      have hnm2 : ("none" : String) ∉ selectedGeneratorFieldFlags f :=
        fun h => (hselcanon _ h).2.2.2.2.1 rfl
      have hopts : (f.fieldOptions.map fun o =>
          if o.disabled then o
          else if ¬(selectedGeneratorFieldFlags f ≠ []) then { o with checked := true }
          else { o with checked :=
            ¬((selectedGeneratorFieldFlags f).contains "__none__" ∨
                (selectedGeneratorFieldFlags f).contains "none") ∧
              (selectedGeneratorFieldFlags f).contains (jsLower (jsTrim (jsOr o.value ""))) }) =
          f.fieldOptions := by
        refine (List.map_congr_left fun o ho => ?_).trans (List.map_id _)
        by_cases hd : o.disabled = true
        · rw [if_pos hd]
          rfl
        · have hd2 : o.disabled = false := by simpa using hd
          obtain ⟨hvt, hvl, hve, -, -, -⟩ := hcanon.1 o ho
          rw [if_neg (by simp [hd2]), if_neg (by simp [hne])]
          have hval : jsLower (jsTrim (jsOr o.value "")) = o.value := by
            rw [show jsOr o.value "" = o.value from if_neg hve, hvt, hvl]
          have hcontains : (selectedGeneratorFieldFlags f).contains o.value = o.checked := by
            by_cases hc : o.checked = true
            · rw [hc]
              have : o.value ∈ selectedGeneratorFieldFlags f := by
                rw [selectedFields_eq f hcanon.1]
                exact List.mem_map.mpr ⟨o, List.mem_filter.mpr ⟨ho, by simp [hc, hd2]⟩, rfl⟩
              simpa using this
            · have hc2 : o.checked = false := by simpa using hc
              rw [hc2]
              by_contra hcc
              have hcc2 : o.value ∈ selectedGeneratorFieldFlags f := by
                have : (selectedGeneratorFieldFlags f).contains o.value = true := by
                  simpa using hcc
                simpa using this
              rw [selectedFields_eq f hcanon.1] at hcc2
              obtain ⟨o2, ho2, hval2⟩ := List.mem_map.mp hcc2
              have : o2 = o := List.inj_on_of_nodup_map hcanon.2
                (List.mem_filter.mp ho2).1 ho hval2
              rw [this] at ho2
              have := (List.mem_filter.mp ho2).2
              simp only [decide_eq_true_eq] at this
              rw [hc2] at this
              exact absurd this.1 (by simp)
          have hdec : decide (¬((selectedGeneratorFieldFlags f).contains "__none__" ∨
              (selectedGeneratorFieldFlags f).contains "none") ∧
              (selectedGeneratorFieldFlags f).contains (jsLower (jsTrim (jsOr o.value "")))) =
              o.checked := by
            rw [hval, hcontains]
            cases hck : o.checked with
            | true => simp [hck, hnm1, hnm2]
            | false => simp [hck]
          show ({ o with checked := _ } : MultiOpt) = id o
          rw [hdec]
          rfl
      rw [hopts]
      exact hsync

/-- C6: the three fieldFlags states serialize distinctly — an empty
selection as the `__none__` sentinel, a full selection as the omitted empty
string, and a proper nonempty subset as the comma-joined list (never equal
to either sentinel) — and re-applying the serialized value to the form is
the identity, so `__none__` round-trips to the empty selection and never
collapses into all. -/
theorem C6_fieldflags_three_state (f : GenForm)
    (hsync : syncGeneratorFieldsField f = f)
    (hcanon : FieldOptsCanonical f)
    (hcount : (f.fieldOptions.filter fun o => !o.disabled).length = fieldTotal f) :
    (selectedGeneratorFieldFlags f = [] → f.fieldsHidden = "__none__") ∧
    (selectedGeneratorFieldFlags f ≠ [] →
      (selectedGeneratorFieldFlags f).length < fieldTotal f →
      f.fieldsHidden = joinWith "," (selectedGeneratorFieldFlags f) ∧
      f.fieldsHidden ≠ "" ∧ f.fieldsHidden ≠ "__none__") ∧
    (fieldTotal f ≤ (selectedGeneratorFieldFlags f).length → f.fieldsHidden = "") ∧
    ("__none__" ≠ ("" : String)) ∧
    applyGeneratorFieldFlags f f.fieldsHidden = f := by
  have hserial : f.fieldsHidden =
      (if (selectedGeneratorFieldFlags f).length = 0 then "__none__"
       else if fieldTotal f ≤ (selectedGeneratorFieldFlags f).length then ""
       else joinWith "," (selectedGeneratorFieldFlags f)) :=
    congrArg GenForm.fieldsHidden hsync.symm
  have hselcanon : ∀ s ∈ selectedGeneratorFieldFlags f, ValueCanonical s := by
    intro s hs
    rw [selectedFields_eq f hcanon.1] at hs
    obtain ⟨o, ho, hval⟩ := List.mem_map.mp hs
    rw [← hval]
    exact hcanon.1 o (List.mem_filter.mp ho).1
  have htotal_pos : 0 < fieldTotal f := by
    unfold fieldTotal
    split <;> decide
  refine ⟨?_, ?_, ?_, by decide, ?_⟩
  · intro hsel
    rw [hserial, if_pos (by rw [hsel]; rfl)]
  · intro hne hlt
    have h0 : ¬(selectedGeneratorFieldFlags f).length = 0 := by
      simpa [List.length_eq_zero] using hne
    rw [hserial, if_neg h0, if_neg (not_le.mpr hlt)]
    exact ⟨rfl, (joinWith_ne_sentinel _ hne hselcanon).1,
      (joinWith_ne_sentinel _ hne hselcanon).2⟩
  · intro hge
    have h0 : ¬(selectedGeneratorFieldFlags f).length = 0 := by
      intro h
      rw [h] at hge
      omega
    rw [hserial, if_neg h0, if_pos hge]
  · exact applyGeneratorFieldFlags_id f hsync hcanon hcount

/-- A synced quality/json option set with exactly job_id and commit_sha
selected. -/
def c6FieldOpts : List MultiOpt :=
  (GENERATOR_JSON_FIELDS_repo.map fun v => ⟨v, "repo", false, true⟩) ++
  (GENERATOR_JSON_FIELDS_quality.map fun v =>
    ⟨v, "quality", v = "job_id" ∨ v = "commit_sha", false⟩)

/-- A synced quality/json form with a proper subset selected. -/
def c6Form : GenForm :=
  { baseForm with
    kind := "quality"
    format := "json"
    fieldsHidden := "job_id,commit_sha"
    fieldOptions := c6FieldOpts }

/-- The same form with an explicitly empty selection. -/
def c6NoneForm : GenForm :=
  { c6Form with
    fieldsHidden := "__none__"
    fieldOptions :=
      (GENERATOR_JSON_FIELDS_repo.map fun v => ⟨v, "repo", false, true⟩) ++
      (GENERATOR_JSON_FIELDS_quality.map fun v => ⟨v, "quality", false, false⟩) }

/-- C6 witness: on the subset form the hidden field is the joined list,
distinct from both sentinels, and re-applying it is the identity; on the
empty-selection form the hidden field is `__none__` and re-applying it keeps
the selection empty rather than collapsing to all. -/
theorem C6_fieldflags_three_state_witness :
    syncGeneratorFieldsField c6Form = c6Form ∧
    FieldOptsCanonical c6Form ∧
    (c6Form.fieldOptions.filter fun o => !o.disabled).length = fieldTotal c6Form ∧
    c6Form.fieldsHidden = "job_id,commit_sha" ∧
    c6Form.fieldsHidden ≠ "" ∧
    c6Form.fieldsHidden ≠ "__none__" ∧
    applyGeneratorFieldFlags c6Form c6Form.fieldsHidden = c6Form ∧
    c6NoneForm.fieldsHidden = "__none__" ∧
    applyGeneratorFieldFlags c6NoneForm c6NoneForm.fieldsHidden = c6NoneForm := by
  have hs : syncGeneratorFieldsField c6Form = c6Form := by decide!
  have hc : FieldOptsCanonical c6Form := by decide!
  have hn : (c6Form.fieldOptions.filter fun o => !o.disabled).length = fieldTotal c6Form := by
    decide!
  have h := C6_fieldflags_three_state c6Form hs hc hn
  have hsub := h.2.1 (by decide!) (by decide!)
  have hs2 : syncGeneratorFieldsField c6NoneForm = c6NoneForm := by decide!
  have hc2 : FieldOptsCanonical c6NoneForm := by decide!
  have hn2 : (c6NoneForm.fieldOptions.filter fun o => !o.disabled).length =
      fieldTotal c6NoneForm := by decide!
  have h2 := C6_fieldflags_three_state c6NoneForm hs2 hc2 hn2
  exact ⟨hs, hc, hn, by decide!, hsub.2.1, hsub.2.2, h.2.2.2.2, by decide!, h2.2.2.2.2⟩

/-! ## Encoding and parsing inverse lemmas

These connect the export codec's serializers with the import codec's
parsers on the ASCII inputs the round-trip claims quantify over. -/

/-- A one-byte (ASCII) character UTF-8-encodes to its own code. -/
theorem utf8Bytes_ascii (c : Char) (h : c.toNat < 128) : utf8Bytes c = [c.toNat] := by
  unfold utf8Bytes
  rw [if_pos h]

/-- Decoding step on an ASCII byte. -/
theorem utf8Decode_ascii_cons (b : ℕ) (h : b < 128) (rest : List ℕ) :
    utf8Decode (b :: rest) = Char.ofNat b :: utf8Decode rest := by
  conv_lhs => rw [utf8Decode.eq_def]
  simp [h]

/-- Percent-decoding step on a non-escape character. -/
theorem percentDecodeBytes_not_pct (c : Char) (h : ¬c = '%') (rest : List Char) :
    percentDecodeBytes (c :: rest) = utf8Bytes c ++ percentDecodeBytes rest := by
  conv_lhs => rw [percentDecodeBytes.eq_def]
  simp [h]

/-- Percent-decoding step on a well-formed escape. -/
theorem percentDecodeBytes_pct (a b : Char) (x y : ℕ) (ha : hexVal a = some x)
    (hb : hexVal b = some y) (rest : List Char) :
    percentDecodeBytes ('%' :: a :: b :: rest) =
      (16 * x + y) :: percentDecodeBytes rest := by
  conv_lhs => rw [percentDecodeBytes.eq_def]
  simp [ha, hb]

/-- Escape digits decode back to their value. -/
theorem hexVal_hexDigitChar : ∀ n < 16, hexVal (hexDigitChar n) = some n := by decide!

/-- Escape digits are alphanumeric. -/
theorem hexDigitChar_alnum : ∀ n < 16, (hexDigitChar n).isAlphanum = true := by decide!

/-- Character classification of form-encoded output (for ASCII input). -/
theorem mem_formEncodeChars (l : List Char) (hl : ∀ c ∈ l, c.toNat < 128) (c : Char)
    (h : c ∈ formEncodeChars l) :
    c.isAlphanum = true ∨ c = '*' ∨ c = '-' ∨ c = '.' ∨ c = '_' ∨ c = '+' ∨ c = '%' := by
  induction l with
  | nil => cases h
  | cons d rest ih =>
    have hd := hl d (by simp)
    unfold formEncodeChars at h
    rw [List.flatMap_cons] at h
    rcases List.mem_append.mp h with h1 | h2
    · by_cases hsafe : formSafe d = true
      · rw [if_pos hsafe] at h1
        have hcd : c = d := by simpa using h1
        subst hcd
        unfold formSafe at hsafe
        rcases Bool.or_eq_true_iff.mp hsafe with h3 | h3
        · rcases Bool.or_eq_true_iff.mp h3 with h4 | h4
          · rcases Bool.or_eq_true_iff.mp h4 with h5 | h5
            · rcases Bool.or_eq_true_iff.mp h5 with h6 | h6
              · exact Or.inl h6
              · exact Or.inr (Or.inl (by simpa using h6))
            · exact Or.inr (Or.inr (Or.inl (by simpa using h5)))
          · exact Or.inr (Or.inr (Or.inr (Or.inl (by simpa using h4))))
        · exact Or.inr (Or.inr (Or.inr (Or.inr (Or.inl (by simpa using h3)))))
      · rw [if_neg hsafe] at h1
        by_cases hsp : d = ' '
        · rw [if_pos hsp] at h1
          have : c = '+' := by simpa using h1
          exact Or.inr (Or.inr (Or.inr (Or.inr (Or.inr (Or.inl this)))))
        · rw [if_neg hsp] at h1
          rw [utf8Bytes_ascii d hd] at h1
          have h1b : c ∈ pctByte d.toNat := by simpa using h1
          have hdiv : d.toNat / 16 < 16 := by omega
          have hmod : d.toNat % 16 < 16 := Nat.mod_lt _ (by norm_num)
          simp only [pctByte, List.mem_cons, List.not_mem_nil, or_false] at h1b
          rcases h1b with h3 | h3 | h3
          · exact Or.inr (Or.inr (Or.inr (Or.inr (Or.inr (Or.inr h3)))))
          · exact Or.inl (h3 ▸ hexDigitChar_alnum _ hdiv)
          · exact Or.inl (h3 ▸ hexDigitChar_alnum _ hmod)
    · exact ih (fun c2 hc2 => hl c2 (by simp [hc2])) h2

/-- Decoding inverts the form-urlencoded serializer on ASCII input. -/
theorem formDecode_formEncode (l : List Char) (h : ∀ c ∈ l, c.toNat < 128) :
    formDecode (formEncodeChars l) = l := by
  induction l with
  | nil => simp [formEncodeChars, formDecode, percentDecode, percentDecodeBytes, utf8Decode]
  | cons c rest ih =>
    have hc := h c (by simp)
    have ihr := ih fun c2 hc2 => h c2 (by simp [hc2])
    unfold formEncodeChars
    rw [List.flatMap_cons]
    show formDecode ((if formSafe c then [c]
      else if c = ' ' then ['+'] else (utf8Bytes c).flatMap pctByte) ++
      formEncodeChars rest) = c :: rest
    by_cases hsafe : formSafe c = true
    · rw [if_pos hsafe]
      have hplus : c ≠ '+' := by
        intro hx
        rw [hx] at hsafe
        exact absurd hsafe (by decide)
      have hpct : c ≠ '%' := by
        intro hx
        rw [hx] at hsafe
        exact absurd hsafe (by decide)
      unfold formDecode at ihr ⊢
      rw [List.map_append]
      show percentDecode ((if c = '+' then ' ' else c) :: _) = c :: rest
      rw [if_neg hplus]
      unfold percentDecode at ihr ⊢
      rw [percentDecodeBytes_not_pct c hpct, utf8Bytes_ascii c hc, List.cons_append,
        List.nil_append, utf8Decode_ascii_cons _ hc, Char.ofNat_toNat]
      simp only [List.map_nil, List.append]
      rw [ihr]
    · rw [if_neg hsafe]
      by_cases hsp : c = ' '
      · rw [if_pos hsp]
        unfold formDecode at ihr ⊢
        rw [List.map_append]
        show percentDecode ((if '+' = '+' then ' ' else '+') :: _) = c :: rest
        rw [if_pos rfl]
        unfold percentDecode at ihr ⊢
        rw [percentDecodeBytes_not_pct ' ' (by decide),
          utf8Bytes_ascii ' ' (by decide), List.cons_append, List.nil_append,
          utf8Decode_ascii_cons _ (by decide)]
        simp only [List.map_nil, List.append]
        rw [ihr, hsp]
        rfl
      · rw [if_neg hsp, utf8Bytes_ascii c hc]
        have hdiv : c.toNat / 16 < 16 := by omega
        have hmod : c.toNat % 16 < 16 := Nat.mod_lt _ (by norm_num)
        have hne1 : hexDigitChar (c.toNat / 16) ≠ '+' := by
          intro hx
          have := hexDigitChar_alnum _ hdiv
          rw [hx] at this
          exact absurd this (by decide)
        have hne2 : hexDigitChar (c.toNat % 16) ≠ '+' := by
          intro hx
          have := hexDigitChar_alnum _ hmod
          rw [hx] at this
          exact absurd this (by decide)
        unfold formDecode at ihr ⊢
        show percentDecode (((['%', hexDigitChar (c.toNat / 16),
          hexDigitChar (c.toNat % 16)] ++ []) ++ formEncodeChars rest).map
            (fun c => if c = '+' then ' ' else c)) = c :: rest
        rw [List.map_append, List.map_append]
        show percentDecode ((['%', hexDigitChar (c.toNat / 16),
          hexDigitChar (c.toNat % 16)].map (fun c => if c = '+' then ' ' else c) ++ []) ++ _)
          = c :: rest
        rw [List.map_cons, List.map_cons, List.map_cons, List.map_nil]
        rw [if_neg (by decide : ¬('%' : Char) = '+'), if_neg hne1, if_neg hne2]
        unfold percentDecode at ihr ⊢
        rw [List.append_nil, List.cons_append, List.cons_append, List.cons_append,
          List.nil_append]
        rw [percentDecodeBytes_pct _ _ _ _ (hexVal_hexDigitChar _ hdiv)
          (hexVal_hexDigitChar _ hmod)]
        rw [Nat.div_add_mod]
        rw [utf8Decode_ascii_cons _ hc, Char.ofNat_toNat, ihr]

/-- Alphanumeric characters are ASCII. -/
theorem alnum_ascii (c : Char) (h : c.isAlphanum = true) : c.toNat < 128 := by
  simp only [Char.isAlphanum, Char.isAlpha, Char.isDigit, Char.isUpper, Char.isLower,
    Bool.or_eq_true, Bool.and_eq_true, decide_eq_true_eq] at h
  rcases h with (⟨h1, h2⟩ | ⟨h1, h2⟩) | ⟨h1, h2⟩
  · have h3 : c.toNat ≤ 90 := h2
    omega
  · have h3 : c.toNat ≤ 122 := h2
    omega
  · have h3 : c.toNat ≤ 57 := h2
    omega

/-- An alphanumeric character differs from any non-alphanumeric one. -/
theorem alnum_ne (c : Char) (h : c.isAlphanum = true) (d : Char)
    (hd : d.isAlphanum = false) : c ≠ d := fun hx => by
  rw [hx] at h
  rw [h] at hd
  cases hd

/-- Alphanumeric characters are not JavaScript whitespace. -/
theorem jsSpace_eq_false_of_alnum (c : Char) (h : c.isAlphanum = true) :
    jsSpace c = false := by
  unfold jsSpace
  have h1 := alnum_ne c h ' ' (by decide)
  have h2 := alnum_ne c h (Char.ofNat 9) (by decide)
  have h3 := alnum_ne c h (Char.ofNat 10) (by decide)
  have h4 := alnum_ne c h (Char.ofNat 11) (by decide)
  have h5 := alnum_ne c h (Char.ofNat 12) (by decide)
  have h6 := alnum_ne c h (Char.ofNat 13) (by decide)
  have h7 := alnum_ne c h (Char.ofNat 160) (by decide)
  simp [h1, h2, h3, h4, h5, h6, h7]

/-- Characters that pass `formSafe` are not JavaScript whitespace. -/
theorem jsSpace_eq_false_of_formSafe (c : Char) (h : formSafe c = true) :
    jsSpace c = false := by
  unfold formSafe at h
  simp only [Bool.or_eq_true, decide_eq_true_eq] at h
  rcases h with (((ha | ha) | ha) | ha) | ha
  · exact jsSpace_eq_false_of_alnum c ha
  all_goals subst ha
  all_goals decide

/-- The hexadecimal escape digits, as a closed character set. -/
theorem hexDigitChar_mem : ∀ n < 16, hexDigitChar n ∈ "0123456789ABCDEF".data := by
  decide!

/-- Characters of form-encoded ASCII output avoid every delimiter the URL
and query parsers split on. -/
theorem formEncodeChars_no_delims (l : List Char) (hl : ∀ c ∈ l, c.toNat < 128)
    (c : Char) (h : c ∈ formEncodeChars l) :
    c ≠ '&' ∧ c ≠ '=' ∧ c ≠ '?' ∧ c ≠ '#' ∧ c ≠ '/' ∧ c ≠ '!' ∧ c ≠ '<' ∧ c ≠ '>' ∧
      c ≠ '[' ∧ jsSpace c = false ∧ c.toNat < 128 := by
  rcases mem_formEncodeChars l hl c h with ha | ha | ha | ha | ha | ha | ha
  · refine ⟨alnum_ne c ha '&' (by decide), alnum_ne c ha '=' (by decide),
      alnum_ne c ha '?' (by decide), alnum_ne c ha '#' (by decide),
      alnum_ne c ha '/' (by decide), alnum_ne c ha '!' (by decide),
      alnum_ne c ha '<' (by decide), alnum_ne c ha '>' (by decide),
      alnum_ne c ha '[' (by decide), jsSpace_eq_false_of_alnum c ha, alnum_ascii c ha⟩
  all_goals subst ha
  all_goals refine ⟨by decide, by decide, by decide, by decide, by decide, by decide,
    by decide, by decide, by decide, by decide, by decide⟩

/-- `takeWhile`/`dropWhile` across the first failing element. -/
theorem takeWhile_stop (p : Char → Bool) (xs : List Char) (y : Char) (ys : List Char)
    (hxs : ∀ c ∈ xs, p c = true) (hy : p y = false) :
    (xs ++ y :: ys).takeWhile p = xs ∧ (xs ++ y :: ys).dropWhile p = y :: ys := by
  induction xs with
  | nil => simp [List.takeWhile_cons, List.dropWhile_cons, hy]
  | cons c rest ih =>
    have hc := hxs c (by simp)
    have ih2 := ih fun c2 h2 => hxs c2 (by simp [h2])
    simp [List.takeWhile_cons, List.dropWhile_cons, hc, ih2.1, ih2.2]

/-- `takeWhile`/`dropWhile` when every element passes. -/
theorem takeWhile_all (p : Char → Bool) (xs : List Char)
    (hxs : ∀ c ∈ xs, p c = true) :
    xs.takeWhile p = xs ∧ xs.dropWhile p = [] := by
  induction xs with
  | nil => simp
  | cons c rest ih =>
    have hc := hxs c (by simp)
    have ih2 := ih fun c2 h2 => hxs c2 (by simp [h2])
    simp [List.takeWhile_cons, List.dropWhile_cons, hc, ih2.1, ih2.2]

/-- `dropWhile` when no element passes (only the head matters). -/
theorem dropWhile_none (p : Char → Bool) (xs : List Char)
    (h : ∀ c ∈ xs, p c = false) : xs.dropWhile p = xs := by
  cases xs with
  | nil => rfl
  | cons c rest => simp [List.dropWhile_cons, h c (by simp)]

/-- Trimming is the identity on whitespace-free text. -/
theorem jsTrimChars_id (l : List Char) (h : ∀ c ∈ l, jsSpace c = false) :
    jsTrimChars l = l := by
  unfold jsTrimChars
  rw [dropWhile_none _ _ h,
    dropWhile_none _ _ (fun c hc => h c (List.mem_reverse.mp hc)),
    List.reverse_reverse]

/-- Query-value decoding is the identity on ASCII text free of escapes and
plus signs. -/
theorem formDecode_id (l : List Char)
    (h : ∀ c ∈ l, c.toNat < 128 ∧ c ≠ '%' ∧ c ≠ '+') : formDecode l = l := by
  induction l with
  | nil => simp [formDecode, percentDecode, percentDecodeBytes, utf8Decode]
  | cons c rest ih =>
    obtain ⟨hA, hP, hPl⟩ := h c (by simp)
    have ihr := ih fun c2 h2 => h c2 (by simp [h2])
    unfold formDecode at ihr ⊢
    rw [List.map_cons, if_neg hPl]
    unfold percentDecode at ihr ⊢
    rw [percentDecodeBytes_not_pct c hP, utf8Bytes_ascii c hA, List.cons_append,
      List.nil_append, utf8Decode_ascii_cons _ hA, Char.ofNat_toNat, ihr]

/-- Percent-decoding is the identity on escape-free ASCII text. -/
theorem percentDecode_id (l : List Char)
    (h : ∀ c ∈ l, c.toNat < 128 ∧ c ≠ '%') : percentDecode l = l := by
  induction l with
  | nil => simp [percentDecode, percentDecodeBytes, utf8Decode]
  | cons c rest ih =>
    obtain ⟨hA, hP⟩ := h c (by simp)
    have ihr := ih fun c2 h2 => h c2 (by simp [h2])
    unfold percentDecode at ihr ⊢
    rw [percentDecodeBytes_not_pct c hP, utf8Bytes_ascii c hA, List.cons_append,
      List.nil_append, utf8Decode_ascii_cons _ hA, Char.ofNat_toNat, ihr]

/-- `encodeURIComponent` is the identity on its safe character set. -/
theorem encodeURIComponentChars_safe (l : List Char)
    (h : ∀ c ∈ l, uriComponentSafe c = true) : encodeURIComponentChars l = l := by
  induction l with
  | nil => rfl
  | cons c rest ih =>
    unfold encodeURIComponentChars at ih ⊢
    rw [List.flatMap_cons, if_pos (h c (by simp)),
      ih fun c2 h2 => h c2 (by simp [h2])]
    rfl

/-- The angle-bracket Markdown pattern needs a leading `![`. -/
theorem mdAngleAt_no_bang (s : List Char) (h : ∀ c ∈ s, c ≠ '!') :
    mdAngleAt s = none := by
  cases s with
  | nil => rfl
  | cons c1 rest =>
    cases rest with
    | nil => rfl
    | cons c2 r =>
      simp only [mdAngleAt]
      rw [if_neg fun hx => h c1 (by simp) hx.1]

/-- The plain Markdown pattern needs a leading `![`. -/
theorem mdPlainAt_no_bang (s : List Char) (h : ∀ c ∈ s, c ≠ '!') :
    mdPlainAt s = none := by
  cases s with
  | nil => rfl
  | cons c1 rest =>
    cases rest with
    | nil => rfl
    | cons c2 r =>
      simp only [mdPlainAt]
      rw [if_neg fun hx => h c1 (by simp) hx.1]

/-- An unanchored search over bang-free text finds neither Markdown
pattern. -/
theorem searchPositions_no_bang (f : List Char → Option (List Char))
    (hf : ∀ s, (∀ c ∈ s, c ≠ '!') → f s = none)
    (l : List Char) (h : ∀ c ∈ l, c ≠ '!') :
    searchPositions f l = none := by
  induction l with
  | nil => rfl
  | cons c rest ih =>
    show (match f (c :: rest) with
      | some r => some r
      | none => searchPositions f rest) = none
    rw [hf (c :: rest) h]
    exact ih fun c2 h2 => h c2 (by simp [h2])

/-- Angle-bracket stripping is the identity on bracket-free text. -/
theorem stripAngles_id (l : List Char) (h : ∀ c ∈ l, c ≠ '<' ∧ c ≠ '>') :
    stripAngles l = l := by
  cases l with
  | nil => rfl
  | cons c rest =>
    have hlt : ¬(c = '<') := (h c (by simp)).1
    show (match (if c = '<' then rest else c :: rest).reverse with
      | c2 :: r => if c2 = '>' then r.reverse else (if c = '<' then rest else c :: rest)
      | [] => (if c = '<' then rest else c :: rest)) = c :: rest
    rw [if_neg hlt]
    cases hr : (c :: rest).reverse with
    | nil => exact absurd hr (by simp)
    | cons c2 r =>
      have hc2 : c2 ∈ c :: rest := List.mem_reverse.mp (by rw [hr]; simp)
      show (if c2 = '>' then r.reverse else c :: rest) = c :: rest
      rw [if_neg (h c2 hc2).2]

/-- `extractGeneratorImportUrl` is the identity on nonempty references free
of whitespace, bangs and angle brackets. -/
theorem extractGeneratorImportUrl_id (s : String) (hne : s.data ≠ [])
    (h : ∀ c ∈ s.data, jsSpace c = false ∧ c ≠ '!' ∧ c ≠ '<' ∧ c ≠ '>') :
    extractGeneratorImportUrl s = s := by
  unfold extractGeneratorImportUrl
  rw [jsTrimChars_id _ fun c hc => (h c hc).1]
  rw [if_neg hne]
  rw [searchPositions_no_bang mdAngleAt mdAngleAt_no_bang _ fun c hc => (h c hc).2.1]
  rw [searchPositions_no_bang mdPlainAt mdPlainAt_no_bang _ fun c hc => (h c hc).2.1]
  rw [stripAngles_id _ fun c hc => ⟨(h c hc).2.2.1, (h c hc).2.2.2⟩]
  rw [jsTrimChars_id _ fun c hc => (h c hc).1]

/-- `new URL` on an origin-relative reference with one query separator. -/
theorem jsUrlParse_split (s : String) (p q : List Char)
    (hs : s.data = '/' :: (p ++ '?' :: q))
    (hp : ∀ c ∈ p, c ≠ '#' ∧ c ≠ '?') (hq : ∀ c ∈ q, c ≠ '#') :
    jsUrlParse s = ⟨String.mk ('/' :: p), String.mk q⟩ := by
  have hnof : (('/' :: (p ++ '?' :: q)).takeWhile (· ≠ '#')) = '/' :: (p ++ '?' :: q) := by
    refine (takeWhile_all _ _ ?_).1
    intro c hc
    rcases List.mem_cons.mp hc with h1 | h1
    · subst h1
      decide
    · rcases List.mem_append.mp h1 with h2 | h2
      · simp [(hp c h2).1]
      · rcases List.mem_cons.mp h2 with h3 | h3
        · subst h3
          decide
        · simp [hq c h3]
  have hs1 : ¬lowerChars (('/' :: (p ++ '?' :: q)).take 8) = "https://".data := by
    rw [List.take_succ_cons]
    intro heq
    rw [show ("https://".data : List Char) = 'h' :: "ttps://".data from by decide] at heq
    simp only [lowerChars, List.map_cons, List.cons.injEq] at heq
    exact absurd heq.1 (by decide)
  have hs2 : ¬lowerChars (('/' :: (p ++ '?' :: q)).take 7) = "http://".data := by
    rw [List.take_succ_cons]
    intro heq
    rw [show ("http://".data : List Char) = 'h' :: "ttp://".data from by decide] at heq
    simp only [lowerChars, List.map_cons, List.cons.injEq] at heq
    exact absurd heq.1 (by decide)
  have hq1 : ∀ c ∈ '/' :: p, (fun c => decide ¬(c = '?')) c = true := by
    intro c hc
    rcases List.mem_cons.mp hc with h1 | h1
    · subst h1
      decide
    · simp [(hp c h1).2]
  obtain ⟨htake, hdrop⟩ := takeWhile_stop _ ('/' :: p) '?' q hq1 (by decide)
  have hshape : (('/' :: p) ++ '?' :: q) = '/' :: (p ++ '?' :: q) := by simp
  rw [hshape] at htake hdrop
  unfold jsUrlParse
  rw [hs]
  dsimp only
  rw [hnof, if_neg hs1, if_neg hs2]
  dsimp only
  rw [htake, hdrop]
  rfl

/-- A raw query string assembled from `key=value` pieces. -/
def joinAmp : List (List Char × List Char) → List Char
  | [] => []
  | [pr] => pr.1 ++ '=' :: pr.2
  | pr :: rest => pr.1 ++ '=' :: (pr.2 ++ '&' :: joinAmp rest)

/-- An assembled nonempty query string is a nonempty character list. -/
theorem joinAmp_cons_ne_nil (pr : List Char × List Char)
    (rest : List (List Char × List Char)) : joinAmp (pr :: rest) ≠ [] := by
  cases rest with
  | nil =>
    show pr.1 ++ '=' :: pr.2 ≠ []
    simp
  | cons pr2 rest2 =>
    show pr.1 ++ '=' :: (pr.2 ++ '&' :: joinAmp (pr2 :: rest2)) ≠ []
    simp

/-- Parsing one `key=value` piece whose key holds no `=`. -/
theorem parsePiece_step (key val : List Char) (hkey : ∀ c ∈ key, c ≠ '=') :
    (if key ++ '=' :: val = [] then none
     else some (String.mk (formDecode ((key ++ '=' :: val).takeWhile (· ≠ '='))),
       String.mk (formDecode (((key ++ '=' :: val).dropWhile (· ≠ '=')).drop 1))))
      = some (String.mk (formDecode key), String.mk (formDecode val)) := by
  rw [if_neg (by simp)]
  have hall : ∀ c ∈ key, (fun c => decide ¬(c = '=')) c = true := by
    intro c hc
    simp [hkey c hc]
  obtain ⟨htake, hdrop⟩ := takeWhile_stop _ key '=' val hall (by decide)
  rw [htake, hdrop, List.drop_one, List.tail_cons]

/-- `URLSearchParams` parsing inverts query assembly when keys are free of
both separators and values are free of the piece separator. -/
theorem parseQueryPairs_joinAmp (pieces : List (List Char × List Char))
    (h : ∀ pr ∈ pieces, (∀ c ∈ pr.1, c ≠ '&' ∧ c ≠ '=') ∧ (∀ c ∈ pr.2, c ≠ '&')) :
    parseQueryPairs (joinAmp pieces) =
      pieces.map fun pr => (String.mk (formDecode pr.1), String.mk (formDecode pr.2)) := by
  induction pieces with
  | nil => rfl
  | cons pr rest ih =>
    obtain ⟨hkey, hval⟩ := h pr (by simp)
    have hnoamp : ∀ c ∈ pr.1 ++ '=' :: pr.2, c ≠ '&' := by
      intro c hc
      rcases List.mem_append.mp hc with h1 | h1
      · exact (hkey c h1).1
      · rcases List.mem_cons.mp h1 with h2 | h2
        · subst h2
          decide
        · exact hval c h2
    cases rest with
    | nil =>
      show parseQueryPairs (pr.1 ++ '=' :: pr.2) = [(String.mk (formDecode pr.1),
        String.mk (formDecode pr.2))]
      unfold parseQueryPairs
      rw [if_neg (by simp), splitOnChar_no_sep '&' _ hnoamp]
      simp only [List.filterMap_cons, List.filterMap_nil]
      rw [parsePiece_step pr.1 pr.2 fun c hc => (hkey c hc).2]
    | cons pr2 rest2 =>
      have hshape : joinAmp (pr :: pr2 :: rest2) =
          (pr.1 ++ '=' :: pr.2) ++ '&' :: joinAmp (pr2 :: rest2) := by
        show pr.1 ++ '=' :: (pr.2 ++ '&' :: joinAmp (pr2 :: rest2)) = _
        simp
      rw [hshape]
      unfold parseQueryPairs
      rw [if_neg (by simp), splitOnChar_append_sep '&' _ _ hnoamp]
      simp only [List.filterMap_cons]
      rw [parsePiece_step pr.1 pr.2 fun c hc => (hkey c hc).2]
      have ihr := ih fun pr3 h3 => h pr3 (by simp [h3])
      unfold parseQueryPairs at ihr
      rw [if_neg (joinAmp_cons_ne_nil pr2 rest2)] at ihr
      rw [ihr, List.map_cons]
      rfl

/-- The serialized parameter list, character for character. -/
theorem serializeParams_data (ps : List (String × String)) :
    (serializeParams ps).data =
      joinAmp (ps.map fun kv => (formEncodeChars kv.1.data, formEncodeChars kv.2.data)) := by
  induction ps with
  | nil => rfl
  | cons kv rest ih =>
    cases rest with
    | nil =>
      show (formEncode kv.1 ++ "=" ++ formEncode kv.2).data =
        formEncodeChars kv.1.data ++ '=' :: formEncodeChars kv.2.data
      rw [String.data_append, String.data_append,
        show ("=".data : List Char) = ['='] from by decide]
      show formEncodeChars kv.1.data ++ ['='] ++ formEncodeChars kv.2.data = _
      simp [List.append_assoc]
    | cons kv2 rest2 =>
      show (formEncode kv.1 ++ "=" ++ formEncode kv.2 ++ "&" ++
        serializeParams (kv2 :: rest2)).data =
        formEncodeChars kv.1.data ++ '=' :: (formEncodeChars kv.2.data ++ '&' ::
          joinAmp ((kv2 :: rest2).map fun kv =>
            (formEncodeChars kv.1.data, formEncodeChars kv.2.data)))
      rw [String.data_append, String.data_append, String.data_append, String.data_append,
        ih]
      show formEncodeChars kv.1.data ++ ['='] ++ formEncodeChars kv.2.data ++ ['&'] ++ _ = _
      simp [List.append_assoc]

/-- `URLSearchParams` parsing inverts `URLSearchParams.toString` on ASCII
parameters. -/
theorem parseQueryPairs_serializeParams (ps : List (String × String))
    (h : ∀ kv ∈ ps, (∀ c ∈ (Prod.fst kv).data, c.toNat < 128) ∧
      (∀ c ∈ (Prod.snd kv).data, c.toNat < 128)) :
    parseQueryPairs (serializeParams ps).data = ps := by
  rw [serializeParams_data]
  rw [parseQueryPairs_joinAmp _ ?hsep]
  case hsep =>
    intro pr hpr
    obtain ⟨kv, hkv, hpr2⟩ := List.mem_map.mp hpr
    obtain ⟨hk, hv⟩ := h kv hkv
    subst hpr2
    constructor
    · intro c hc
      have := formEncodeChars_no_delims kv.1.data hk c hc
      exact ⟨this.1, this.2.1⟩
    · intro c hc
      exact (formEncodeChars_no_delims kv.2.data hv c hc).1
  rw [List.map_map]
  refine (List.map_congr_left ?_).trans (List.map_id ps)
  intro kv hkv
  obtain ⟨hk, hv⟩ := h kv hkv
  show (String.mk (formDecode (formEncodeChars kv.1.data)),
    String.mk (formDecode (formEncodeChars kv.2.data))) = kv
  rw [formDecode_formEncode kv.1.data hk, formDecode_formEncode kv.2.data hv]

/-- A nonempty parameter list serializes to a nonempty string. -/
theorem serializeParams_cons_ne_nil (kv : String × String)
    (rest : List (String × String)) : (serializeParams (kv :: rest)).data ≠ [] := by
  rw [serializeParams_data]
  exact joinAmp_cons_ne_nil _ _

/-- A lookup misses when no key matches. -/
theorem lookupStr_eq_none (ps : List (String × String)) (key : String)
    (h : ∀ kv ∈ ps, kv.1 ≠ key) : lookupStr ps key = none := by
  induction ps with
  | nil => rfl
  | cons kv rest ih =>
    rcases kv with ⟨k0, v0⟩
    rw [lookupStr_cons, if_neg (h (k0, v0) (by simp))]
    exact ih fun kv2 h2 => h kv2 (by simp [h2])

/-- Lowercasing a character only ever produces a period from a period. -/
theorem toLower_eq_dot (c : Char) (h : Char.toLower c = '.') : c = '.' := by
  unfold Char.toLower at h
  dsimp only at h
  by_cases hc : c.toNat ≥ 65 ∧ c.toNat ≤ 90
  · rw [if_pos hc] at h
    have h2 := congrArg Char.toNat h
    have hv : (Char.ofNat (c.toNat + 32)).toNat = c.toNat + 32 := by
      unfold Char.ofNat
      rw [dif_pos]
      · rfl
      · constructor
        omega
    rw [hv] at h2
    have h4 : c.toNat + 32 = 46 := h2
    omega
  · rw [if_neg hc] at h
    exact h

/-- Stripping a `.git` suffix is the identity on period-free names. -/
theorem stripGitSuffix_id (s : String) (h : ∀ c ∈ s.data, c ≠ '.') :
    stripGitSuffix s = s := by
  unfold stripGitSuffix
  dsimp only
  rw [if_neg]
  rintro ⟨h4, heq⟩
  have hlen : (s.data.drop (s.data.length - 4)).length = 4 := by
    rw [List.length_drop]
    omega
  cases hd : s.data.drop (s.data.length - 4) with
  | nil =>
    rw [hd] at hlen
    cases hlen
  | cons c r =>
    have hc : c ∈ s.data := List.mem_of_mem_drop (by rw [hd]; simp)
    rw [hd] at heq
    simp only [lowerChars, List.map_cons, List.cons.injEq] at heq
    exact h c hc (toLower_eq_dot c heq.1)

/-- The path-template match recovers the four segments of a well-formed
exported stats path. -/
theorem statsPathMatch_print (kind owner repo fmt : String)
    (hk : kind = "repo" ∨ kind = "quality")
    (ho1 : owner.data ≠ []) (ho2 : ∀ c ∈ owner.data, c ≠ '/')
    (hr1 : repo.data ≠ []) (hr2 : ∀ c ∈ repo.data, c ≠ '/' ∧ c ≠ '.')
    (hf : lowerChars fmt.data = "svg".data ∨ lowerChars fmt.data = "json".data) :
    statsPathMatch (String.mk ("/api/stats/".data ++ (kind.data ++ '/' ::
      (owner.data ++ '/' :: (repo.data ++ '.' :: fmt.data))))) =
      some (kind, owner, repo, fmt) := by
  have hallA : ∀ c ∈ owner.data, (fun c => decide ¬(c = '/')) c = true := by
    intro c hc
    simp [ho2 c hc]
  have hallB : ∀ c ∈ repo.data, (fun c => decide (c ≠ '/' ∧ c ≠ '.')) c = true := by
    intro c hc
    simp [(hr2 c hc).1, (hr2 c hc).2]
  obtain ⟨hotake, hodrop⟩ :=
    takeWhile_stop (· ≠ '/') owner.data '/' (repo.data ++ '.' :: fmt.data) hallA (by decide)
  obtain ⟨hrtake, hrdrop⟩ :=
    takeWhile_stop (fun c => c ≠ '/' ∧ c ≠ '.') repo.data '.' fmt.data hallB (by decide)
  have hdp : dropPrefixCI "/api/stats/".data ("/api/stats/".data ++ (kind.data ++ '/' ::
      (owner.data ++ '/' :: (repo.data ++ '.' :: fmt.data)))) =
      some (kind.data ++ '/' :: (owner.data ++ '/' :: (repo.data ++ '.' :: fmt.data))) := by
    unfold dropPrefixCI
    rw [List.take_left, List.drop_left, if_pos (by decide)]
  unfold statsPathMatch
  dsimp only
  rw [hdp]
  dsimp only
  rcases hk with hk | hk
  · subst hk
    have ht4 : (("repo".data ++ '/' :: (owner.data ++ '/' :: (repo.data ++ '.' ::
        fmt.data))).take 4) = "repo".data := by
      rw [List.take_append_of_le_length (by decide)]
      decide
    have hd4 : (("repo".data ++ '/' :: (owner.data ++ '/' :: (repo.data ++ '.' ::
        fmt.data))).drop 4) = '/' :: (owner.data ++ '/' :: (repo.data ++ '.' ::
        fmt.data)) := by
      rw [List.drop_append_of_le_length (by decide),
        show ("repo".data.drop 4 : List Char) = [] from by decide]
      simp
    rw [ht4, if_pos (by decide)]
    dsimp only
    rw [hd4]
    dsimp only
    rw [if_pos (show ('/' : Char) = '/' from rfl)]
    rw [hodrop]
    dsimp only
    rw [if_pos (show ('/' : Char) = '/' from rfl)]
    rw [hotake, if_neg ho1, hrtake, hrdrop, if_neg hr1]
    dsimp only
    rw [if_pos (show ('.' : Char) = '.' from rfl), if_pos hf, ht4]
  · subst hk
    have ht4 : (("quality".data ++ '/' :: (owner.data ++ '/' :: (repo.data ++ '.' ::
        fmt.data))).take 4) = "qual".data := by
      rw [List.take_append_of_le_length (by decide)]
      decide
    have ht7 : (("quality".data ++ '/' :: (owner.data ++ '/' :: (repo.data ++ '.' ::
        fmt.data))).take 7) = "quality".data := by
      rw [List.take_append_of_le_length (by decide)]
      decide
    have hd7 : (("quality".data ++ '/' :: (owner.data ++ '/' :: (repo.data ++ '.' ::
        fmt.data))).drop 7) = '/' :: (owner.data ++ '/' :: (repo.data ++ '.' ::
        fmt.data)) := by
      rw [List.drop_append_of_le_length (by decide),
        show ("quality".data.drop 7 : List Char) = [] from by decide]
      simp
    rw [ht4, if_neg (by decide), ht7, if_pos (by decide)]
    dsimp only
    rw [hd7]
    dsimp only
    rw [if_pos (show ('/' : Char) = '/' from rfl)]
    rw [hodrop]
    dsimp only
    rw [if_pos (show ('/' : Char) = '/' from rfl)]
    rw [hotake, if_neg ho1, hrtake, hrdrop, if_neg hr1]
    dsimp only
    rw [if_pos (show ('.' : Char) = '.' from rfl), if_pos hf, ht7]

/-- Characters of an assembled query string come from its pieces or are one
of the two separators. -/
theorem mem_joinAmp (pieces : List (List Char × List Char)) (c : Char)
    (h : c ∈ joinAmp pieces) :
    (∃ pr ∈ pieces, c ∈ pr.1 ∨ c ∈ pr.2) ∨ c = '=' ∨ c = '&' := by
  induction pieces with
  | nil => cases h
  | cons pr rest ih =>
    cases rest with
    | nil =>
      have h2 : c ∈ pr.1 ++ '=' :: pr.2 := h
      rcases List.mem_append.mp h2 with h3 | h3
      · exact Or.inl ⟨pr, by simp, Or.inl h3⟩
      · rcases List.mem_cons.mp h3 with h4 | h4
        · exact Or.inr (Or.inl h4)
        · exact Or.inl ⟨pr, by simp, Or.inr h4⟩
    | cons pr2 rest2 =>
      have h2 : c ∈ pr.1 ++ '=' :: (pr.2 ++ '&' :: joinAmp (pr2 :: rest2)) := h
      rcases List.mem_append.mp h2 with h3 | h3
      · exact Or.inl ⟨pr, by simp, Or.inl h3⟩
      · rcases List.mem_cons.mp h3 with h4 | h4
        · exact Or.inr (Or.inl h4)
        · rcases List.mem_append.mp h4 with h5 | h5
          · exact Or.inl ⟨pr, by simp, Or.inr h5⟩
          · rcases List.mem_cons.mp h5 with h6 | h6
            · exact Or.inr (Or.inr h6)
            · rcases ih h6 with ⟨pr3, hpr3, hc3⟩ | h7
              · exact Or.inl ⟨pr3, by simp [hpr3], hc3⟩
              · exact Or.inr h7

/-- A well-formed query token: nonempty ASCII alphanumeric text. -/
def QueryToken (s : String) : Prop :=
  s.data ≠ [] ∧ ∀ c ∈ s.data, c.isAlphanum = true ∧ c.toNat < 128

instance (s : String) : Decidable (QueryToken s) := by
  unfold QueryToken
  infer_instance

/-- C10 (amended): in the request-shaped parse, any well-formed `kind` and
`format` query tokens are accepted — an unrecognized kind is silently coerced
to `repo` and an unrecognized format to `svg` — and the import succeeds with
owner and repo carried through. -/
theorem C10_request_kind_format_coercion (k f : String)
    (hk : QueryToken k) (hf : QueryToken f) :
    parseGeneratorImport ("/api?owner=acme&repo=widgets&kind=" ++ k ++ "&format=" ++ f) =
      some { mkOwnerRepoImport "acme" "widgets" with
             kind := some (if jsLower k = "quality" then "quality" else "repo")
             format := some (if jsLower f = "json" then "json" else "svg")
             colors := some ([] : List (String × String)) } := by
  obtain ⟨hkne, hkc⟩ := hk
  obtain ⟨hfne, hfc⟩ := hf
  have hkstr : k ≠ "" := fun h => hkne (by rw [h])
  have hfstr : f ≠ "" := fun h => hfne (by rw [h])
  have hkfacts : ∀ c ∈ k.data, c ≠ '&' ∧ c ≠ '=' ∧ c ≠ '%' ∧ c ≠ '+' ∧ c ≠ '#' ∧
      jsSpace c = false ∧ c ≠ '!' ∧ c ≠ '<' ∧ c ≠ '>' ∧ c.toNat < 128 := by
    intro c hc
    obtain ⟨ha, hA⟩ := hkc c hc
    exact ⟨alnum_ne c ha '&' (by decide), alnum_ne c ha '=' (by decide),
      alnum_ne c ha '%' (by decide), alnum_ne c ha '+' (by decide),
      alnum_ne c ha '#' (by decide), jsSpace_eq_false_of_alnum c ha,
      alnum_ne c ha '!' (by decide), alnum_ne c ha '<' (by decide),
      alnum_ne c ha '>' (by decide), hA⟩
  have hffacts : ∀ c ∈ f.data, c ≠ '&' ∧ c ≠ '=' ∧ c ≠ '%' ∧ c ≠ '+' ∧ c ≠ '#' ∧
      jsSpace c = false ∧ c ≠ '!' ∧ c ≠ '<' ∧ c ≠ '>' ∧ c.toNat < 128 := by
    intro c hc
    obtain ⟨ha, hA⟩ := hfc c hc
    exact ⟨alnum_ne c ha '&' (by decide), alnum_ne c ha '=' (by decide),
      alnum_ne c ha '%' (by decide), alnum_ne c ha '+' (by decide),
      alnum_ne c ha '#' (by decide), jsSpace_eq_false_of_alnum c ha,
      alnum_ne c ha '!' (by decide), alnum_ne c ha '<' (by decide),
      alnum_ne c ha '>' (by decide), hA⟩
  have hdata : ("/api?owner=acme&repo=widgets&kind=" ++ k ++ "&format=" ++ f).data =
      '/' :: ("api".data ++ '?' :: joinAmp [("owner".data, "acme".data),
        ("repo".data, "widgets".data), ("kind".data, k.data), ("format".data, f.data)]) := by
    rw [String.data_append, String.data_append, String.data_append]
    rw [show ("/api?owner=acme&repo=widgets&kind=".data : List Char) =
      '/' :: ("api".data ++ '?' :: ("owner".data ++ '=' :: ("acme".data ++ '&' ::
        ("repo".data ++ '=' :: ("widgets".data ++ '&' :: ("kind".data ++ ['='])))))) from
      by decide]
    rw [show ("&format=".data : List Char) = '&' :: ("format".data ++ ['=']) from by decide]
    simp [joinAmp, List.append_assoc]
  have hQfacts : ∀ c ∈ joinAmp [("owner".data, "acme".data),
      ("repo".data, "widgets".data), ("kind".data, k.data), ("format".data, f.data)],
      c ≠ '#' ∧ jsSpace c = false ∧ c ≠ '!' ∧ c ≠ '<' ∧ c ≠ '>' := by
    intro c hc
    rcases mem_joinAmp _ c hc with ⟨pr, hpr, hcc⟩ | hsep | hsep
    · simp only [List.mem_cons, List.not_mem_nil, or_false] at hpr
      rcases hpr with h | h | h | h <;> subst h
      · rcases hcc with h2 | h2
        · exact (by decide : ∀ c ∈ "owner".data, c ≠ '#' ∧ jsSpace c = false ∧ c ≠ '!' ∧
            c ≠ '<' ∧ c ≠ '>') c h2
        · exact (by decide : ∀ c ∈ "acme".data, c ≠ '#' ∧ jsSpace c = false ∧ c ≠ '!' ∧
            c ≠ '<' ∧ c ≠ '>') c h2
      · rcases hcc with h2 | h2
        · exact (by decide : ∀ c ∈ "repo".data, c ≠ '#' ∧ jsSpace c = false ∧ c ≠ '!' ∧
            c ≠ '<' ∧ c ≠ '>') c h2
        · exact (by decide : ∀ c ∈ "widgets".data, c ≠ '#' ∧ jsSpace c = false ∧ c ≠ '!' ∧
            c ≠ '<' ∧ c ≠ '>') c h2
      · rcases hcc with h2 | h2
        · exact (by decide : ∀ c ∈ "kind".data, c ≠ '#' ∧ jsSpace c = false ∧ c ≠ '!' ∧
            c ≠ '<' ∧ c ≠ '>') c h2
        · obtain ⟨-, -, -, -, h5, h6, h7, h8, h9, -⟩ := hkfacts c h2
          exact ⟨h5, h6, h7, h8, h9⟩
      · rcases hcc with h2 | h2
        · exact (by decide : ∀ c ∈ "format".data, c ≠ '#' ∧ jsSpace c = false ∧ c ≠ '!' ∧
            c ≠ '<' ∧ c ≠ '>') c h2
        · obtain ⟨-, -, -, -, h5, h6, h7, h8, h9, -⟩ := hffacts c h2
          exact ⟨h5, h6, h7, h8, h9⟩
    · subst hsep
      exact ⟨by decide, by decide, by decide, by decide, by decide⟩
    · subst hsep
      exact ⟨by decide, by decide, by decide, by decide, by decide⟩
  have hVne : ("/api?owner=acme&repo=widgets&kind=" ++ k ++ "&format=" ++ f) ≠ "" := by
    intro h
    rw [h] at hdata
    simp at hdata
  have hext : extractGeneratorImportUrl
      ("/api?owner=acme&repo=widgets&kind=" ++ k ++ "&format=" ++ f) =
      ("/api?owner=acme&repo=widgets&kind=" ++ k ++ "&format=" ++ f) := by
    refine extractGeneratorImportUrl_id _ (by rw [hdata]; simp) ?_
    intro c hc
    rw [hdata] at hc
    rcases List.mem_cons.mp hc with h | h
    · subst h
      exact ⟨by decide, by decide, by decide, by decide⟩
    · rcases List.mem_append.mp h with h2 | h2
      · exact (by decide : ∀ c ∈ "api".data, jsSpace c = false ∧ c ≠ '!' ∧ c ≠ '<' ∧
          c ≠ '>') c h2
      · rcases List.mem_cons.mp h2 with h3 | h3
        · subst h3
          exact ⟨by decide, by decide, by decide, by decide⟩
        · obtain ⟨-, h5, h6, h7, h8⟩ := hQfacts c h3
          exact ⟨h5, h6, h7, h8⟩
  have hurl : jsUrlParse ("/api?owner=acme&repo=widgets&kind=" ++ k ++ "&format=" ++ f) =
      ⟨String.mk ('/' :: "api".data), String.mk (joinAmp [("owner".data, "acme".data),
        ("repo".data, "widgets".data), ("kind".data, k.data), ("format".data, f.data)])⟩ :=
    jsUrlParse_split _ _ _ hdata (by decide) fun c hc => (hQfacts c hc).1
  have hsep : ∀ pr ∈ [("owner".data, "acme".data), ("repo".data, "widgets".data),
      ("kind".data, k.data), ("format".data, f.data)],
      (∀ c ∈ (Prod.fst pr), c ≠ '&' ∧ c ≠ '=') ∧ (∀ c ∈ (Prod.snd pr), c ≠ '&') := by
    intro pr hpr
    simp only [List.mem_cons, List.not_mem_nil, or_false] at hpr
    rcases hpr with h | h | h | h <;> subst h
    · exact ⟨by decide, by decide⟩
    · exact ⟨by decide, by decide⟩
    · exact ⟨(by decide : ∀ c ∈ "kind".data, c ≠ '&' ∧ c ≠ '='),
        fun c hc => (hkfacts c hc).1⟩
    · exact ⟨(by decide : ∀ c ∈ "format".data, c ≠ '&' ∧ c ≠ '='),
        fun c hc => (hffacts c hc).1⟩
  have hparams : parseQueryPairs (joinAmp [("owner".data, "acme".data),
      ("repo".data, "widgets".data), ("kind".data, k.data), ("format".data, f.data)]) =
      [("owner", "acme"), ("repo", "widgets"), ("kind", k), ("format", f)] := by
    rw [parseQueryPairs_joinAmp _ hsep]
    simp only [List.map_cons, List.map_nil]
    rw [formDecode_id k.data fun c hc => ⟨(hkfacts c hc).2.2.2.2.2.2.2.2.2,
      (hkfacts c hc).2.2.1, (hkfacts c hc).2.2.2.1⟩]
    rw [formDecode_id f.data fun c hc => ⟨(hffacts c hc).2.2.2.2.2.2.2.2.2,
      (hffacts c hc).2.2.1, (hffacts c hc).2.2.2.1⟩]
    rw [show formDecode "owner".data = "owner".data from by decide!,
      show formDecode "acme".data = "acme".data from by decide!,
      show formDecode "repo".data = "repo".data from by decide!,
      show formDecode "widgets".data = "widgets".data from by decide!,
      show formDecode "kind".data = "kind".data from by decide!,
      show formDecode "format".data = "format".data from by decide!]
  have hkeys : ∀ kv ∈ [("owner", "acme"), ("repo", "widgets"), ("kind", k), ("format", f)],
      (Prod.fst (kv : String × String)) = "owner" ∨ kv.1 = "repo" ∨ kv.1 = "kind" ∨
        kv.1 = "format" := by
    intro kv hkv
    simp only [List.mem_cons, List.not_mem_nil, or_false] at hkv
    rcases hkv with h | h | h | h <;> subst h <;> simp
  have hnone : ∀ q : String, q ≠ "owner" → q ≠ "repo" → q ≠ "kind" → q ≠ "format" →
      lookupStr [("owner", "acme"), ("repo", "widgets"), ("kind", k), ("format", f)] q
        = none := by
    intro q h1 h2 h3 h4
    refine lookupStr_eq_none _ _ fun kv hkv => ?_
    rcases hkeys kv hkv with h | h | h | h <;> rw [h]
    exacts [fun he => h1 he.symm, fun he => h2 he.symm, fun he => h3 he.symm,
      fun he => h4 he.symm]
  have howner : lookupStr [("owner", "acme"), ("repo", "widgets"), ("kind", k),
      ("format", f)] "owner" = some "acme" := by
    rw [lookupStr_cons, if_pos rfl]
  have hrepo : lookupStr [("owner", "acme"), ("repo", "widgets"), ("kind", k),
      ("format", f)] "repo" = some "widgets" := by
    rw [lookupStr_cons, if_neg (by decide), lookupStr_cons, if_pos rfl]
  have hkind : lookupStr [("owner", "acme"), ("repo", "widgets"), ("kind", k),
      ("format", f)] "kind" = some k := by
    rw [lookupStr_cons, if_neg (by decide), lookupStr_cons, if_neg (by decide),
      lookupStr_cons, if_pos rfl]
  have hformat : lookupStr [("owner", "acme"), ("repo", "widgets"), ("kind", k),
      ("format", f)] "format" = some f := by
    rw [lookupStr_cons, if_neg (by decide), lookupStr_cons, if_neg (by decide),
      lookupStr_cons, if_neg (by decide), lookupStr_cons, if_pos rfl]
  have hktrim : jsTrim k = k := by
    unfold jsTrim
    rw [jsTrimChars_id _ fun c hc => (hkfacts c hc).2.2.2.2.2.1]
  have hftrim : jsTrim f = f := by
    unfold jsTrim
    rw [jsTrimChars_id _ fun c hc => (hffacts c hc).2.2.2.2.2.1]
  have hcolors : (GENERATOR_THEME_KEYS.filterMap fun key =>
      (normalizeHexColor ((lookupStr [("owner", "acme"), ("repo", "widgets"),
        ("kind", k), ("format", f)] key).getD "")).map fun c => (key, c)) = [] := by
    refine List.filterMap_eq_nil_iff.mpr fun key hkey => ?_
    have h4 := (by decide : ∀ key ∈ GENERATOR_THEME_KEYS, key ≠ "owner" ∧ key ≠ "repo" ∧
      key ≠ "kind" ∧ key ≠ "format") key hkey
    rw [hnone key h4.1 h4.2.1 h4.2.2.1 h4.2.2.2]
    rw [show normalizeHexColor (Option.getD none "") = none from by decide!]
    rfl
  have hapi : parseGeneratorApiImport
      ("/api?owner=acme&repo=widgets&kind=" ++ k ++ "&format=" ++ f) =
      some { mkOwnerRepoImport "acme" "widgets" with
             kind := some (if jsLower k = "quality" then "quality" else "repo")
             format := some (if jsLower f = "json" then "json" else "svg")
             colors := some ([] : List (String × String)) } := by
    unfold parseGeneratorApiImport
    rw [hext, if_neg hVne, hurl]
    dsimp only
    rw [hparams, howner, hrepo]
    dsimp only
    rw [if_pos ⟨by decide, by decide⟩]
    rw [hkind, hformat]
    rw [show Option.getD (some k) "" = k from rfl,
      show Option.getD (some f) "" = f from rfl]
    rw [show jsOr k "repo" = k from if_neg hkstr, hktrim,
      show jsOr f "svg" = f from if_neg hfstr, hftrim]
    rw [show jsTrim "acme" = "acme" from by decide!,
      show stripGitSuffix (jsTrim "widgets") = "widgets" from by decide!]
    dsimp only
    rw [if_neg (by decide : ¬(("acme" : String) = "" ∨ ("widgets" : String) = ""))]
    rw [hnone "theme" (by decide) (by decide) (by decide) (by decide),
      hnone "locale" (by decide) (by decide) (by decide) (by decide),
      hnone "title" (by decide) (by decide) (by decide) (by decide),
      hnone "hide" (by decide) (by decide) (by decide) (by decide),
      hnone "card_width" (by decide) (by decide) (by decide) (by decide),
      hnone "langs_count" (by decide) (by decide) (by decide) (by decide),
      hnone "animate" (by decide) (by decide) (by decide) (by decide),
      hnone "animation" (by decide) (by decide) (by decide) (by decide),
      hnone "duration" (by decide) (by decide) (by decide) (by decide),
      hnone "cache_seconds" (by decide) (by decide) (by decide) (by decide),
      hnone "include_report" (by decide) (by decide) (by decide) (by decide),
      hnone "fields" (by decide) (by decide) (by decide) (by decide),
      hcolors]
    rfl
  unfold parseGeneratorImport
  rw [hapi]

/-- C10, counterexample: in the path-shaped parse an unrecognized kind is not
coerced to `repo` — the path template admits only `repo` and `quality`, so a
`kind` segment of `banana` makes the entire import fail (no later shape
rescues it), while the same reference with `quality` imports fine.  This
refutes the claim that an unrecognized value never causes the import to
fail. -/
theorem C10_path_unrecognized_kind_fails :
    parseGeneratorImport "https://host/api/stats/banana/acme/widgets.svg" = none ∧
    (parseGeneratorImport "https://host/api/stats/quality/acme/widgets.svg").isSome
      = true :=
  ⟨by decide!, by decide!⟩

/-- C10 witness: the amended coercion theorem at the unrecognized values
`kind=banana`, `format=tiff` — the import succeeds and coerces them to
`repo` and `svg`. -/
theorem C10_request_kind_format_coercion_witness :
    QueryToken "banana" ∧ QueryToken "tiff" ∧
    parseGeneratorImport
      ("/api?owner=acme&repo=widgets&kind=" ++ "banana" ++ "&format=" ++ "tiff") =
      some { mkOwnerRepoImport "acme" "widgets" with
             kind := some (if jsLower "banana" = "quality" then "quality" else "repo")
             format := some (if jsLower "tiff" = "json" then "json" else "svg")
             colors := some ([] : List (String × String)) } ∧
    (if jsLower "banana" = "quality" then "quality" else "repo") = "repo" ∧
    (if jsLower "tiff" = "json" then "json" else "svg") = "svg" :=
  ⟨by decide, by decide,
    C10_request_kind_format_coercion "banana" "tiff" (by decide) (by decide),
    by decide!, by decide!⟩

/-- A list fixed by a map is fixed pointwise. -/
theorem map_eq_self {α : Type} (g : α → α) (l : List α) (h : l.map g = l) :
    ∀ o ∈ l, g o = o := by
  induction l with
  | nil => intro o ho; cases ho
  | cons a rest ih =>
    rw [List.map_cons, List.cons.injEq] at h
    intro o ho
    rcases List.mem_cons.mp ho with h2 | h2
    · rw [h2]
      exact h.1
    · exact ih h.2 o h2

/-- The finite value carried by a finite JS number. -/
def jsNumQ : JSNum → ℚ
  | .num q => q
  | _ => 0

/-- A numeric input in canonical printed form, parsed back to a value within
`[lo, hi]`. -/
def CanonicalNum (s : String) (lo hi : ℚ) : Prop :=
  s ≠ "" ∧ (jsNumber s).isFinite = true ∧
  (JSNum.num (jsNumQ (jsNumber s))).toJsString = s ∧
  lo ≤ jsNumQ (jsNumber s) ∧ jsNumQ (jsNumber s) ≤ hi

instance (s : String) (lo hi : ℚ) : Decidable (CanonicalNum s lo hi) := by
  unfold CanonicalNum
  infer_instance

/-- A finite JS number is its own payload. -/
theorem jsNum_finite_eq (n : JSNum) (h : n.isFinite = true) : n = .num (jsNumQ n) := by
  cases n with
  | nan => cases h
  | inf b => cases h
  | num q => rfl

/-- The export clamp prints a canonical in-range number back verbatim. -/
theorem export_num (s : String) (lo hi dflt : ℚ) (h : CanonicalNum s lo hi) :
    clampedNumString lo hi (jsNumberOr s dflt) = s := by
  obtain ⟨hne, hfin, hprint, hlo, hhi⟩ := h
  unfold jsNumberOr
  rw [if_neg hne]
  rw [jsNum_finite_eq (jsNumber s) hfin]
  unfold clampedNumString
  rw [show jsMin (JSNum.num hi) (JSNum.num (jsNumQ (jsNumber s))) =
      JSNum.num (ratMin hi (jsNumQ (jsNumber s))) from rfl,
    show jsMax (JSNum.num lo) (JSNum.num (ratMin hi (jsNumQ (jsNumber s)))) =
      JSNum.num (ratMax lo (ratMin hi (jsNumQ (jsNumber s)))) from rfl]
  rw [show ratMax lo (ratMin hi (jsNumQ (jsNumber s))) = jsNumQ (jsNumber s) from by
    unfold ratMin ratMax
    split_ifs <;> linarith]
  exact hprint

/-- The import clamp (over any enclosing range) prints a canonical in-range
number back verbatim. -/
theorem import_num (s : String) (lo hi lo2 hi2 dflt : ℚ) (h : CanonicalNum s lo hi)
    (hlo2 : lo2 ≤ lo) (hhi2 : hi ≤ hi2) :
    (JSNum.num (clampNumber s lo2 hi2 dflt)).toJsString = s := by
  obtain ⟨hne, hfin, hprint, hlo, hhi⟩ := h
  unfold clampNumber
  rw [jsNum_finite_eq (jsNumber s) hfin]
  show (JSNum.num (ratMax lo2 (ratMin hi2 (jsNumQ (jsNumber s))))).toJsString = s
  rw [show ratMax lo2 (ratMin hi2 (jsNumQ (jsNumber s))) = jsNumQ (jsNumber s) from by
    unfold ratMin ratMax
    split_ifs <;> linarith]
  exact hprint

/-- Applying an empty palette leaves every color input alone. -/
theorem applyGeneratorPalette_nil (f : GenForm) : applyGeneratorPalette f [] = f := by
  show { f with colors := f.colors.map fun kv => (kv.1, paletteEntryValue [] kv) } = f
  have hid : ∀ kv ∈ f.colors, (fun kv : String × String =>
      (kv.1, paletteEntryValue [] kv)) kv = id kv := by
    intro kv hkv
    show (kv.1, paletteEntryValue [] kv) = kv
    unfold paletteEntryValue
    rw [lookupStr_nil]
    rw [show normalizeHexColor (Option.getD none "") = none from by decide!]
    by_cases hmem : kv.1 ∈ GENERATOR_THEME_KEYS
    · rw [if_pos hmem]
    · rw [if_neg hmem]
  rw [List.map_congr_left hid, List.map_id]

/-- Under canonical values, the selected hide flags are exactly the values of
the checked, enabled hide options. -/
theorem selectedHide_eq (f : GenForm)
    (hcanon : ∀ o ∈ f.hideOptions, ValueCanonical o.value) :
    selectedGeneratorHideFlags f =
      (f.hideOptions.filter fun o => o.checked ∧ ¬o.disabled).map
        (fun o => o.value) := by
  unfold selectedGeneratorHideFlags
  rw [List.map_congr_left (g := fun o => o.value) fun o ho =>
    (hcanon o (List.mem_filter.mp ho).1).1]
  apply List.filter_eq_self.mpr
  intro v hv
  obtain ⟨o, ho, hval⟩ := List.mem_map.mp hv
  have := (hcanon o (List.mem_filter.mp ho).1).2.2.1
  rw [← hval]
  simpa using this

/-- The zeta-expanded shape of `applyGeneratorHideFlags`. -/
theorem applyGeneratorHideFlags_eq (f : GenForm) (v : String) :
    applyGeneratorHideFlags f v =
      syncGeneratorHideField
        { f with hideOptions := f.hideOptions.map fun o =>
            if o.disabled then { o with checked := false }
            else { o with checked :=
              (splitTokensLower v).contains (jsLower (jsTrim (jsOr o.value ""))) } } :=
  rfl

/-- Re-applying the serialized hide value to a canonically synced form is the
identity on the form. -/
theorem applyGeneratorHideFlags_id (f : GenForm)
    (hcanon : ∀ o ∈ f.hideOptions, ValueCanonical o.value)
    (hnodup : (f.hideOptions.map MultiOpt.value).Nodup)
    (hdis : ∀ o ∈ f.hideOptions, o.disabled = true → o.checked = false)
    (hsel : f.hide = joinWith "," (selectedGeneratorHideFlags f)) :
    applyGeneratorHideFlags f f.hide = f := by
  have hselcanon : ∀ s ∈ selectedGeneratorHideFlags f, ValueCanonical s := by
    intro s hs
    rw [selectedHide_eq f hcanon] at hs
    obtain ⟨o, ho, hval⟩ := List.mem_map.mp hs
    rw [← hval]
    exact hcanon o (List.mem_filter.mp ho).1
  have htok : splitTokensLower f.hide = selectedGeneratorHideFlags f := by
    by_cases hne : selectedGeneratorHideFlags f = []
    · rw [hsel, hne]
      decide!
    · rw [hsel]
      exact splitTokensLower_joinWith _ hne hselcanon
  rw [applyGeneratorHideFlags_eq, htok]
  have hopts : (f.hideOptions.map fun o =>
      if o.disabled then { o with checked := false }
      else { o with checked :=
        (selectedGeneratorHideFlags f).contains (jsLower (jsTrim (jsOr o.value ""))) }) =
      f.hideOptions := by
    refine (List.map_congr_left fun o ho => ?_).trans (List.map_id _)
    by_cases hd : o.disabled = true
    · rw [if_pos hd]
      show ({ o with checked := false } : MultiOpt) = id o
      rw [show (false : Bool) = o.checked from (hdis o ho hd).symm]
      rfl
    · have hd2 : o.disabled = false := by simpa using hd
      obtain ⟨hvt, hvl, hve, -, -, -⟩ := hcanon o ho
      rw [if_neg (by simp [hd2])]
      have hval : jsLower (jsTrim (jsOr o.value "")) = o.value := by
        rw [show jsOr o.value "" = o.value from if_neg hve, hvt, hvl]
      have hcontains : (selectedGeneratorHideFlags f).contains o.value = o.checked := by
        by_cases hc : o.checked = true
        · rw [hc]
          have : o.value ∈ selectedGeneratorHideFlags f := by
            rw [selectedHide_eq f hcanon]
            exact List.mem_map.mpr ⟨o, List.mem_filter.mpr ⟨ho, by simp [hc, hd2]⟩, rfl⟩
          simpa using this
        · have hc2 : o.checked = false := by simpa using hc
          rw [hc2]
          by_contra hcc
          have hcc2 : o.value ∈ selectedGeneratorHideFlags f := by
            have : (selectedGeneratorHideFlags f).contains o.value = true := by
              simpa using hcc
            simpa using this
          rw [selectedHide_eq f hcanon] at hcc2
          obtain ⟨o2, ho2, hval2⟩ := List.mem_map.mp hcc2
          have heq : o2 = o := List.inj_on_of_nodup_map hnodup
            (List.mem_filter.mp ho2).1 ho hval2
          rw [heq] at ho2
          have := (List.mem_filter.mp ho2).2
          simp only [decide_eq_true_eq] at this
          rw [hc2] at this
          exact absurd this.1 (by simp)
      show ({ o with checked := _ } : MultiOpt) = id o
      rw [hval, hcontains]
      rfl
  rw [hopts]
  show syncGeneratorHideField f = f
  unfold syncGeneratorHideField
  rw [← hsel]

/-- Applying an empty fields value to a form whose field options are all
disabled (the svg state) is the identity. -/
theorem applyGeneratorFieldFlags_all_disabled (f : GenForm)
    (hdis : ∀ o ∈ f.fieldOptions, o.disabled = true)
    (hsent : f.fieldsHidden = "__none__") :
    applyGeneratorFieldFlags f "" = f := by
  rw [applyGeneratorFieldFlags_eq]
  rw [show splitTokensLower "" = [] from by decide!]
  have hopts : (f.fieldOptions.map fun o =>
      if o.disabled then o
      else if ¬(([] : List String) ≠ []) then { o with checked := true }
      else { o with checked :=
        ¬(([] : List String).contains "__none__" ∨
            ([] : List String).contains "none") ∧
          ([] : List String).contains (jsLower (jsTrim (jsOr o.value ""))) }) =
      f.fieldOptions := by
    refine (List.map_congr_left fun o ho => ?_).trans (List.map_id _)
    rw [if_pos (hdis o ho)]
    rfl
  rw [hopts]
  show syncGeneratorFieldsField f = f
  unfold syncGeneratorFieldsField
  have hselnil : selectedGeneratorFieldFlags f = [] := by
    unfold selectedGeneratorFieldFlags
    rw [show (f.fieldOptions.filter fun o => o.checked ∧ ¬o.disabled) = [] from by
      rw [List.filter_eq_nil_iff]
      intro o ho
      simp [hdis o ho]]
    rfl
  dsimp only
  rw [hselnil]
  rw [if_pos (by simp : (([] : List String).length = 0))]
  rw [← hsent]

/-- Parsing an exported stats URL: the path segments come back as the four
captures and every other imported field is a query lookup. -/
theorem parse_stats_url (kind owner repo fmt : String) (ps : List (String × String))
    (hk : kind = "repo" ∨ kind = "quality")
    (ho1 : owner.data ≠ [])
    (ho2 : ∀ c ∈ owner.data, (c.isAlphanum = true ∨ c = '-' ∨ c = '_' ∨ c = '.') ∧
      c.toNat < 128)
    (hr1 : repo.data ≠ [])
    (hr2 : ∀ c ∈ repo.data, (c.isAlphanum = true ∨ c = '-' ∨ c = '_') ∧ c.toNat < 128)
    (hfmt : fmt = "svg" ∨ fmt = "json")
    (hps : ∀ kv ∈ ps, (∀ c ∈ (Prod.fst kv).data, c.toNat < 128) ∧
      (∀ c ∈ (Prod.snd kv).data, c.toNat < 128))
    (hnor : ∀ kv ∈ ps, (Prod.fst kv) ≠ "owner" ∧ (Prod.fst kv) ≠ "repo") :
    parseGeneratorApiImport ("/api/stats/" ++ kind ++ "/" ++ owner ++ "/" ++ repo ++ "." ++
      fmt ++ "?" ++ serializeParams ps) =
      some { owner := owner, repo := repo,
             kind := some kind, format := some fmt,
             theme := lookupStr ps "theme", locale := lookupStr ps "locale",
             title := lookupStr ps "title", hide := lookupStr ps "hide",
             width := lookupStr ps "card_width", langs := lookupStr ps "langs_count",
             animate := lookupStr ps "animate", animation := lookupStr ps "animation",
             duration := lookupStr ps "duration",
             cacheSeconds := lookupStr ps "cache_seconds",
             includeReport := lookupStr ps "include_report",
             fields := lookupStr ps "fields",
             colors := some (GENERATOR_THEME_KEYS.filterMap fun key =>
               (normalizeHexColor ((lookupStr ps key).getD "")).map fun c => (key, c)) } := by
  have hoc : ∀ c ∈ owner.data, jsSpace c = false ∧ c ≠ '!' ∧ c ≠ '<' ∧ c ≠ '>' ∧
      c ≠ '#' ∧ c ≠ '?' ∧ c ≠ '/' ∧ c ≠ '%' ∧ uriComponentSafe c = true := by
    intro c hc
    rcases (ho2 c hc).1 with ha | ha | ha | ha
    · exact ⟨jsSpace_eq_false_of_alnum c ha, alnum_ne c ha '!' (by decide),
        alnum_ne c ha '<' (by decide), alnum_ne c ha '>' (by decide),
        alnum_ne c ha '#' (by decide), alnum_ne c ha '?' (by decide),
        alnum_ne c ha '/' (by decide), alnum_ne c ha '%' (by decide),
        by simp [uriComponentSafe, ha]⟩
    all_goals subst ha
    all_goals exact ⟨by decide, by decide, by decide, by decide, by decide, by decide,
      by decide, by decide, by decide⟩
  have hrc : ∀ c ∈ repo.data, jsSpace c = false ∧ c ≠ '!' ∧ c ≠ '<' ∧ c ≠ '>' ∧
      c ≠ '#' ∧ c ≠ '?' ∧ c ≠ '/' ∧ c ≠ '%' ∧ uriComponentSafe c = true ∧ c ≠ '.' := by
    intro c hc
    rcases (hr2 c hc).1 with ha | ha | ha
    · exact ⟨jsSpace_eq_false_of_alnum c ha, alnum_ne c ha '!' (by decide),
        alnum_ne c ha '<' (by decide), alnum_ne c ha '>' (by decide),
        alnum_ne c ha '#' (by decide), alnum_ne c ha '?' (by decide),
        alnum_ne c ha '/' (by decide), alnum_ne c ha '%' (by decide),
        by simp [uriComponentSafe, ha], alnum_ne c ha '.' (by decide)⟩
    all_goals subst ha
    all_goals exact ⟨by decide, by decide, by decide, by decide, by decide, by decide,
      by decide, by decide, by decide, by decide⟩
  have hkc : ∀ c ∈ kind.data, jsSpace c = false ∧ c ≠ '!' ∧ c ≠ '<' ∧ c ≠ '>' ∧
      c ≠ '#' ∧ c ≠ '?' := by
    rcases hk with h | h <;> subst h <;> decide
  have hfc : ∀ c ∈ fmt.data, jsSpace c = false ∧ c ≠ '!' ∧ c ≠ '<' ∧ c ≠ '>' ∧
      c ≠ '#' ∧ c ≠ '?' := by
    rcases hfmt with h | h <;> subst h <;> decide
  have hQc : ∀ c ∈ (serializeParams ps).data, jsSpace c = false ∧ c ≠ '!' ∧ c ≠ '<' ∧
      c ≠ '>' ∧ c ≠ '#' := by
    rw [serializeParams_data]
    intro c hc
    rcases mem_joinAmp _ c hc with ⟨pr, hpr, hcc⟩ | hse | hse
    · obtain ⟨kv, hkv, hpr2⟩ := List.mem_map.mp hpr
      obtain ⟨hk1, hk2⟩ := hps kv hkv
      subst hpr2
      rcases hcc with h2 | h2
      · obtain ⟨-, -, -, h4, -, h6, h7, h8, -, h10, -⟩ :=
          formEncodeChars_no_delims kv.1.data hk1 c h2
        exact ⟨h10, h6, h7, h8, h4⟩
      · obtain ⟨-, -, -, h4, -, h6, h7, h8, -, h10, -⟩ :=
          formEncodeChars_no_delims kv.2.data hk2 c h2
        exact ⟨h10, h6, h7, h8, h4⟩
    · subst hse
      exact ⟨by decide, by decide, by decide, by decide, by decide⟩
    · subst hse
      exact ⟨by decide, by decide, by decide, by decide, by decide⟩
  have hdata : ("/api/stats/" ++ kind ++ "/" ++ owner ++ "/" ++ repo ++ "." ++
      fmt ++ "?" ++ serializeParams ps).data =
      '/' :: (("api/stats/".data ++ (kind.data ++ '/' :: (owner.data ++ '/' ::
        (repo.data ++ '.' :: fmt.data)))) ++ '?' :: (serializeParams ps).data) := by
    rw [String.data_append, String.data_append, String.data_append, String.data_append,
      String.data_append, String.data_append, String.data_append, String.data_append,
      String.data_append]
    rw [show ("/api/stats/".data : List Char) = '/' :: "api/stats/".data from by decide,
      show ("/".data : List Char) = ['/'] from by decide,
      show (".".data : List Char) = ['.'] from by decide,
      show ("?".data : List Char) = ['?'] from by decide]
    simp [List.append_assoc]
  have hVne : ("/api/stats/" ++ kind ++ "/" ++ owner ++ "/" ++ repo ++ "." ++
      fmt ++ "?" ++ serializeParams ps) ≠ "" := by
    intro h
    rw [h] at hdata
    simp at hdata
  have hext : extractGeneratorImportUrl ("/api/stats/" ++ kind ++ "/" ++ owner ++ "/" ++
      repo ++ "." ++ fmt ++ "?" ++ serializeParams ps) =
      ("/api/stats/" ++ kind ++ "/" ++ owner ++ "/" ++ repo ++ "." ++
      fmt ++ "?" ++ serializeParams ps) := by
    refine extractGeneratorImportUrl_id _ (by rw [hdata]; simp) ?_
    intro c hc
    rw [hdata] at hc
    rcases List.mem_cons.mp hc with h | h
    · subst h
      exact ⟨by decide, by decide, by decide, by decide⟩
    · rcases List.mem_append.mp h with h2 | h2
      · rcases List.mem_append.mp h2 with h3 | h3
        · exact (by decide : ∀ c ∈ "api/stats/".data, jsSpace c = false ∧ c ≠ '!' ∧
            c ≠ '<' ∧ c ≠ '>') c h3
        · rcases List.mem_append.mp h3 with h4 | h4
          · obtain ⟨k1, k2, k3, k4, -, -⟩ := hkc c h4
            exact ⟨k1, k2, k3, k4⟩
          · rcases List.mem_cons.mp h4 with h5 | h5
            · subst h5
              exact ⟨by decide, by decide, by decide, by decide⟩
            · rcases List.mem_append.mp h5 with h6 | h6
              · obtain ⟨k1, k2, k3, k4, -, -, -, -, -⟩ := hoc c h6
                exact ⟨k1, k2, k3, k4⟩
              · rcases List.mem_cons.mp h6 with h7 | h7
                · subst h7
                  exact ⟨by decide, by decide, by decide, by decide⟩
                · rcases List.mem_append.mp h7 with h8 | h8
                  · obtain ⟨k1, k2, k3, k4, -, -, -, -, -, -⟩ := hrc c h8
                    exact ⟨k1, k2, k3, k4⟩
                  · rcases List.mem_cons.mp h8 with h9 | h9
                    · subst h9
                      exact ⟨by decide, by decide, by decide, by decide⟩
                    · obtain ⟨k1, k2, k3, k4, -, -⟩ := hfc c h9
                      exact ⟨k1, k2, k3, k4⟩
      · rcases List.mem_cons.mp h2 with h3 | h3
        · subst h3
          exact ⟨by decide, by decide, by decide, by decide⟩
        · obtain ⟨k1, k2, k3, k4, -⟩ := hQc c h3
          exact ⟨k1, k2, k3, k4⟩
  have hurl : jsUrlParse ("/api/stats/" ++ kind ++ "/" ++ owner ++ "/" ++ repo ++ "." ++
      fmt ++ "?" ++ serializeParams ps) =
      ⟨String.mk ('/' :: ("api/stats/".data ++ (kind.data ++ '/' :: (owner.data ++ '/' ::
        (repo.data ++ '.' :: fmt.data))))), String.mk (serializeParams ps).data⟩ := by
    refine jsUrlParse_split _ _ _ hdata ?_ fun c hc => (hQc c hc).2.2.2.2
    intro c hc
    rcases List.mem_append.mp hc with h3 | h3
    · exact (by decide : ∀ c ∈ "api/stats/".data, c ≠ '#' ∧ c ≠ '?') c h3
    · rcases List.mem_append.mp h3 with h4 | h4
      · obtain ⟨-, -, -, -, k5, k6⟩ := hkc c h4
        exact ⟨k5, k6⟩
      · rcases List.mem_cons.mp h4 with h5 | h5
        · subst h5
          exact ⟨by decide, by decide⟩
        · rcases List.mem_append.mp h5 with h6 | h6
          · obtain ⟨-, -, -, -, k5, k6, -, -, -⟩ := hoc c h6
            exact ⟨k5, k6⟩
          · rcases List.mem_cons.mp h6 with h7 | h7
            · subst h7
              exact ⟨by decide, by decide⟩
            · rcases List.mem_append.mp h7 with h8 | h8
              · obtain ⟨-, -, -, -, k5, k6, -, -, -, -⟩ := hrc c h8
                exact ⟨k5, k6⟩
              · rcases List.mem_cons.mp h8 with h9 | h9
                · subst h9
                  exact ⟨by decide, by decide⟩
                · obtain ⟨-, -, -, -, k5, k6⟩ := hfc c h9
                  exact ⟨k5, k6⟩
  have hparams : parseQueryPairs (serializeParams ps).data = ps :=
    parseQueryPairs_serializeParams ps hps
  have hlowner : lookupStr ps "owner" = none :=
    lookupStr_eq_none ps "owner" fun kv hkv => (hnor kv hkv).1
  have hlrepo : lookupStr ps "repo" = none :=
    lookupStr_eq_none ps "repo" fun kv hkv => (hnor kv hkv).2
  have hpm : statsPathMatch (String.mk ('/' :: ("api/stats/".data ++ (kind.data ++ '/' ::
      (owner.data ++ '/' :: (repo.data ++ '.' :: fmt.data)))))) =
      some (kind, owner, repo, fmt) := by
    rw [show ('/' :: ("api/stats/".data ++ (kind.data ++ '/' :: (owner.data ++ '/' ::
      (repo.data ++ '.' :: fmt.data)))) : List Char) =
      "/api/stats/".data ++ (kind.data ++ '/' :: (owner.data ++ '/' ::
      (repo.data ++ '.' :: fmt.data))) from by
      rw [show ("/api/stats/".data : List Char) = '/' :: "api/stats/".data from by decide]
      rfl]
    refine statsPathMatch_print kind owner repo fmt hk ho1
      (fun c hc => (hoc c hc).2.2.2.2.2.2.1) hr1
      (fun c hc => ⟨(hrc c hc).2.2.2.2.2.2.1, (hrc c hc).2.2.2.2.2.2.2.2.2⟩) ?_
    rcases hfmt with h | h <;> subst h
    · left
      decide
    · right
      decide
  have howner_ne : owner ≠ "" := fun h => ho1 (by rw [h])
  have hrepo_ne : repo ≠ "" := fun h => hr1 (by rw [h])
  have hpd_owner : String.mk (percentDecode owner.data) = owner := by
    rw [percentDecode_id owner.data fun c hc => ⟨(ho2 c hc).2, (hoc c hc).2.2.2.2.2.2.2.1⟩]
  have hpd_repo : String.mk (percentDecode repo.data) = repo := by
    rw [percentDecode_id repo.data fun c hc => ⟨(hr2 c hc).2, (hrc c hc).2.2.2.2.2.2.2.1⟩]
  have hlk : jsLower kind = kind := by
    rcases hk with h | h <;> subst h <;> decide!
  have hlf : jsLower fmt = fmt := by
    rcases hfmt with h | h <;> subst h <;> decide!
  have hgit : stripGitSuffix repo = repo :=
    stripGitSuffix_id repo fun c hc => (hrc c hc).2.2.2.2.2.2.2.2.2
  unfold parseGeneratorApiImport
  rw [hext, if_neg hVne, hurl]
  dsimp only
  rw [hparams, hlowner, hlrepo]
  dsimp only
  rw [hpm]
  dsimp only [Option.map]
  rw [hpd_owner, hpd_repo, hlk, hlf, hgit]
  rw [if_neg (by
    rintro (h | h)
    · exact howner_ne h
    · exact hrepo_ne h)]
  rw [show (if kind = "quality" then "quality" else "repo") = kind from by
    rcases hk with h | h <;> subst h <;> decide,
    show (if fmt = "json" then "json" else "svg") = fmt from by
    rcases hfmt with h | h <;> subst h <;> decide]

/-- Lookup misses an optional singleton with a different key. -/
theorem lookupStr_opt_ne (c : Prop) [Decidable c] (k v key : String) (h : k ≠ key) :
    lookupStr (if c then [(k, v)] else []) key = none := by
  split
  · rw [lookupStr_cons, if_neg h]
    rfl
  · rfl

/-- Lookup hits an optional singleton with its own key exactly when the
option is present. -/
theorem lookupStr_opt_eq (c : Prop) [Decidable c] (k v : String) :
    lookupStr (if c then [(k, v)] else []) k = if c then some v else none := by
  split
  · rw [lookupStr_cons, if_pos rfl]
  · rfl

/-- Membership in an optional singleton pins the element. -/
theorem mem_opt {α : Type} {kv x : α} {c : Prop} [Decidable c]
    (h : kv ∈ (if c then [x] else ([] : List α))) : kv = x := by
  split at h
  · simpa using h
  · cases h

/-- Uppercasing an ASCII character stays in ASCII. -/
theorem toUpper_toNat_lt (c : Char) (h : c.toNat < 128) : (Char.toUpper c).toNat < 128 := by
  unfold Char.toUpper
  dsimp only
  by_cases hc : c.toNat ≥ 97 ∧ c.toNat ≤ 122
  · rw [if_pos hc]
    have hv : (Char.ofNat (c.toNat - 32)).toNat = c.toNat - 32 := by
      unfold Char.ofNat
      rw [dif_pos]
      · rfl
      · constructor
        omega
    rw [hv]
    omega
  · rw [if_neg hc]
    exact h

/-- Hexadecimal digits are ASCII. -/
theorem isHexDigit_ascii (c : Char) (h : isHexDigit c = true) : c.toNat < 128 := by
  unfold isHexDigit at h
  simp only [Char.isDigit, Bool.or_eq_true, Bool.and_eq_true, decide_eq_true_eq] at h
  rcases h with (⟨h1, h2⟩ | ⟨h1, h2⟩) | ⟨h1, h2⟩
  · have h3 : c.toNat ≤ 57 := h2
    omega
  · have h3 : c.toNat ≤ 102 := h2
    omega
  · have h3 : c.toNat ≤ 70 := h2
    omega

/-- A normalized color is ASCII: a hash sign followed by uppercased hex
digits. -/
theorem normalizeHexColor_ascii (s v : String) (h : normalizeHexColor s = some v) :
    ∀ c ∈ v.data, c.toNat < 128 := by
  unfold normalizeHexColor at h
  dsimp only at h
  split at h
  · rename_i ds heq
    split at h
    · rename_i hg
      have hhex : ∀ d ∈ ds, isHexDigit d = true := by
        have h2 := hg.2
        rw [List.all_eq_true] at h2
        exact fun d hd => h2 d hd
      split at h
      · split at h
        · rename_i a b c2 heq2
          rw [Option.some.injEq] at h
          subst h
          intro c hc
          have hmem : c ∈ ['#', a.toUpper, a.toUpper, b.toUpper, b.toUpper,
              c2.toUpper, c2.toUpper] := hc
          have ha := hhex a (by simp)
          have hb := hhex b (by simp)
          have hc2 := hhex c2 (by simp)
          simp only [List.mem_cons, List.not_mem_nil, or_false] at hmem
          rcases hmem with h5 | h5 | h5 | h5 | h5 | h5 | h5 <;> subst h5
          · decide
          all_goals first
            | exact toUpper_toNat_lt a (isHexDigit_ascii a ha)
            | exact toUpper_toNat_lt b (isHexDigit_ascii b hb)
            | exact toUpper_toNat_lt c2 (isHexDigit_ascii c2 hc2)
        · exact Option.noConfusion h
      · rw [Option.some.injEq] at h
        subst h
        intro c hc
        have hmem : c ∈ '#' :: ds.map Char.toUpper := hc
        rcases List.mem_cons.mp hmem with h5 | h5
        · subst h5
          decide
        · obtain ⟨d, hd, h6⟩ := List.mem_map.mp h5
          subst h6
          exact toUpper_toNat_lt d (isHexDigit_ascii d (hhex d hd))
    · exact Option.noConfusion h
  · exact Option.noConfusion h

/-- Lookup in a keyed `filterMap` over a duplicate-free key list recovers
the option, present or not. -/
theorem lookupStr_filterMap_nodup (ks : List String) (F : String → Option String)
    (key : String) (hnd : ks.Nodup) (hk : key ∈ ks) :
    lookupStr (ks.filterMap fun k => (F k).map fun v => (k, v)) key = F key := by
  induction ks with
  | nil => cases hk
  | cons k0 rest ih =>
    have hk0 := (List.nodup_cons.mp hnd).1
    have hnd2 := (List.nodup_cons.mp hnd).2
    by_cases he : k0 = key
    · subst he
      cases hF : F k0 with
      | none =>
        simp only [List.filterMap_cons, hF, Option.map_none']
        exact lookupStr_filterMap_not_mem rest F k0 hk0
      | some v0 =>
        simp only [List.filterMap_cons, hF, Option.map_some']
        rw [lookupStr_cons, if_pos rfl]
    · have hm : key ∈ rest := by
        rcases List.mem_cons.mp hk with he2 | hm2
        · exact absurd he2.symm he
        · exact hm2
      cases hF : F k0 with
      | none =>
        simp only [List.filterMap_cons, hF, Option.map_none']
        exact ih hnd2 hm
      | some v0 =>
        simp only [List.filterMap_cons, hF, Option.map_some']
        rw [lookupStr_cons, if_neg he]
        exact ih hnd2 hm

/-- A successful lookup names a member entry. -/
theorem lookupStr_some_mem (l : List (String × String)) (key v : String)
    (h : lookupStr l key = some v) : (key, v) ∈ l := by
  induction l with
  | nil => cases h
  | cons kv rest ih =>
    rw [show lookupStr (kv :: rest) key = lookupStr ((kv.1, kv.2) :: rest) key from rfl,
      lookupStr_cons] at h
    by_cases he : kv.1 = key
    · rw [if_pos he] at h
      have hv : v = kv.2 := by
        have h2 := h.symm
        simpa using h2
      subst he
      subst hv
      exact List.mem_cons_self _ _
    · rw [if_neg he] at h
      exact List.mem_cons_of_mem kv (ih h)

/-- With duplicate-free keys, lookup of a member entry's key returns its
value. -/
theorem lookupStr_mem_nodup (l : List (String × String)) (kv : String × String)
    (hnd : (l.map Prod.fst).Nodup) (hm : kv ∈ l) : lookupStr l kv.1 = some kv.2 := by
  induction l with
  | nil => cases hm
  | cons x rest ih =>
    rw [show lookupStr (x :: rest) kv.1 = lookupStr ((x.1, x.2) :: rest) kv.1 from rfl,
      lookupStr_cons]
    rw [List.map_cons, List.nodup_cons] at hnd
    rcases List.mem_cons.mp hm with he | hmem
    · rw [if_pos (by rw [he]), he]
    · rw [if_neg (fun hx => hnd.1 (by
        rw [hx]
        exact List.mem_map_of_mem Prod.fst hmem))]
      exact ih hnd.2 hmem

/-- Looking a palette key up in the exported custom-theme params yields the
normalization of that color input. -/
theorem lookup_customParams (f : GenForm) (key : String)
    (hk : key ∈ GENERATOR_THEME_KEYS) :
    lookupStr (generatorCustomThemeParams f) key =
      normalizeHexColor ((lookupStr f.colors key).getD "") := by
  unfold generatorCustomThemeParams
  exact lookupStr_filterMap_nodup GENERATOR_THEME_KEYS _ key (by decide) hk

/-- Membership in the exported custom-theme params pins the entry to a
palette key and its normalized input. -/
theorem mem_customParams (f : GenForm) (kv : String × String)
    (h : kv ∈ generatorCustomThemeParams f) :
    (Prod.fst kv) ∈ GENERATOR_THEME_KEYS ∧
    normalizeHexColor ((lookupStr f.colors (Prod.fst kv)).getD "") = some (Prod.snd kv) := by
  unfold generatorCustomThemeParams at h
  obtain ⟨k, hkmem, hopt⟩ := List.mem_filterMap.mp h
  cases hn : normalizeHexColor ((lookupStr f.colors k).getD "") with
  | none =>
    rw [hn] at hopt
    cases hopt
  | some w =>
    rw [hn] at hopt
    simp only [Option.map_some', Option.some.injEq] at hopt
    rw [← hopt]
    exact ⟨hkmem, hn⟩

/-- Canonical palette inputs: no duplicate color-input keys, and every
well-formed palette value is already the normalized `#RRGGBB` string the
exporter emits (missing or malformed values are simply not exported and
not touched on import). -/
def PaletteCanonical (f : GenForm) : Prop :=
  (f.colors.map Prod.fst).Nodup ∧
  ∀ kv ∈ f.colors, (Prod.fst kv) ∈ GENERATOR_THEME_KEYS →
    normalizeHexColor (Prod.snd kv) = none ∨
    normalizeHexColor (Prod.snd kv) = some (Prod.snd kv)

instance (f : GenForm) : Decidable (PaletteCanonical f) := by
  unfold PaletteCanonical
  infer_instance

/-- Re-applying a form's own exported custom-theme palette is the identity
on the form. -/
theorem applyGeneratorPalette_self (f : GenForm) (h : PaletteCanonical f) :
    applyGeneratorPalette f (generatorCustomThemeParams f) = f := by
  obtain ⟨hnd, hnorm⟩ := h
  have hn0 : normalizeHexColor "" = none := by decide!
  show { f with colors := f.colors.map fun kv =>
    (kv.1, paletteEntryValue (generatorCustomThemeParams f) kv) } = f
  have hid : ∀ kv ∈ f.colors, (fun kv : String × String =>
      (kv.1, paletteEntryValue (generatorCustomThemeParams f) kv)) kv = id kv := by
    intro kv hkv
    show (kv.1, paletteEntryValue (generatorCustomThemeParams f) kv) = kv
    unfold paletteEntryValue
    by_cases hmem : kv.1 ∈ GENERATOR_THEME_KEYS
    · rw [if_pos hmem, lookup_customParams f kv.1 hmem,
        lookupStr_mem_nodup f.colors kv hnd hkv]
      rw [show Option.getD (some (Prod.snd kv)) "" = kv.2 from rfl]
      rcases hnorm kv hkv hmem with hn | hn
      · rw [hn]
        rw [show Option.getD (none : Option String) "" = "" from rfl, hn0]
      · rw [hn]
        rw [show Option.getD (some (Prod.snd kv)) "" = kv.2 from rfl, hn]
    · rw [if_neg hmem]
  rw [List.map_congr_left hid, List.map_id]

/-- The round-trip precondition: every populated field of the form lies in
an availability-enabled group for its (kind, format, theme) triple, the
multi-select panels are canonically synced, and free-text fields are in the
trimmed ASCII canonical shape the exporter itself produces. -/
def RoundTripReady (f : GenForm) : Prop :=
  f.owner.data ≠ [] ∧
  (∀ c ∈ f.owner.data, (c.isAlphanum = true ∨ c = '-' ∨ c = '_' ∨ c = '.') ∧
    c.toNat < 128) ∧
  f.repo.data ≠ [] ∧
  (∀ c ∈ f.repo.data, (c.isAlphanum = true ∨ c = '-' ∨ c = '_') ∧ c.toNat < 128) ∧
  (f.kind = "repo" ∨ f.kind = "quality") ∧
  (f.format = "svg" ∨ f.format = "json") ∧
  f.theme ∈ GENERATOR_THEME_OPTIONS ∧
  (f.theme = "custom" → PaletteCanonical f) ∧
  (f.locale = "en" ∨ f.locale = "ru") ∧
  (f.animation = "all" ∨ f.animation = "soft" ∨ f.animation = "bars" ∨
    f.animation = "ring" ∨ f.animation = "none") ∧
  jsTrim f.title = f.title ∧
  (∀ c ∈ f.title.data, c.toNat < 128) ∧
  (f.format = "json" → f.title = "") ∧
  CanonicalNum f.width 640 1400 ∧
  (∀ c ∈ f.width.data, c.toNat < 128) ∧
  CanonicalNum f.langs 1 10 ∧
  (∀ c ∈ f.langs.data, c.toNat < 128) ∧
  CanonicalNum f.duration 350 7000 ∧
  (∀ c ∈ f.duration.data, c.toNat < 128) ∧
  CanonicalNum f.cacheSeconds 0 86400 ∧
  (∀ c ∈ f.cacheSeconds.data, c.toNat < 128) ∧
  (f.format = "svg" ∨ f.kind = "repo" → f.includeReport = false) ∧
  syncGeneratorHideOptionsByKind f = f ∧
  syncGeneratorFieldOptionsByKind f = f ∧
  syncGeneratorFieldsField f = f ∧
  (∀ o ∈ f.hideOptions, ValueCanonical o.value) ∧
  (f.hideOptions.map MultiOpt.value).Nodup ∧
  (∀ o ∈ f.hideOptions, o.disabled = true → o.checked = false) ∧
  f.hide = joinWith "," (selectedGeneratorHideFlags f) ∧
  jsTrim f.hide = f.hide ∧
  (∀ c ∈ f.hide.data, c.toNat < 128) ∧
  (f.format = "json" → ∀ o ∈ f.hideOptions, o.checked = false) ∧
  (∀ o ∈ f.fieldOptions, ValueCanonical o.value) ∧
  (f.fieldOptions.map MultiOpt.value).Nodup ∧
  (f.format = "svg" → ∀ o ∈ f.fieldOptions, o.disabled = true) ∧
  (f.format = "svg" → f.fieldsHidden = "__none__") ∧
  (f.format = "json" → (f.fieldOptions.filter fun o => !o.disabled).length = fieldTotal f) ∧
  jsTrim f.fieldsHidden = f.fieldsHidden ∧
  (∀ c ∈ f.fieldsHidden.data, c.toNat < 128)

set_option synthInstance.maxHeartbeats 1000000 in
set_option synthInstance.maxSize 2048 in
instance (f : GenForm) : Decidable (RoundTripReady f) := by
  unfold RoundTripReady
  infer_instance

/-- The parse result produced by importing the form's own export URL. -/
def c1Expected (f : GenForm) : ParsedImport :=
  if f.format = "svg" then
    { owner := f.owner, repo := f.repo, kind := some f.kind, format := some f.format,
      theme := some f.theme, locale := some f.locale,
      title := if f.title = "" then none else some f.title,
      hide := if f.hide = "" then none else some f.hide,
      width := some f.width,
      langs := if f.kind = "repo" then some f.langs else none,
      animate := some (if f.animate then "true" else "false"),
      animation := some f.animation, duration := some f.duration,
      cacheSeconds := some f.cacheSeconds, includeReport := none, fields := none,
      colors := some (if f.theme = "custom" then generatorCustomThemeParams f else []) }
  else if f.kind = "repo" then
    { owner := f.owner, repo := f.repo, kind := some f.kind, format := some f.format,
      theme := none, locale := none, title := none, hide := none, width := none,
      langs := some f.langs, animate := none, animation := none, duration := none,
      cacheSeconds := none, includeReport := none,
      fields := if f.fieldsHidden = "" then none else some f.fieldsHidden,
      colors := some [] }
  else
    { owner := f.owner, repo := f.repo, kind := some f.kind, format := some f.format,
      theme := none, locale := some f.locale, title := none, hide := none, width := none,
      langs := none, animate := none, animation := none, duration := none,
      cacheSeconds := none,
      includeReport := if f.includeReport then some "true" else none,
      fields := if f.fieldsHidden = "" then none else some f.fieldsHidden,
      colors := some [] }

/-- The svg-format params list, after the canonical-form rewrites. -/
theorem c1_params_svg (f : GenForm) (h : RoundTripReady f) (hsvg : f.format = "svg") :
    buildGeneratorParams f =
      [("theme", f.theme), ("locale", f.locale), ("card_width", f.width)] ++
      (if f.title ≠ "" then [("title", f.title)] else []) ++
      (if f.hide ≠ "" then [("hide", f.hide)] else []) ++
      [("animate", if f.animate then "true" else "false"), ("animation", f.animation),
       ("duration", f.duration), ("cache_seconds", f.cacheSeconds)] ++
      (if f.kind = "repo" then [("langs_count", f.langs)] else []) ++
      (if f.theme = "custom" then generatorCustomThemeParams f else []) := by
  obtain ⟨ho1, ho2, hr1, hr2, hkind, hformat, hthm, hpalc, hloc, hanim,
    httrim, htA, htjson, hwnum, hwA, hlnum, hlA, hdnum, hdA, hcnum, hcA,
    hir, hhsync, hfsync, hffsync, hhcanon, hhnodup, hhdis, hhsel, hhtrim, hhA,
    hhjson, hfcanon, hfnodup, hfdis_svg, hfsent_svg, hfcount_json, hfftrim, hffA⟩ := h
  have hthne : f.theme ≠ "" := by
    rcases (by simpa [GENERATOR_THEME_OPTIONS] using hthm : f.theme = "ocean" ∨
      f.theme = "ember" ∨ f.theme = "neon" ∨ f.theme = "paper" ∨ f.theme = "forest" ∨
      f.theme = "custom")
      with h2 | h2 | h2 | h2 | h2 | h2 <;> rw [h2] <;> decide
  have hlocne : f.locale ≠ "" := by
    rcases hloc with h2 | h2 <;> rw [h2] <;> decide
  have hanimne : f.animation ≠ "" := by
    rcases hanim with h2 | h2 | h2 | h2 | h2 <;> rw [h2] <;> decide
  unfold buildGeneratorParams
  dsimp only
  rw [show jsOr f.format "svg" = f.format from if_neg (by rw [hsvg]; decide)]
  rw [if_pos hsvg]
  rw [show jsOr f.theme "ocean" = f.theme from if_neg hthne,
    show jsOr f.locale "en" = f.locale from if_neg hlocne,
    show jsOr f.animation "all" = f.animation from if_neg hanimne,
    show jsOr f.kind "repo" = f.kind from if_neg (by
      rcases hkind with h2 | h2 <;> rw [h2] <;> decide)]
  rw [export_num f.width 640 1400 760 hwnum, export_num f.duration 350 7000 1400 hdnum,
    export_num f.cacheSeconds 0 86400 21600 hcnum, export_num f.langs 1 10 4 hlnum]
  rw [httrim, hhtrim]

/-- The export clamp over any enclosing range prints a canonical in-range
number back verbatim. -/
theorem export_num_wide (s : String) (lo hi lo2 hi2 dflt : ℚ) (h : CanonicalNum s lo hi)
    (hlo2 : lo2 ≤ lo) (hhi2 : hi ≤ hi2) :
    clampedNumString lo2 hi2 (jsNumberOr s dflt) = s := by
  obtain ⟨hne, hfin, hprint, hlo, hhi⟩ := h
  unfold jsNumberOr
  rw [if_neg hne]
  rw [jsNum_finite_eq (jsNumber s) hfin]
  unfold clampedNumString
  rw [show jsMin (JSNum.num hi2) (JSNum.num (jsNumQ (jsNumber s))) =
      JSNum.num (ratMin hi2 (jsNumQ (jsNumber s))) from rfl,
    show jsMax (JSNum.num lo2) (JSNum.num (ratMin hi2 (jsNumQ (jsNumber s)))) =
      JSNum.num (ratMax lo2 (ratMin hi2 (jsNumQ (jsNumber s)))) from rfl]
  rw [show ratMax lo2 (ratMin hi2 (jsNumQ (jsNumber s))) = jsNumQ (jsNumber s) from by
    unfold ratMin ratMax
    split_ifs <;> linarith]
  exact hprint

/-- The json/repo params list, after the canonical-form rewrites. -/
theorem c1_params_json_repo (f : GenForm) (h : RoundTripReady f)
    (hjson : f.format = "json") (hkr : f.kind = "repo") :
    buildGeneratorParams f =
      [("langs_count", f.langs)] ++
      (if f.fieldsHidden ≠ "" then [("fields", f.fieldsHidden)] else []) := by
  obtain ⟨ho1, ho2, hr1, hr2, hkind, hformat, hthm, hpalc, hloc, hanim,
    httrim, htA, htjson, hwnum, hwA, hlnum, hlA, hdnum, hdA, hcnum, hcA,
    hir, hhsync, hfsync, hffsync, hhcanon, hhnodup, hhdis, hhsel, hhtrim, hhA,
    hhjson, hfcanon, hfnodup, hfdis_svg, hfsent_svg, hfcount_json, hfftrim, hffA⟩ := h
  unfold buildGeneratorParams
  dsimp only
  rw [show jsOr f.format "svg" = f.format from if_neg (by rw [hjson]; decide)]
  rw [if_neg (by rw [hjson]; decide)]
  rw [show jsOr f.kind "repo" = f.kind from if_neg (by rw [hkr]; decide)]
  rw [if_pos hkr]
  rw [export_num_wide f.langs 1 10 1 30 4 hlnum (by norm_num) (by norm_num)]
  rw [hfftrim]

/-- The json/quality params list, after the canonical-form rewrites. -/
theorem c1_params_json_quality (f : GenForm) (h : RoundTripReady f)
    (hjson : f.format = "json") (hkq : f.kind = "quality") :
    buildGeneratorParams f =
      [("locale", f.locale)] ++
      (if f.includeReport then [("include_report", "true")] else []) ++
      (if f.fieldsHidden ≠ "" then [("fields", f.fieldsHidden)] else []) := by
  obtain ⟨ho1, ho2, hr1, hr2, hkind, hformat, hthm, hpalc, hloc, hanim,
    httrim, htA, htjson, hwnum, hwA, hlnum, hlA, hdnum, hdA, hcnum, hcA,
    hir, hhsync, hfsync, hffsync, hhcanon, hhnodup, hhdis, hhsel, hhtrim, hhA,
    hhjson, hfcanon, hfnodup, hfdis_svg, hfsent_svg, hfcount_json, hfftrim, hffA⟩ := h
  have hlocne : f.locale ≠ "" := by
    rcases hloc with h2 | h2 <;> rw [h2] <;> decide
  unfold buildGeneratorParams
  dsimp only
  rw [show jsOr f.format "svg" = f.format from if_neg (by rw [hjson]; decide)]
  rw [if_neg (by rw [hjson]; decide)]
  rw [show jsOr f.kind "repo" = f.kind from if_neg (by rw [hkq]; decide)]
  rw [if_neg (by rw [hkq]; decide)]
  rw [show jsOr f.locale "en" = f.locale from if_neg hlocne]
  rw [hfftrim]

/-- The exported URL, spelled with the raw segments (the encoders are the
identity on the admitted character sets). -/
theorem c1_build (f : GenForm) (h : RoundTripReady f)
    (hqs : (serializeParams (buildGeneratorParams f)).data ≠ []) :
    buildGeneratorPath f = "/api/stats/" ++ f.kind ++ "/" ++ f.owner ++ "/" ++ f.repo ++
      "." ++ f.format ++ "?" ++ serializeParams (buildGeneratorParams f) := by
  obtain ⟨ho1, ho2, hr1, hr2, hkind, hformat, hthm, hpalc, hloc, hanim,
    httrim, htA, htjson, hwnum, hwA, hlnum, hlA, hdnum, hdA, hcnum, hcA,
    hir, hhsync, hfsync, hffsync, hhcanon, hhnodup, hhdis, hhsel, hhtrim, hhA,
    hhjson, hfcanon, hfnodup, hfdis_svg, hfsent_svg, hfcount_json, hfftrim, hffA⟩ := h
  have honospace : ∀ c ∈ f.owner.data, jsSpace c = false := by
    intro c hc
    rcases (ho2 c hc).1 with ha | ha | ha | ha
    · exact jsSpace_eq_false_of_alnum c ha
    all_goals subst ha
    all_goals decide
  have hrnospace : ∀ c ∈ f.repo.data, jsSpace c = false := by
    intro c hc
    rcases (hr2 c hc).1 with ha | ha | ha
    · exact jsSpace_eq_false_of_alnum c ha
    all_goals subst ha
    all_goals decide
  have howner_trim : jsTrim f.owner = f.owner := by
    unfold jsTrim
    rw [jsTrimChars_id _ honospace]
  have hrepo_trim : jsTrim f.repo = f.repo := by
    unfold jsTrim
    rw [jsTrimChars_id _ hrnospace]
  have howner_ne : f.owner ≠ "" := fun hx => ho1 (by rw [hx])
  have hrepo_ne : f.repo ≠ "" := fun hx => hr1 (by rw [hx])
  have henco : encodeURIComponent f.owner = f.owner := by
    unfold encodeURIComponent
    rw [encodeURIComponentChars_safe _ ?_]
    intro c hc
    rcases (ho2 c hc).1 with ha | ha | ha | ha
    · simp [uriComponentSafe, ha]
    all_goals subst ha
    all_goals decide
  have hencr : encodeURIComponent f.repo = f.repo := by
    unfold encodeURIComponent
    rw [encodeURIComponentChars_safe _ ?_]
    intro c hc
    rcases (hr2 c hc).1 with ha | ha | ha
    · simp [uriComponentSafe, ha]
    all_goals subst ha
    all_goals decide
  unfold buildGeneratorPath
  dsimp only
  rw [howner_trim, hrepo_trim]
  rw [if_neg (by
    rintro (hx | hx)
    · exact howner_ne hx
    · exact hrepo_ne hx)]
  rw [show jsOr f.kind "repo" = f.kind from if_neg (by
      rcases hkind with h2 | h2 <;> rw [h2] <;> decide),
    show jsOr f.format "svg" = f.format from if_neg (by
      rcases hformat with h2 | h2 <;> rw [h2] <;> decide)]
  rw [henco, hencr]
  rw [if_neg (show ¬(serializeParams (buildGeneratorParams f) = "") from
    fun hx => hqs (by rw [hx]))]

/-- The svg-format export params in canonical form. -/
def c1PSvg (f : GenForm) : List (String × String) :=
  [("theme", f.theme), ("locale", f.locale), ("card_width", f.width)] ++
  (if f.title ≠ "" then [("title", f.title)] else []) ++
  (if f.hide ≠ "" then [("hide", f.hide)] else []) ++
  [("animate", if f.animate then "true" else "false"), ("animation", f.animation),
   ("duration", f.duration), ("cache_seconds", f.cacheSeconds)] ++
  (if f.kind = "repo" then [("langs_count", f.langs)] else []) ++
  (if f.theme = "custom" then generatorCustomThemeParams f else [])

/-- The json/repo export params in canonical form. -/
def c1PJr (f : GenForm) : List (String × String) :=
  [("langs_count", f.langs)] ++
  (if f.fieldsHidden ≠ "" then [("fields", f.fieldsHidden)] else [])

/-- The json/quality export params in canonical form. -/
def c1PJq (f : GenForm) : List (String × String) :=
  [("locale", f.locale)] ++
  (if f.includeReport then [("include_report", "true")] else []) ++
  (if f.fieldsHidden ≠ "" then [("fields", f.fieldsHidden)] else [])

/-- The svg-branch round trip of the parse stage. -/
theorem c1_parse_svg (f : GenForm) (h : RoundTripReady f) (hsvg : f.format = "svg") :
    parseGeneratorImport (buildGeneratorPath f) = some (c1Expected f) := by
  have hpeq : buildGeneratorParams f = c1PSvg f := by
    rw [c1_params_svg f h hsvg]
    rfl
  have hbuild := c1_build f h (by
    rw [hpeq]
    exact serializeParams_cons_ne_nil _ _)
  obtain ⟨ho1, ho2, hr1, hr2, hkind, hformat, hthm, hpalc, hloc, hanim,
    httrim, htA, htjson, hwnum, hwA, hlnum, hlA, hdnum, hdA, hcnum, hcA,
    hir, hhsync, hfsync, hffsync, hhcanon, hhnodup, hhdis, hhsel, hhtrim, hhA,
    hhjson, hfcanon, hfnodup, hfdis_svg, hfsent_svg, hfcount_json, hfftrim, hffA⟩ := h
  have hthA : ∀ c ∈ f.theme.data, c.toNat < 128 := by
    rcases (by simpa [GENERATOR_THEME_OPTIONS] using hthm : f.theme = "ocean" ∨
      f.theme = "ember" ∨ f.theme = "neon" ∨ f.theme = "paper" ∨ f.theme = "forest" ∨
      f.theme = "custom") with h2 | h2 | h2 | h2 | h2 | h2 <;> rw [h2] <;> decide
  have hlocA : ∀ c ∈ f.locale.data, c.toNat < 128 := by
    rcases hloc with h2 | h2 <;> rw [h2] <;> decide
  have hanimA : ∀ c ∈ f.animation.data, c.toNat < 128 := by
    rcases hanim with h2 | h2 | h2 | h2 | h2 <;> rw [h2] <;> decide
  have hanimateA : ∀ c ∈ (if f.animate then "true" else "false").data, c.toNat < 128 := by
    by_cases ha : f.animate = true
    · rw [if_pos ha]
      decide
    · rw [if_neg ha]
      decide
  have hfacts : ∀ kv ∈ c1PSvg f,
      ((∀ c ∈ (Prod.fst kv).data, c.toNat < 128) ∧
        (∀ c ∈ (Prod.snd kv).data, c.toNat < 128)) ∧
      ((Prod.fst kv) ≠ "owner" ∧ (Prod.fst kv) ≠ "repo") := by
    intro kv hkv
    unfold c1PSvg at hkv
    rcases List.mem_append.mp hkv with h0 | h0
    · rcases List.mem_append.mp h0 with h1 | h1
      · rcases List.mem_append.mp h1 with h2 | h2
        · rcases List.mem_append.mp h2 with h3 | h3
          · rcases List.mem_append.mp h3 with h4 | h4
            · simp only [List.mem_cons, List.not_mem_nil, or_false] at h4
              rcases h4 with h5 | h5 | h5 <;> subst h5
              · exact ⟨⟨(by decide : ∀ c ∈ ("theme" : String).data, c.toNat < 128), hthA⟩,
                (by decide : ("theme" : String) ≠ "owner"),
                (by decide : ("theme" : String) ≠ "repo")⟩
              · exact ⟨⟨(by decide : ∀ c ∈ ("locale" : String).data, c.toNat < 128), hlocA⟩,
                (by decide : ("locale" : String) ≠ "owner"),
                (by decide : ("locale" : String) ≠ "repo")⟩
              · exact ⟨⟨(by decide : ∀ c ∈ ("card_width" : String).data, c.toNat < 128), hwA⟩,
                (by decide : ("card_width" : String) ≠ "owner"),
                (by decide : ("card_width" : String) ≠ "repo")⟩
            · rw [mem_opt h4]
              exact ⟨⟨(by decide : ∀ c ∈ ("title" : String).data, c.toNat < 128), htA⟩,
                (by decide : ("title" : String) ≠ "owner"),
                (by decide : ("title" : String) ≠ "repo")⟩
          · rw [mem_opt h3]
            exact ⟨⟨(by decide : ∀ c ∈ ("hide" : String).data, c.toNat < 128), hhA⟩,
                (by decide : ("hide" : String) ≠ "owner"),
                (by decide : ("hide" : String) ≠ "repo")⟩
        · simp only [List.mem_cons, List.not_mem_nil, or_false] at h2
          rcases h2 with h5 | h5 | h5 | h5 <;> subst h5
          · exact ⟨⟨(by decide : ∀ c ∈ ("animate" : String).data, c.toNat < 128), hanimateA⟩,
                (by decide : ("animate" : String) ≠ "owner"),
                (by decide : ("animate" : String) ≠ "repo")⟩
          · exact ⟨⟨(by decide : ∀ c ∈ ("animation" : String).data, c.toNat < 128), hanimA⟩,
                (by decide : ("animation" : String) ≠ "owner"),
                (by decide : ("animation" : String) ≠ "repo")⟩
          · exact ⟨⟨(by decide : ∀ c ∈ ("duration" : String).data, c.toNat < 128), hdA⟩,
                (by decide : ("duration" : String) ≠ "owner"),
                (by decide : ("duration" : String) ≠ "repo")⟩
          · exact ⟨⟨(by decide : ∀ c ∈ ("cache_seconds" : String).data, c.toNat < 128), hcA⟩,
                (by decide : ("cache_seconds" : String) ≠ "owner"),
                (by decide : ("cache_seconds" : String) ≠ "repo")⟩
      · rw [mem_opt h1]
        exact ⟨⟨(by decide : ∀ c ∈ ("langs_count" : String).data, c.toNat < 128), hlA⟩,
                (by decide : ("langs_count" : String) ≠ "owner"),
                (by decide : ("langs_count" : String) ≠ "repo")⟩
    · by_cases hcu : f.theme = "custom"
      · rw [if_pos hcu] at h0
        obtain ⟨hmem, hval⟩ := mem_customParams f kv h0
        exact ⟨⟨(by decide : ∀ k ∈ GENERATOR_THEME_KEYS, ∀ c ∈ k.data, c.toNat < 128)
            (Prod.fst kv) hmem, normalizeHexColor_ascii _ _ hval⟩,
          fun he => (by decide : ("owner" : String) ∉ GENERATOR_THEME_KEYS)
            (he ▸ hmem),
          fun he => (by decide : ("repo" : String) ∉ GENERATOR_THEME_KEYS)
            (he ▸ hmem)⟩
      · rw [if_neg hcu] at h0
        cases h0
  have hapi := parse_stats_url f.kind f.owner f.repo f.format (c1PSvg f) hkind ho1 ho2
    hr1 hr2 hformat (fun kv hkv => (hfacts kv hkv).1) (fun kv hkv => (hfacts kv hkv).2)
  have hn0 : normalizeHexColor "" = none := by decide!
  have hlk : ∀ key ∈ GENERATOR_THEME_KEYS, lookupStr (c1PSvg f) key =
      lookupStr (if f.theme = "custom" then generatorCustomThemeParams f else []) key := by
    intro key hkey
    have hd := (by decide : ∀ key ∈ GENERATOR_THEME_KEYS, ¬key = "theme" ∧
      ¬key = "locale" ∧ ¬key = "card_width" ∧ ¬key = "title" ∧ ¬key = "hide" ∧
      ¬key = "animate" ∧ ¬key = "animation" ∧ ¬key = "duration" ∧
      ¬key = "cache_seconds" ∧ ¬key = "langs_count") key hkey
    unfold c1PSvg
    rw [lookupStr_append, lookupStr_append, lookupStr_append, lookupStr_append,
      lookupStr_append]
    rw [show lookupStr [("theme", f.theme), ("locale", f.locale),
        ("card_width", f.width)] key = none from by
      rw [lookupStr_cons, if_neg (fun he => hd.1 he.symm), lookupStr_cons,
        if_neg (fun he => hd.2.1 he.symm), lookupStr_cons,
        if_neg (fun he => hd.2.2.1 he.symm)]
      rfl]
    dsimp only
    rw [lookupStr_opt_ne _ _ _ _ (fun he => hd.2.2.2.1 he.symm)]
    dsimp only
    rw [lookupStr_opt_ne _ _ _ _ (fun he => hd.2.2.2.2.1 he.symm)]
    dsimp only
    rw [show lookupStr [("animate", if f.animate then "true" else "false"),
        ("animation", f.animation), ("duration", f.duration),
        ("cache_seconds", f.cacheSeconds)] key = none from by
      rw [lookupStr_cons, if_neg (fun he => hd.2.2.2.2.2.1 he.symm), lookupStr_cons,
        if_neg (fun he => hd.2.2.2.2.2.2.1 he.symm), lookupStr_cons,
        if_neg (fun he => hd.2.2.2.2.2.2.2.1 he.symm), lookupStr_cons,
        if_neg (fun he => hd.2.2.2.2.2.2.2.2.1 he.symm)]
      rfl]
    dsimp only
    rw [lookupStr_opt_ne _ _ _ _ (fun he => hd.2.2.2.2.2.2.2.2.2 he.symm)]
  have hcolors : (GENERATOR_THEME_KEYS.filterMap fun key =>
      (normalizeHexColor ((lookupStr (c1PSvg f) key).getD "")).map fun c => (key, c))
      = (if f.theme = "custom" then generatorCustomThemeParams f else []) := by
    by_cases hcu : f.theme = "custom"
    · rw [if_pos hcu]
      obtain ⟨hnd, hnorm⟩ := hpalc hcu
      rw [show generatorCustomThemeParams f = GENERATOR_THEME_KEYS.filterMap fun key =>
          (normalizeHexColor ((lookupStr f.colors key).getD "")).map fun v => (key, v)
        from rfl]
      refine List.filterMap_congr fun key hkey => ?_
      show (normalizeHexColor ((lookupStr (c1PSvg f) key).getD "")).map
          (fun c => (key, c)) =
        (normalizeHexColor ((lookupStr f.colors key).getD "")).map fun v => (key, v)
      rw [hlk key hkey, if_pos hcu, lookup_customParams f key hkey]
      cases hv : lookupStr f.colors key with
      | none =>
        simp [hn0]
      | some val =>
        have hmem := lookupStr_some_mem f.colors key val hv
        rcases hnorm (key, val) hmem hkey with hn | hn
        · have hn2 : normalizeHexColor val = none := hn
          simp [hn2, hn0]
        · have hn2 : normalizeHexColor val = some val := hn
          simp [hn2]
    · rw [if_neg hcu]
      refine List.filterMap_eq_nil_iff.mpr fun key hkey => ?_
      rw [hlk key hkey, if_neg hcu]
      rw [show lookupStr ([] : List (String × String)) key = none from rfl]
      rw [show Option.getD (none : Option String) "" = "" from rfl, hn0]
      rfl
  have hcuT : lookupStr (if f.theme = "custom" then generatorCustomThemeParams f else [])
      "title" = none := by
    split
    · exact lookupStr_filterMap_not_mem GENERATOR_THEME_KEYS _ "title" (by decide)
    · rfl
  have hcuH : lookupStr (if f.theme = "custom" then generatorCustomThemeParams f else [])
      "hide" = none := by
    split
    · exact lookupStr_filterMap_not_mem GENERATOR_THEME_KEYS _ "hide" (by decide)
    · rfl
  have hcuL : lookupStr (if f.theme = "custom" then generatorCustomThemeParams f else [])
      "langs_count" = none := by
    split
    · exact lookupStr_filterMap_not_mem GENERATOR_THEME_KEYS _ "langs_count" (by decide)
    · rfl
  have hcuI : lookupStr (if f.theme = "custom" then generatorCustomThemeParams f else [])
      "include_report" = none := by
    split
    · exact lookupStr_filterMap_not_mem GENERATOR_THEME_KEYS _ "include_report" (by decide)
    · rfl
  have hcuF : lookupStr (if f.theme = "custom" then generatorCustomThemeParams f else [])
      "fields" = none := by
    split
    · exact lookupStr_filterMap_not_mem GENERATOR_THEME_KEYS _ "fields" (by decide)
    · rfl
  rw [hbuild, hpeq]
  unfold parseGeneratorImport
  rw [hapi]
  dsimp only
  rw [hcolors]
  rcases hkind with hkc | hkc <;> by_cases ht : f.title = "" <;> by_cases hh : f.hide = ""
  all_goals unfold c1PSvg
  all_goals simp [c1Expected, hsvg, ht, hh, hkc, hcuT, hcuH, hcuL, hcuI, hcuF,
    lookupStr_append, lookupStr_cons, lookupStr_nil]

/-- The json/repo-branch round trip of the parse stage. -/
theorem c1_parse_json_repo (f : GenForm) (h : RoundTripReady f)
    (hjson : f.format = "json") (hkr : f.kind = "repo") :
    parseGeneratorImport (buildGeneratorPath f) = some (c1Expected f) := by
  have hpeq : buildGeneratorParams f = c1PJr f := by
    rw [c1_params_json_repo f h hjson hkr]
    rfl
  have hbuild := c1_build f h (by
    rw [hpeq]
    exact serializeParams_cons_ne_nil _ _)
  obtain ⟨ho1, ho2, hr1, hr2, hkind, hformat, hthm, hpalc, hloc, hanim,
    httrim, htA, htjson, hwnum, hwA, hlnum, hlA, hdnum, hdA, hcnum, hcA,
    hir, hhsync, hfsync, hffsync, hhcanon, hhnodup, hhdis, hhsel, hhtrim, hhA,
    hhjson, hfcanon, hfnodup, hfdis_svg, hfsent_svg, hfcount_json, hfftrim, hffA⟩ := h
  have hfacts : ∀ kv ∈ c1PJr f,
      ((∀ c ∈ (Prod.fst kv).data, c.toNat < 128) ∧
        (∀ c ∈ (Prod.snd kv).data, c.toNat < 128)) ∧
      ((Prod.fst kv) ≠ "owner" ∧ (Prod.fst kv) ≠ "repo") := by
    intro kv hkv
    unfold c1PJr at hkv
    rcases List.mem_append.mp hkv with h1 | h1
    · simp only [List.mem_cons, List.not_mem_nil, or_false] at h1
      subst h1
      exact ⟨⟨(by decide : ∀ c ∈ ("langs_count" : String).data, c.toNat < 128), hlA⟩,
        (by decide : ("langs_count" : String) ≠ "owner"),
        (by decide : ("langs_count" : String) ≠ "repo")⟩
    · rw [mem_opt h1]
      exact ⟨⟨(by decide : ∀ c ∈ ("fields" : String).data, c.toNat < 128), hffA⟩,
        (by decide : ("fields" : String) ≠ "owner"),
        (by decide : ("fields" : String) ≠ "repo")⟩
  have hapi := parse_stats_url f.kind f.owner f.repo f.format (c1PJr f) hkind ho1 ho2
    hr1 hr2 hformat (fun kv hkv => (hfacts kv hkv).1) (fun kv hkv => (hfacts kv hkv).2)
  have hn0 : normalizeHexColor "" = none := by decide!
  have hcolors : (GENERATOR_THEME_KEYS.filterMap fun key =>
      (normalizeHexColor ((lookupStr (c1PJr f) key).getD "")).map fun c => (key, c))
      = [] := by
    refine List.filterMap_eq_nil_iff.mpr fun key hkey => ?_
    have hd := (by decide : ∀ key ∈ GENERATOR_THEME_KEYS, ¬key = "langs_count" ∧
      ¬key = "fields") key hkey
    have hlz : lookupStr (c1PJr f) key = none := by
      unfold c1PJr
      rw [lookupStr_append]
      rw [show lookupStr [("langs_count", f.langs)] key = none from by
        rw [lookupStr_cons, if_neg (fun he => hd.1 he.symm)]
        rfl]
      dsimp only
      rw [lookupStr_opt_ne _ _ _ _ (fun he => hd.2 he.symm)]
    rw [hlz]
    rw [show (none : Option String).getD "" = "" from rfl, hn0]
    rfl
  rw [hbuild, hpeq]
  unfold parseGeneratorImport
  rw [hapi]
  dsimp only
  rw [hcolors]
  by_cases hff : f.fieldsHidden = ""
  all_goals unfold c1PJr
  all_goals simp [c1Expected, hjson, hkr, hff,
    lookupStr_append, lookupStr_cons, lookupStr_nil]

/-- The json/quality-branch round trip of the parse stage. -/
theorem c1_parse_json_quality (f : GenForm) (h : RoundTripReady f)
    (hjson : f.format = "json") (hkq : f.kind = "quality") :
    parseGeneratorImport (buildGeneratorPath f) = some (c1Expected f) := by
  have hpeq : buildGeneratorParams f = c1PJq f := by
    rw [c1_params_json_quality f h hjson hkq]
    rfl
  have hbuild := c1_build f h (by
    rw [hpeq]
    exact serializeParams_cons_ne_nil _ _)
  obtain ⟨ho1, ho2, hr1, hr2, hkind, hformat, hthm, hpalc, hloc, hanim,
    httrim, htA, htjson, hwnum, hwA, hlnum, hlA, hdnum, hdA, hcnum, hcA,
    hir, hhsync, hfsync, hffsync, hhcanon, hhnodup, hhdis, hhsel, hhtrim, hhA,
    hhjson, hfcanon, hfnodup, hfdis_svg, hfsent_svg, hfcount_json, hfftrim, hffA⟩ := h
  have hlocA : ∀ c ∈ f.locale.data, c.toNat < 128 := by
    rcases hloc with h2 | h2 <;> rw [h2] <;> decide
  have hfacts : ∀ kv ∈ c1PJq f,
      ((∀ c ∈ (Prod.fst kv).data, c.toNat < 128) ∧
        (∀ c ∈ (Prod.snd kv).data, c.toNat < 128)) ∧
      ((Prod.fst kv) ≠ "owner" ∧ (Prod.fst kv) ≠ "repo") := by
    intro kv hkv
    unfold c1PJq at hkv
    rcases List.mem_append.mp hkv with h1 | h1
    · rcases List.mem_append.mp h1 with h2 | h2
      · simp only [List.mem_cons, List.not_mem_nil, or_false] at h2
        subst h2
        exact ⟨⟨(by decide : ∀ c ∈ ("locale" : String).data, c.toNat < 128), hlocA⟩,
          (by decide : ("locale" : String) ≠ "owner"),
          (by decide : ("locale" : String) ≠ "repo")⟩
      · rw [mem_opt h2]
        exact ⟨⟨(by decide : ∀ c ∈ ("include_report" : String).data, c.toNat < 128),
          (by decide : ∀ c ∈ ("true" : String).data, c.toNat < 128)⟩,
          (by decide : ("include_report" : String) ≠ "owner"),
          (by decide : ("include_report" : String) ≠ "repo")⟩
    · rw [mem_opt h1]
      exact ⟨⟨(by decide : ∀ c ∈ ("fields" : String).data, c.toNat < 128), hffA⟩,
        (by decide : ("fields" : String) ≠ "owner"),
        (by decide : ("fields" : String) ≠ "repo")⟩
  have hapi := parse_stats_url f.kind f.owner f.repo f.format (c1PJq f) hkind ho1 ho2
    hr1 hr2 hformat (fun kv hkv => (hfacts kv hkv).1) (fun kv hkv => (hfacts kv hkv).2)
  have hn0 : normalizeHexColor "" = none := by decide!
  have hcolors : (GENERATOR_THEME_KEYS.filterMap fun key =>
      (normalizeHexColor ((lookupStr (c1PJq f) key).getD "")).map fun c => (key, c))
      = [] := by
    refine List.filterMap_eq_nil_iff.mpr fun key hkey => ?_
    have hd := (by decide : ∀ key ∈ GENERATOR_THEME_KEYS, ¬key = "locale" ∧
      ¬key = "include_report" ∧ ¬key = "fields") key hkey
    have hlz : lookupStr (c1PJq f) key = none := by
      unfold c1PJq
      rw [lookupStr_append, lookupStr_append]
      rw [show lookupStr [("locale", f.locale)] key = none from by
        rw [lookupStr_cons, if_neg (fun he => hd.1 he.symm)]
        rfl]
      dsimp only
      rw [lookupStr_opt_ne _ _ _ _ (fun he => hd.2.1 he.symm)]
      dsimp only
      rw [lookupStr_opt_ne _ _ _ _ (fun he => hd.2.2 he.symm)]
    rw [hlz]
    rw [show (none : Option String).getD "" = "" from rfl, hn0]
    rfl
  rw [hbuild, hpeq]
  unfold parseGeneratorImport
  rw [hapi]
  dsimp only
  rw [hcolors]
  by_cases hic : f.includeReport = true <;> by_cases hff : f.fieldsHidden = ""
  all_goals unfold c1PJq
  all_goals simp [c1Expected, hjson, hkq, hic, hff,
    lookupStr_append, lookupStr_cons, lookupStr_nil]

/-- Structure eta for the owner update. -/
theorem etaOwner (f : GenForm) : ({ f with owner := f.owner } : GenForm) = f := rfl

/-- Structure eta for the repo update. -/
theorem etaRepo (f : GenForm) : ({ f with repo := f.repo } : GenForm) = f := rfl

/-- Structure eta for the kind update. -/
theorem etaKind (f : GenForm) : ({ f with kind := f.kind } : GenForm) = f := rfl

/-- Structure eta for the format update. -/
theorem etaFormat (f : GenForm) : ({ f with format := f.format } : GenForm) = f := rfl

/-- Structure eta for the theme update. -/
theorem etaTheme (f : GenForm) : ({ f with theme := f.theme } : GenForm) = f := rfl

/-- Structure eta for the locale update. -/
theorem etaLocale (f : GenForm) : ({ f with locale := f.locale } : GenForm) = f := rfl

/-- Structure eta for the title update. -/
theorem etaTitle (f : GenForm) : ({ f with title := f.title } : GenForm) = f := rfl

/-- Structure eta for the width update. -/
theorem etaWidth (f : GenForm) : ({ f with width := f.width } : GenForm) = f := rfl

/-- Structure eta for the langs update. -/
theorem etaLangs (f : GenForm) : ({ f with langs := f.langs } : GenForm) = f := rfl

/-- Structure eta for the animate update. -/
theorem etaAnimate (f : GenForm) : ({ f with animate := f.animate } : GenForm) = f := rfl

/-- Structure eta for the animation update. -/
theorem etaAnimation (f : GenForm) :
    ({ f with animation := f.animation } : GenForm) = f := rfl

/-- Structure eta for the duration update. -/
theorem etaDuration (f : GenForm) :
    ({ f with duration := f.duration } : GenForm) = f := rfl

/-- Structure eta for the cacheSeconds update. -/
theorem etaCacheSeconds (f : GenForm) :
    ({ f with cacheSeconds := f.cacheSeconds } : GenForm) = f := rfl

/-- Structure eta for the includeReport update. -/
theorem etaIncludeReport (f : GenForm) :
    ({ f with includeReport := f.includeReport } : GenForm) = f := rfl

/-- The parse stage of the round trip: importing the form's own export URL
parses to the expected partial config. -/
theorem c1_parse (f : GenForm) (h : RoundTripReady f) :
    parseGeneratorImport (buildGeneratorPath f) = some (c1Expected f) := by
  have hformat := h.2.2.2.2.2.1
  have hkind := h.2.2.2.2.1
  rcases hformat with hsvg | hjson
  · exact c1_parse_svg f h hsvg
  · rcases hkind with hkr | hkq
    · exact c1_parse_json_repo f h hjson hkr
    · exact c1_parse_json_quality f h hjson hkq

/-- The svg-branch apply stage: re-applying the parse of the form's own
export URL is the identity. -/
theorem c1_apply_svg (f : GenForm) (h : RoundTripReady f) (hsvg : f.format = "svg") :
    applyGeneratorImportToForm f (c1Expected f) = f := by
  obtain ⟨ho1, ho2, hr1, hr2, hkind, hformat, hthm, hpalc, hloc, hanim,
    httrim, htA, htjson, hwnum, hwA, hlnum, hlA, hdnum, hdA, hcnum, hcA,
    hir, hhsync, hfsync, hffsync, hhcanon, hhnodup, hhdis, hhsel, hhtrim, hhA,
    hhjson, hfcanon, hfnodup, hfdis_svg, hfsent_svg, hfcount_json, hfftrim, hffA⟩ := h
  have howner : ¬(f.owner = "") := fun he => ho1 (by rw [he])
  have hrepo : ¬(f.repo = "") := fun he => hr1 (by rw [he])
  have hkne : ¬(f.kind = "") := by rcases hkind with h2 | h2 <;> rw [h2] <;> decide
  have hkfix : (if f.kind = "quality" then "quality" else "repo") = f.kind := by
    rcases hkind with h2 | h2 <;> rw [h2] <;> decide
  have hfne : ¬(f.format = "") := by rw [hsvg]; decide
  have hffix : (if f.format = "json" then "json" else "svg") = f.format := by
    rw [hsvg]; decide
  have hthne : ¬(f.theme = "") := by
    rcases (by simpa [GENERATOR_THEME_OPTIONS] using hthm : f.theme = "ocean" ∨
      f.theme = "ember" ∨ f.theme = "neon" ∨ f.theme = "paper" ∨ f.theme = "forest" ∨
      f.theme = "custom") with h2 | h2 | h2 | h2 | h2 | h2 <;> rw [h2] <;> decide
  have hthfix : jsLower (jsTrim f.theme) = f.theme := by
    rcases (by simpa [GENERATOR_THEME_OPTIONS] using hthm : f.theme = "ocean" ∨
      f.theme = "ember" ∨ f.theme = "neon" ∨ f.theme = "paper" ∨ f.theme = "forest" ∨
      f.theme = "custom") with h2 | h2 | h2 | h2 | h2 | h2 <;> rw [h2] <;> decide!
  have hlocne : ¬(f.locale = "") := by rcases hloc with h2 | h2 <;> rw [h2] <;> decide
  have hlocfix : jsLower (jsTrim f.locale) = f.locale := by
    rcases hloc with h2 | h2 <;> rw [h2] <;> decide!
  have hanimne : ¬(f.animation = "") := by
    rcases hanim with h2 | h2 | h2 | h2 | h2 <;> rw [h2] <;> decide
  have hanimfix : jsLower (jsTrim f.animation) = f.animation := by
    rcases hanim with h2 | h2 | h2 | h2 | h2 <;> rw [h2] <;> decide!
  have htget : Option.getD (if f.title = "" then none else some f.title) "" = f.title := by
    by_cases ht : f.title = "" <;> simp [ht]
  have hhget : Option.getD (if f.hide = "" then none else some f.hide) "" = f.hide := by
    by_cases hh : f.hide = "" <;> simp [hh]
  have hwid : (JSNum.num (clampNumber f.width 640 1400 760)).toJsString = f.width :=
    import_num f.width 640 1400 640 1400 760 hwnum (by norm_num) (by norm_num)
  have hlangs : (JSNum.num (clampNumber f.langs 1 30 4)).toJsString = f.langs :=
    import_num f.langs 1 10 1 30 4 hlnum (by norm_num) (by norm_num)
  have hdur : (JSNum.num (clampNumber f.duration 350 7000 1400)).toJsString =
      f.duration :=
    import_num f.duration 350 7000 350 7000 1400 hdnum (by norm_num) (by norm_num)
  have hcache : (JSNum.num (clampNumber f.cacheSeconds 0 86400 21600)).toJsString =
      f.cacheSeconds :=
    import_num f.cacheSeconds 0 86400 0 86400 21600 hcnum (by norm_num) (by norm_num)
  have hanimate : parseBooleanValue (some (if f.animate then "true" else "false")) true =
      f.animate := by
    cases hb : f.animate <;> decide!
  have hpbn : parseBooleanValue none false = f.includeReport := by
    rw [hir (Or.inl hsvg)]
    rfl
  have hhideapply := applyGeneratorHideFlags_id f hhcanon hhnodup hhdis hhsel
  have hfieldsapply : applyGeneratorFieldFlags f "" = f :=
    applyGeneratorFieldFlags_all_disabled f (hfdis_svg hsvg) (hfsent_svg hsvg)
  have hpal2 : applyGeneratorPalette f
      (if f.theme = "custom" then generatorCustomThemeParams f else []) = f := by
    by_cases hcu : f.theme = "custom"
    · rw [if_pos hcu]
      exact applyGeneratorPalette_self f (hpalc hcu)
    · rw [if_neg hcu]
      exact applyGeneratorPalette_nil f
  unfold c1Expected
  rw [if_pos hsvg]
  unfold applyGeneratorImportToForm
  rcases hkind with hkc | hkc
  · have hlite : (if f.kind = "repo" then some f.langs else none) = some f.langs :=
      if_pos hkc
    simp [syncGeneratorControlVisibility, syncGeneratorCustomThemeVisibility,
      howner, hrepo, hkne, hkfix, hfne, hffix, hthne, hthfix, hthm, hlocne, hlocfix, hloc,
      hanimne, hanimfix, hanim, htget, hhget, hwid, hlangs, hdur, hcache, hanimate, hpbn,
      hhsync, hfsync, hhideapply, hfieldsapply, hpal2, hlite,
      etaOwner, etaRepo, etaKind, etaFormat, etaTheme, etaLocale, etaTitle, etaWidth,
      etaLangs, etaAnimate, etaAnimation, etaDuration, etaCacheSeconds, etaIncludeReport]
  · have hlite : (if f.kind = "repo" then some f.langs else none) = none :=
      if_neg (by rw [hkc]; decide)
    simp [syncGeneratorControlVisibility, syncGeneratorCustomThemeVisibility,
      howner, hrepo, hkne, hkfix, hfne, hffix, hthne, hthfix, hthm, hlocne, hlocfix, hloc,
      hanimne, hanimfix, hanim, htget, hhget, hwid, hdur, hcache, hanimate, hpbn,
      hhsync, hfsync, hhideapply, hfieldsapply, hpal2, hlite,
      etaOwner, etaRepo, etaKind, etaFormat, etaTheme, etaLocale, etaTitle, etaWidth,
      etaAnimate, etaAnimation, etaDuration, etaCacheSeconds, etaIncludeReport]

/-- The json/repo-branch apply stage. -/
theorem c1_apply_json_repo (f : GenForm) (h : RoundTripReady f)
    (hjson : f.format = "json") (hkr : f.kind = "repo") :
    applyGeneratorImportToForm f (c1Expected f) = f := by
  obtain ⟨ho1, ho2, hr1, hr2, hkind, hformat, hthm, hpalc, hloc, hanim,
    httrim, htA, htjson, hwnum, hwA, hlnum, hlA, hdnum, hdA, hcnum, hcA,
    hir, hhsync, hfsync, hffsync, hhcanon, hhnodup, hhdis, hhsel, hhtrim, hhA,
    hhjson, hfcanon, hfnodup, hfdis_svg, hfsent_svg, hfcount_json, hfftrim, hffA⟩ := h
  have howner : ¬(f.owner = "") := fun he => ho1 (by rw [he])
  have hrepo : ¬(f.repo = "") := fun he => hr1 (by rw [he])
  have hkne : ¬(f.kind = "") := by rw [hkr]; decide
  have hkfix : (if f.kind = "quality" then "quality" else "repo") = f.kind := by
    rw [hkr]; decide
  have hfne : ¬(f.format = "") := by rw [hjson]; decide
  have hffix : (if f.format = "json" then "json" else "svg") = f.format := by
    rw [hjson]; decide
  have htitlestep : ({ f with title := "" } : GenForm) = f := by
    rw [show ("" : String) = f.title from (htjson hjson).symm]
  have hselnil : selectedGeneratorHideFlags f = [] := by
    unfold selectedGeneratorHideFlags
    rw [show (f.hideOptions.filter fun o => o.checked ∧ ¬o.disabled) = [] from by
      rw [List.filter_eq_nil_iff]
      intro o ho
      simp [hhjson hjson o ho]]
    rfl
  have hhide0 : f.hide = "" := by
    rw [hhsel, hselnil]
    rfl
  have hhid := applyGeneratorHideFlags_id f hhcanon hhnodup hhdis hhsel
  have hhideapply : applyGeneratorHideFlags f "" = f := by
    rw [← hhide0]
    exact hhid
  have hfget : Option.getD (if f.fieldsHidden = "" then none else some f.fieldsHidden) ""
      = f.fieldsHidden := by
    by_cases hh : f.fieldsHidden = "" <;> simp [hh]
  have hfieldsapply := applyGeneratorFieldFlags_id f hffsync ⟨hfcanon, hfnodup⟩
    (hfcount_json hjson)
  have hlangs : (JSNum.num (clampNumber f.langs 1 30 4)).toJsString = f.langs :=
    import_num f.langs 1 10 1 30 4 hlnum (by norm_num) (by norm_num)
  have hpbn : parseBooleanValue none false = f.includeReport := by
    rw [hir (Or.inr hkr)]
    rfl
  have hpal := applyGeneratorPalette_nil f
  unfold c1Expected
  rw [if_neg (show ¬(f.format = "svg") from by rw [hjson]; decide), if_pos hkr]
  unfold applyGeneratorImportToForm
  simp [syncGeneratorControlVisibility, syncGeneratorCustomThemeVisibility,
    howner, hrepo, hkne, hkfix, hfne, hffix, htitlestep, hlangs, hpbn,
    hhsync, hfsync, hhideapply, hfget, hfieldsapply, hpal,
    etaOwner, etaRepo, etaKind, etaFormat, etaLangs, etaIncludeReport]

/-- The json/quality-branch apply stage. -/
theorem c1_apply_json_quality (f : GenForm) (h : RoundTripReady f)
    (hjson : f.format = "json") (hkq : f.kind = "quality") :
    applyGeneratorImportToForm f (c1Expected f) = f := by
  obtain ⟨ho1, ho2, hr1, hr2, hkind, hformat, hthm, hpalc, hloc, hanim,
    httrim, htA, htjson, hwnum, hwA, hlnum, hlA, hdnum, hdA, hcnum, hcA,
    hir, hhsync, hfsync, hffsync, hhcanon, hhnodup, hhdis, hhsel, hhtrim, hhA,
    hhjson, hfcanon, hfnodup, hfdis_svg, hfsent_svg, hfcount_json, hfftrim, hffA⟩ := h
  have howner : ¬(f.owner = "") := fun he => ho1 (by rw [he])
  have hrepo : ¬(f.repo = "") := fun he => hr1 (by rw [he])
  have hkne : ¬(f.kind = "") := by rw [hkq]; decide
  have hkfix : (if f.kind = "quality" then "quality" else "repo") = f.kind := by
    rw [hkq]; decide
  have hfne : ¬(f.format = "") := by rw [hjson]; decide
  have hffix : (if f.format = "json" then "json" else "svg") = f.format := by
    rw [hjson]; decide
  have hlocne : ¬(f.locale = "") := by rcases hloc with h2 | h2 <;> rw [h2] <;> decide
  have hlocfix : jsLower (jsTrim f.locale) = f.locale := by
    rcases hloc with h2 | h2 <;> rw [h2] <;> decide!
  have htitlestep : ({ f with title := "" } : GenForm) = f := by
    rw [show ("" : String) = f.title from (htjson hjson).symm]
  have hselnil : selectedGeneratorHideFlags f = [] := by
    unfold selectedGeneratorHideFlags
    rw [show (f.hideOptions.filter fun o => o.checked ∧ ¬o.disabled) = [] from by
      rw [List.filter_eq_nil_iff]
      intro o ho
      simp [hhjson hjson o ho]]
    rfl
  have hhide0 : f.hide = "" := by
    rw [hhsel, hselnil]
    rfl
  have hhid := applyGeneratorHideFlags_id f hhcanon hhnodup hhdis hhsel
  have hhideapply : applyGeneratorHideFlags f "" = f := by
    rw [← hhide0]
    exact hhid
  have hfget : Option.getD (if f.fieldsHidden = "" then none else some f.fieldsHidden) ""
      = f.fieldsHidden := by
    by_cases hh : f.fieldsHidden = "" <;> simp [hh]
  have hfieldsapply := applyGeneratorFieldFlags_id f hffsync ⟨hfcanon, hfnodup⟩
    (hfcount_json hjson)
  have hpbq : parseBooleanValue (if f.includeReport then some "true" else none) false =
      f.includeReport := by
    cases hb : f.includeReport <;> decide!
  have hpal := applyGeneratorPalette_nil f
  unfold c1Expected
  rw [if_neg (show ¬(f.format = "svg") from by rw [hjson]; decide),
    if_neg (show ¬(f.kind = "repo") from by rw [hkq]; decide)]
  unfold applyGeneratorImportToForm
  simp [syncGeneratorControlVisibility, syncGeneratorCustomThemeVisibility,
    howner, hrepo, hkne, hkfix, hfne, hffix, hlocne, hlocfix, hloc, htitlestep, hpbq,
    hhsync, hfsync, hhideapply, hfget, hfieldsapply, hpal,
    etaOwner, etaRepo, etaKind, etaFormat, etaLocale, etaIncludeReport]

/-- The apply stage of the round trip: applying the expected parse back to
the form is the identity. -/
theorem c1_apply (f : GenForm) (h : RoundTripReady f) :
    applyGeneratorImportToForm f (c1Expected f) = f := by
  have hformat := h.2.2.2.2.2.1
  have hkind := h.2.2.2.2.1
  rcases hformat with hsvg | hjson
  · exact c1_apply_svg f h hsvg
  · rcases hkind with hkr | hkq
    · exact c1_apply_json_repo f h hjson hkr
    · exact c1_apply_json_quality f h hjson hkq

/-- The demo form with every field option disabled — the state the
availability sync itself produces for format=svg, where the field-group
checkboxes are all unavailable. -/
def c1Form : GenForm :=
  { baseForm with fieldOptions := demoFieldOpts.map fun o => { o with disabled := true } }

/-- The availability-synced form whose repo input holds the legal GitHub
repository name `a.b`. -/
def c1DotForm : GenForm := { c1Form with repo := "a.b" }

/-- The availability-synced form on the custom theme: its palette inputs
(the ocean values) are all populated with normalized colors. -/
def c1CustomForm : GenForm := { c1Form with theme := "custom" }

/-- C1: for every form whose populated fields are all inside their
availability-enabled groups for its (kind, format, theme) — captured by
`RoundTripReady`: canonical printed numbers, synced option availability,
serialized hide/fields mirrors, normalized custom-palette inputs when the
theme is `custom`, and owner/repo drawn from the characters the stats-path
template accepts — parsing the export URL (`buildGeneratorPath`) with
`parseGeneratorImport` succeeds, and applying the parse back to the form
with `applyGeneratorImportToForm` reproduces the form exactly, the
custom-theme palette leg included. -/
theorem C1_export_import_round_trip (f : GenForm) (h : RoundTripReady f) :
    ∃ p, parseGeneratorImport (buildGeneratorPath f) = some p ∧
      applyGeneratorImportToForm f p = f :=
  ⟨c1Expected f, c1_parse f h, c1_apply f h⟩

/-- C1 counterexample: a form whose repo input is the legal GitHub
repository name `a.b` — every character alphanumeric or `-`/`_`/`.`, every
other field availability-enabled and canonical — exports a URL that
`parseGeneratorImport` rejects outright: the stats-path template captures
the repo with `[^/.]+`, the dot makes the template fail, no later import
shape matches the exported URL, and `applyRepoImport` leaves the form
untouched with the invalid-reference message instead of round-tripping. -/
theorem C1_dotted_repo_counterexample :
    (∀ c ∈ c1DotForm.repo.data, c.isAlphanum = true ∨ c = '-' ∨ c = '_' ∨ c = '.') ∧
    parseGeneratorImport (buildGeneratorPath c1DotForm) = none ∧
    applyRepoImport c1DotForm (buildGeneratorPath c1DotForm) =
      (c1DotForm, invalidGeneratorRepoUrlMsg) := by
  have hp : parseGeneratorImport (buildGeneratorPath c1DotForm) = none := by decide!
  refine ⟨by decide, hp, ?_⟩
  unfold applyRepoImport
  rw [hp]

/-- C1 witness: the concrete availability-synced demo form on the custom
theme — all 16 palette inputs populated with normalized colors — round-trips
through its own export URL, palette included. -/
theorem C1_export_import_round_trip_witness :
    RoundTripReady c1CustomForm ∧
    (∃ p, parseGeneratorImport (buildGeneratorPath c1CustomForm) = some p ∧
      applyGeneratorImportToForm c1CustomForm p = c1CustomForm) := by
  have h : RoundTripReady c1CustomForm := by decide!
  exact ⟨h, C1_export_import_round_trip c1CustomForm h⟩

end RepoInspector
